import Mathlib

/-!
# ftbench (ft2demos 2.5.5): benchmark runner and charset builder

A shallow embedding of `src/ftbench.c`.

Conventions of the embedding

* C `double` values (clock readings, accumulated times, `max_time`) are
  idealised as exact rationals `ℚ`.
* C `int` values are integers kept in the range `[-2^31, 2^31)`; every
  arithmetic result that is stored into an `int` goes through `wrap_int`
  (two's complement wrap-around).  `unsigned int` / `FT_UInt` values are
  naturals below `2^32`, `FT_ULong` values naturals below `2^64`.
* The system clock is an oracle: the `k`-th call of `get_time()` returns
  `clock k`.
* A loop that the C code may run forever is given a fuel argument; the
  result is `none` when the fuel runs out.
* `printf` appends an output item to `World.stdout`.
-/

namespace FtBench

/-! ## Machine integers -/

/-- Largest value of a C `int`. -/
def INT_MAX : Int := 2147483647

/-- Smallest value of a C `int`. -/
def INT_MIN : Int := -2147483648

/-- Store an integer into a C `int` (two's complement, 32 bit). -/
def wrap_int (x : Int) : Int := (x + 2147483648) % 4294967296 - 2147483648

/-- Convert an integer to `FT_ULong` (64 bit unsigned). -/
def to_ulong (x : Int) : Nat := (x % 18446744073709551616).toNat

/-- The value is representable as a C `int`. -/
def in_int_range (x : Int) : Prop := INT_MIN ≤ x ∧ x ≤ INT_MAX

instance (x : Int) : Decidable (in_int_range x) := by
  unfold in_int_range; exact inferInstance

/-! ## Data model -/

/-- The C struct `btimer_t`. -/
structure btimer_t where
  t0 : ℚ
  total : ℚ

/-- The C struct `bcharset_t`; `code = none` is the NULL pointer, otherwise
the cells of the allocated array. -/
structure bcharset_t where
  size : Int
  code : Option (List Nat)

/-- What `test->user_data` points to. -/
inductive user_data_t where
  | null
  | flags (f : Nat)
  | charset (c : bcharset_t)

/-- The part of `FT_Face` (and of the FreeType calls on it) that ftbench's
runner and charset builder read: `num_glyphs` (an `FT_Long`), whether
`face->charmap` is non-NULL, and the two character map iterators
`FT_Get_First_Char` and `FT_Get_Next_Char`, each returning the character
code and the glyph index stored through `&gindex`. -/
structure FT_Face where
  num_glyphs : Int
  charmap : Bool
  FT_Get_First_Char : Nat × Nat
  FT_Get_Next_Char : Nat → Nat × Nat

/-- One item written to standard output by `benchmark`.
* `no_cache_manager t` is `printf( "  %-25s no cache manager\n", t )`;
* `title t` is `printf( "  %-25s ", t )`;
* `us_per_op v` is `printf( "%5.3f us/op\n", v )`;
* `no_error_free_calls` is `printf( "no error-free calls\n" )`. -/
inductive Out where
  | no_cache_manager (title : String)
  | title (title : String)
  | us_per_op (v : ℚ)
  | no_error_free_calls
  deriving DecidableEq

/-- The process state outside the locals of the function at hand: the clock
oracle and the number of clock reads so far, whether the global `cache_man`
is non-NULL, and what has been printed. -/
structure World where
  clock : Nat → ℚ
  ticks : Nat
  cache_man : Bool
  stdout : List Out

/-- The C function pointer type `bcall_t`: a case receives the timer, the
face and the user data, may change the world, and returns a count. -/
abbrev bcall_t := btimer_t → FT_Face → user_data_t → World → Int × btimer_t × World

/-- The C struct `btest_t`. -/
structure btest_t where
  title : String
  bench : bcall_t
  cache_first : Int
  user_data : user_data_t

/-! ## Timer -/

/-- The C function `get_time`: read the clock. -/
def get_time (w : World) : ℚ × World :=
  (w.clock w.ticks, { w with ticks := w.ticks + 1 })

/-- The macro `TIMER_START`: `timer->t0 = get_time()`. -/
def TIMER_START (timer : btimer_t) (w : World) : btimer_t × World :=
  ({ timer with t0 := (get_time w).1 }, (get_time w).2)

/-- The macro `TIMER_STOP`: `timer->total += get_time() - timer->t0`. -/
def TIMER_STOP (timer : btimer_t) (w : World) : btimer_t × World :=
  ({ timer with total := timer.total + ((get_time w).1 - timer.t0) }, (get_time w).2)

/-- The macro `TIMER_GET`. -/
def TIMER_GET (timer : btimer_t) : ℚ := timer.total

/-- The macro `TIMER_RESET`: `timer->total = 0`. -/
def TIMER_RESET (timer : btimer_t) : btimer_t := { timer with total := 0 }

/-- Append one item to standard output. -/
def printf (o : Out) (w : World) : World := { w with stdout := w.stdout ++ [o] }

/-! ## The runner `benchmark` -/

/-- The locals of `benchmark` during the measured loop, the world, and a
ghost log `calls` of the values returned by the measured invocations of
`test->bench`, oldest first. -/
structure bench_state where
  n : Int
  done : Int
  timer : btimer_t
  elapsed : btimer_t
  world : World
  calls : List Int

/-- One pass through the body of the measured loop, up to and including
`TIMER_STOP( &elapsed )`. -/
def bench_body (face : FT_Face) (test : btest_t) (s : bench_state) : bench_state :=
  let e1 := TIMER_START s.elapsed s.world
  let r := test.bench s.timer face test.user_data e1.2
  let e2 := TIMER_STOP e1.1 r.2.2
  { n := s.n
    done := wrap_int (s.done + r.1)
    timer := r.2.1
    elapsed := e2.1
    world := e2.2
    calls := s.calls ++ [r.1] }

/-- The loop increment `n++`. -/
def bench_incr (s : bench_state) : bench_state := { s with n := wrap_int (s.n + 1) }

/-- The measured loop
`for ( n = 0; !max_iter || n < max_iter; n++ ) { ...; if ( TIMER_GET( &elapsed ) > max_time ) break; }`
started in state `s`; each evaluation of the loop condition uses one unit of
fuel. -/
def bench_loop (face : FT_Face) (test : btest_t) (max_iter : Int) (max_time : ℚ) :
    Nat → bench_state → Option bench_state
  | 0, _ => none
  | fuel + 1, s =>
    if max_iter = 0 ∨ s.n < max_iter then
      if TIMER_GET (bench_body face test s).elapsed > max_time then
        some (bench_body face test s)
      else
        bench_loop face test max_iter max_time fuel (bench_incr (bench_body face test s))
    else
      some s

/-- The state in which the measured loop is entered: `n = done = 0` and both
timers reset. -/
def bench_init (timer elapsed : btimer_t) (w : World) : bench_state :=
  { n := 0
    done := 0
    timer := TIMER_RESET timer
    elapsed := TIMER_RESET elapsed
    world := w
    calls := [] }

/-- The line printed after the measured loop. -/
def bench_report (s : bench_state) : Out :=
  if s.done ≠ 0 then Out.us_per_op (TIMER_GET s.timer * 1000000 / (s.done : ℚ))
  else Out.no_error_free_calls

/-- What a call of `benchmark` leaves behind: the world, the ghost log
`warmup` of the values returned by invocations made before the measured
loop, and the locals at the end of the measured loop (`none` when
`benchmark` returned before reaching it). -/
structure bench_result where
  world : World
  warmup : List Int
  final : Option bench_state

/-- The part of `benchmark` from `printf( "  %-25s ", test->title )` on. -/
def benchmark_measure (fuel : Nat) (face : FT_Face) (test : btest_t) (max_iter : Int)
    (max_time : ℚ) (timer elapsed : btimer_t) (warmup : List Int) (w : World) :
    Option bench_result :=
  match bench_loop face test max_iter max_time fuel
      (bench_init timer elapsed (printf (Out.title test.title) w)) with
  | none => none
  | some s =>
    some { world := printf (bench_report s) s.world
           warmup := warmup
           final := some s }

/-- The C function `benchmark`.  `timer` and `elapsed` are the indeterminate
initial contents of the two local timers. -/
def benchmark (fuel : Nat) (face : FT_Face) (test : btest_t) (max_iter : Int)
    (max_time : ℚ) (timer elapsed : btimer_t) (w : World) : Option bench_result :=
  if test.cache_first ≠ 0 then
    if w.cache_man = false then
      some { world := printf (Out.no_cache_manager test.title) w
             warmup := []
             final := none }
    else
      let r := test.bench (TIMER_RESET timer) face test.user_data w
      benchmark_measure fuel face test max_iter max_time r.2.1 elapsed [r.1] r.2.2
  else
    benchmark_measure fuel face test max_iter max_time timer elapsed [] w

/-- Number of measured invocations of the case in a finished run. -/
def bench_result.invocations (r : bench_result) : Nat :=
  match r.final with
  | none => 0
  | some s => s.calls.length

/-! ### Sample cases and clocks -/

/-- A case that times one interval and returns `ret`:
`TIMER_START( timer ); TIMER_STOP( timer ); return ret;`. -/
def case_const (ret : Int) : bcall_t := fun timer _ _ w =>
  (ret, (TIMER_STOP (TIMER_START timer w).1 (TIMER_START timer w).2).1,
    (TIMER_STOP (TIMER_START timer w).1 (TIMER_START timer w).2).2)

/-- A case that adds 1000 seconds to the timer and returns 7 on its first
invocation (taken to be the one that finds the clock unread, and to read it
four times), and behaves as `case_const 1` afterwards. -/
def case_cold : bcall_t := fun timer face u w =>
  if w.ticks = 0 then
    (7, { timer with total := timer.total + 1000 }, { w with ticks := 4 })
  else case_const 1 timer face u w

/-- A clock on which every invocation of `case_const` under `benchmark`
lasts `d`: reads `4k` and `4k+1` (the two starts) return `k * d`, reads
`4k+2` and `4k+3` (the two stops) return `(k+1) * d`. -/
def clock_fixed (d : ℚ) (k : Nat) : ℚ :=
  if k % 4 < 2 then ((k / 4 : Nat) : ℚ) * d else (((k / 4 : Nat) : ℚ) + 1) * d

/-- A world with the given clock, nothing read or printed yet. -/
def world_of (clock : Nat → ℚ) (cache_man : Bool) : World :=
  { clock := clock, ticks := 0, cache_man := cache_man, stdout := [] }

/-- A test record around `case_const`. -/
def test_const (ret : Int) (cache_first : Int) : btest_t :=
  { title := "t", bench := case_const ret, cache_first := cache_first,
    user_data := user_data_t.null }

/-- A face without glyphs, for runs of cases that ignore the face. -/
def face_none : FT_Face :=
  { num_glyphs := 0, charmap := false, FT_Get_First_Char := (0, 0),
    FT_Get_Next_Char := fun _ => (0, 0) }

/-- A zeroed timer. -/
def timer_zero : btimer_t := { t0 := 0, total := 0 }

/-! ### Observations on the measured loop -/

/-- The locals after `k` passes through the loop body from state `s`, no
exit test applied and `n` left alone. -/
def bench_passes (face : FT_Face) (test : btest_t) (k : Nat) (s : bench_state) : bench_state :=
  (bench_body face test)^[k] s

/-- The loop started in `s` is left right after its `i`-th invocation: the
iteration cap is reached or the time cap is exceeded. -/
def bench_exits (face : FT_Face) (test : btest_t) (max_iter : Int) (max_time : ℚ)
    (s : bench_state) (i : Nat) : Prop :=
  (max_iter ≠ 0 ∧ s.n + (i : Int) = max_iter) ∨
    TIMER_GET (bench_passes face test i s).elapsed > max_time

/-- Overwrite the loop counter. -/
def set_n (m : Int) (s : bench_state) : bench_state := { s with n := m }

/-- The timer, the warm-up log and the world with which `benchmark` reaches
`printf( "  %-25s ", test->title )` when it does not return early: after the
warm-up invocation for a `cache_first` case, unchanged otherwise. -/
def bench_entry (face : FT_Face) (test : btest_t) (timer : btimer_t) (w : World) :
    btimer_t × List Int × World :=
  if test.cache_first ≠ 0 then
    ((test.bench (TIMER_RESET timer) face test.user_data w).2.1,
      [(test.bench (TIMER_RESET timer) face test.user_data w).1],
      (test.bench (TIMER_RESET timer) face test.user_data w).2.2)
  else (timer, [], w)

/-- The state in which `benchmark` enters its measured loop. -/
def bench_start (face : FT_Face) (test : btest_t) (timer elapsed : btimer_t) (w : World) :
    bench_state :=
  bench_init (bench_entry face test timer w).1 elapsed
    (printf (Out.title test.title) (bench_entry face test timer w).2.2)

/-- The cumulative outer elapsed time, `TIMER_GET( &elapsed )`, after the
first `k` measured invocations of a call of `benchmark`, no exit test
applied. -/
def elapsed_after (face : FT_Face) (test : btest_t) (timer elapsed : btimer_t) (w : World)
    (k : Nat) : ℚ :=
  TIMER_GET (bench_passes face test k (bench_start face test timer elapsed w)).elapsed

/-- The exit test of the measured loop of `benchmark` right after the `k`-th
measured invocation: the iteration cap is nonzero and reached, or the
cumulative outer elapsed time is strictly greater than `max_time`. -/
def bench_stops (face : FT_Face) (test : btest_t) (max_iter : Int) (max_time : ℚ)
    (timer elapsed : btimer_t) (w : World) (k : Nat) : Prop :=
  (max_iter ≠ 0 ∧ (k : Int) = max_iter) ∨
    elapsed_after face test timer elapsed w k > max_time

/-- The measured loop is reached: the case is not `cache_first`, or a cache
manager exists. -/
def bench_reached (test : btest_t) (w : World) : Prop :=
  test.cache_first = 0 ∨ w.cache_man = true

/-! ## The charset builder `get_charset` -/

/-- How a run of `get_charset` can fail to return: the fuel of the model ran
out, or the C code wrote outside the array it allocated. -/
inductive Fault where
  | out_of_fuel
  | out_of_bounds
  deriving DecidableEq

/-- The call `calloc( nmemb, sizeof ( FT_ULong ) )` with `nmemb` an
`FT_Long`: NULL when `nmemb` is negative (as a `size_t` it is too large to
allocate) or when the allocator fails (`alloc_ok = false`), otherwise
`nmemb` zeroed cells. -/
def calloc (nmemb : Int) (alloc_ok : Bool) : Option (List Nat) :=
  if 0 ≤ nmemb ∧ alloc_ok = true then some (List.replicate nmemb.toNat 0) else none

/-- The assignment `code[i] = v` into an array of `code.length` cells; `none`
when the index is outside the array. -/
def store (code : List Nat) (i : Int) (v : Nat) : Option (List Nat) :=
  if 0 ≤ i ∧ i < (code.length : Int) then some (code.set i.toNat v) else none

/-- The loop of the character map branch,
`while ( gindex && i < face->num_glyphs ) { if ( gindex >= first_index ) code[i++] = charcode; charcode = FT_Get_Next_Char( face, charcode, &gindex ); }`,
each evaluation of the loop condition using one unit of fuel. -/
def charmap_loop (face : FT_Face) (first_index : Nat) :
    Nat → Nat → Nat → Int → List Nat → Except Fault (Int × List Nat)
  | 0, _, _, _, _ => Except.error Fault.out_of_fuel
  | fuel + 1, charcode, gindex, i, code =>
    if gindex ≠ 0 ∧ i < face.num_glyphs then
      if gindex ≥ first_index then
        match store code i charcode with
        | none => Except.error Fault.out_of_bounds
        | some code1 =>
          charmap_loop face first_index fuel (face.FT_Get_Next_Char charcode).1
            (face.FT_Get_Next_Char charcode).2 (wrap_int (i + 1)) code1
      else
        charmap_loop face first_index fuel (face.FT_Get_Next_Char charcode).1
          (face.FT_Get_Next_Char charcode).2 i code
    else
      Except.ok (i, code)

/-- The loop of the identity branch,
`for ( ...; j < face->num_glyphs; i++, j++ ) code[i] = j;`,
each evaluation of the loop condition using one unit of fuel. -/
def identity_loop (face : FT_Face) :
    Nat → Int → Int → List Nat → Except Fault (Int × List Nat)
  | 0, _, _, _ => Except.error Fault.out_of_fuel
  | fuel + 1, i, j, code =>
    if j < face.num_glyphs then
      match store code i (to_ulong j) with
      | none => Except.error Fault.out_of_bounds
      | some code1 => identity_loop face fuel (wrap_int (i + 1)) (wrap_int (j + 1)) code1
    else
      Except.ok (i, code)

/-- The C function `get_charset`.  The global `first_index` (an
`unsigned int`) is passed as an argument, `alloc_ok` tells whether the
allocator can serve the request, and `charset` is the record the caller
passes in. -/
def get_charset (fuel : Nat) (face : FT_Face) (first_index : Nat) (alloc_ok : Bool)
    (charset : bcharset_t) : Except Fault bcharset_t :=
  match calloc face.num_glyphs alloc_ok with
  | none => Except.ok { charset with code := none }
  | some code =>
    if face.charmap = true then
      match charmap_loop face first_index fuel face.FT_Get_First_Char.1
          face.FT_Get_First_Char.2 0 code with
      | Except.error e => Except.error e
      | Except.ok r => Except.ok { size := r.1, code := some r.2 }
    else
      match identity_loop face fuel 0 (wrap_int (first_index : Int)) code with
      | Except.error e => Except.error e
      | Except.ok r => Except.ok { size := r.1, code := some r.2 }

/-! ### Observations on the character map -/

/-- The `k`-th pair (character code, glyph index) produced by the iterators
started at the pair `e`: `e` itself, then `FT_Get_Next_Char` of the previous
character code. -/
def cmap_nth_from (face : FT_Face) : Nat → Nat × Nat → Nat × Nat
  | 0, e => e
  | k + 1, e => cmap_nth_from face k (face.FT_Get_Next_Char e.1)

/-- The pairs produced from `e` on, up to the first one with glyph index 0
(excluded), looking at `L` pairs at most. -/
def cmap_enum_from (face : FT_Face) : Nat → Nat × Nat → List (Nat × Nat)
  | 0, _ => []
  | L + 1, e =>
    if e.2 = 0 then [] else e :: cmap_enum_from face L (face.FT_Get_Next_Char e.1)

/-- The `k`-th pair of the character map enumeration of the face, which
starts with `FT_Get_First_Char`. -/
def cmap_nth (face : FT_Face) (k : Nat) : Nat × Nat :=
  cmap_nth_from face k face.FT_Get_First_Char

/-- The character map enumeration of the face: the pairs before the first
zero glyph index, looking at `L` pairs at most. -/
def cmap_enum (face : FT_Face) (L : Nat) : List (Nat × Nat) :=
  cmap_enum_from face L face.FT_Get_First_Char

/-- The character codes the charset is expected to hold: those of the
enumerated pairs whose glyph index is at least `first_index`, in
enumeration order. -/
def cmap_kept (face : FT_Face) (first_index : Nat) (L : Nat) : List Nat :=
  ((cmap_enum face L).filter (fun e => decide (first_index ≤ e.2))).map Prod.fst

/-- The cells `code[0 .. size)` of a charset (nothing for a NULL array). -/
def bcharset_t.entries (c : bcharset_t) : List Nat :=
  match c.code with
  | none => []
  | some code => code.take c.size.toNat

/-! ### Sample faces -/

/-- A face with 3 glyphs whose character map has the single entry
(65, glyph 100), a glyph index out of range. -/
def face_broken : FT_Face :=
  { num_glyphs := 3, charmap := true, FT_Get_First_Char := (65, 100),
    FT_Get_Next_Char := fun _ => (0, 0) }

/-- A face with 4 glyphs whose character map enumerates
(65, 3), (66, 1), (67, 2). -/
def face_abc : FT_Face :=
  { num_glyphs := 4, charmap := true, FT_Get_First_Char := (65, 3),
    FT_Get_Next_Char := fun c => if c = 65 then (66, 1) else if c = 66 then (67, 2) else (0, 0) }

/-- A face with `n` glyphs and no character map. -/
def face_plain (n : Int) : FT_Face :=
  { num_glyphs := n, charmap := false, FT_Get_First_Char := (0, 0),
    FT_Get_Next_Char := fun _ => (0, 0) }

/-- A charset record not yet filled in. -/
def charset_blank : bcharset_t := { size := 0, code := none }

/-- A face with 3 glyphs whose character map enumerates four character
codes, (65, 2), (66, 1), (67, 2), (68, 2): more codes than glyphs, every
glyph index in range. -/
def face_dense : FT_Face :=
  { num_glyphs := 3, charmap := true, FT_Get_First_Char := (65, 2),
    FT_Get_Next_Char := fun c =>
      if c = 65 then (66, 1) else if c = 66 then (67, 2) else if c = 67 then (68, 2)
      else (0, 0) }

/-- A face with 8 glyphs whose character map enumerates
(65, 7), (66, 2), (67, 6) (scenario D: one glyph index is 2). -/
def face_scenario_d : FT_Face :=
  { num_glyphs := 8, charmap := true, FT_Get_First_Char := (65, 7),
    FT_Get_Next_Char := fun c => if c = 65 then (66, 2) else if c = 66 then (67, 6) else (0, 0) }

/-! ## The cases -/

/-- Convert an integer to `FT_UInt` / `unsigned int` (32 bit unsigned). -/
def to_uint (x : Int) : Nat := (x % 4294967296).toNat

/-- The calls out of ftbench.c that the cases below make, each a function of
its arguments and of the world that returns an error code (0 is success)
and the world it leaves (time passes by changing the world):
* `FT_Load_Glyph( face, glyph_index, load_flags )`;
* `FT_Render_Glyph( face->glyph, render_mode )`, given the face and the index
  of the glyph loaded into its slot;
* `FT_Get_Advances( face, start, count, flags, advances )`;
* `get_face( &bench_face )`, which opens the font file once more;
* `FT_Done_Face( bench_face )`. -/
structure FT_Ops where
  FT_Load_Glyph : FT_Face → Nat → Int → World → Int × World
  FT_Render_Glyph : FT_Face → Nat → Int → World → Int × World
  FT_Get_Advances : FT_Face → Nat → Nat → Nat → World → Int × World
  get_face : World → Int × World
  FT_Done_Face : World → World

/-- What a case leaves behind: the count it returns, the timer, the world,
and a ghost log `tried` of the sub-operations it attempted, oldest first,
each as the glyph index passed and the error code returned. -/
structure case_run where
  ret : Int
  timer : btimer_t
  world : World
  tried : List (Nat × Int)

/-- The loop of `test_load`,
`for ( ...; i < face->num_glyphs; i++ ) { if ( !FT_Load_Glyph( face, i, load_flags ) ) done++; }`,
each evaluation of the loop condition using one unit of fuel; returns
`done`, the world and the ghost log. -/
def load_loop (ops : FT_Ops) (face : FT_Face) (load_flags : Int) :
    Nat → Int → Int → World → List (Nat × Int) → Option (Int × World × List (Nat × Int))
  | 0, _, _, _, _ => none
  | fuel + 1, i, done, w, tried =>
    if i < face.num_glyphs then
      load_loop ops face load_flags fuel (wrap_int (i + 1))
        (if (ops.FT_Load_Glyph face (to_uint i) load_flags w).1 = 0 then wrap_int (done + 1)
         else done)
        (ops.FT_Load_Glyph face (to_uint i) load_flags w).2
        (tried ++ [(to_uint i, (ops.FT_Load_Glyph face (to_uint i) load_flags w).1)])
    else
      some (done, w, tried)

/-- The C function `test_load`; the globals `first_index` and `load_flags` are
arguments, and the unused `user_data` is left out. -/
def test_load (ops : FT_Ops) (first_index : Nat) (load_flags : Int) (fuel : Nat)
    (timer : btimer_t) (face : FT_Face) (w : World) : Option case_run :=
  match load_loop ops face load_flags fuel (wrap_int (first_index : Int)) 0
      (TIMER_START timer w).2 [] with
  | none => none
  | some r =>
    some { ret := r.1
           timer := (TIMER_STOP (TIMER_START timer w).1 r.2.1).1
           world := (TIMER_STOP (TIMER_START timer w).1 r.2.1).2
           tried := r.2.2 }

/-- The C function `test_load_advances`; `user_data` must point to the flags
(`none` models the invalid read otherwise).  The count passed to
`FT_Get_Advances` and the value added to `done` are both
`face->num_glyphs - first_index`, converted to `FT_UInt` and to `int`.  The
scratch array `advances` is only handed to the library and is not
modelled. -/
def test_load_advances (ops : FT_Ops) (first_index : Nat) (timer : btimer_t) (face : FT_Face)
    (user_data : user_data_t) (w : World) : Option case_run :=
  match user_data with
  | user_data_t.flags flags =>
    some { ret := wrap_int (0 + (face.num_glyphs - (first_index : Int)))
           timer := (TIMER_STOP (TIMER_START timer w).1
              (ops.FT_Get_Advances face first_index
                (to_uint (face.num_glyphs - (first_index : Int))) flags
                (TIMER_START timer w).2).2).1
           world := (TIMER_STOP (TIMER_START timer w).1
              (ops.FT_Get_Advances face first_index
                (to_uint (face.num_glyphs - (first_index : Int))) flags
                (TIMER_START timer w).2).2).2
           tried := [(first_index, (ops.FT_Get_Advances face first_index
                (to_uint (face.num_glyphs - (first_index : Int))) flags
                (TIMER_START timer w).2).1)] }
  | _ => none

/-- The loop of `test_render`,
`for ( ...; i < face->num_glyphs; i++ ) { if ( FT_Load_Glyph( ... ) ) continue; TIMER_START( timer ); if ( !FT_Render_Glyph( ... ) ) done++; TIMER_STOP( timer ); }`,
each evaluation of the loop condition using one unit of fuel. -/
def render_loop (ops : FT_Ops) (face : FT_Face) (load_flags render_mode : Int) :
    Nat → Int → Int → btimer_t → World → Option (Int × btimer_t × World)
  | 0, _, _, _, _ => none
  | fuel + 1, i, done, timer, w =>
    if i < face.num_glyphs then
      if (ops.FT_Load_Glyph face (to_uint i) load_flags w).1 ≠ 0 then
        render_loop ops face load_flags render_mode fuel (wrap_int (i + 1)) done timer
          (ops.FT_Load_Glyph face (to_uint i) load_flags w).2
      else
        render_loop ops face load_flags render_mode fuel (wrap_int (i + 1))
          (if (ops.FT_Render_Glyph face (to_uint i) render_mode
                (TIMER_START timer (ops.FT_Load_Glyph face (to_uint i) load_flags w).2).2).1 = 0
           then wrap_int (done + 1) else done)
          (TIMER_STOP (TIMER_START timer (ops.FT_Load_Glyph face (to_uint i) load_flags w).2).1
            (ops.FT_Render_Glyph face (to_uint i) render_mode
              (TIMER_START timer (ops.FT_Load_Glyph face (to_uint i) load_flags w).2).2).2).1
          (TIMER_STOP (TIMER_START timer (ops.FT_Load_Glyph face (to_uint i) load_flags w).2).1
            (ops.FT_Render_Glyph face (to_uint i) render_mode
              (TIMER_START timer (ops.FT_Load_Glyph face (to_uint i) load_flags w).2).2).2).2
    else
      some (done, timer, w)

/-- The C function `test_render`; the globals `first_index`, `load_flags` and
`render_mode` are arguments, and the unused `user_data` is left out. -/
def test_render (ops : FT_Ops) (first_index : Nat) (load_flags render_mode : Int) (fuel : Nat)
    (timer : btimer_t) (face : FT_Face) (w : World) : Option (Int × btimer_t × World) :=
  render_loop ops face load_flags render_mode fuel (wrap_int (first_index : Int)) 0 timer w

/-- The C function `test_new_face`; the unused `face` and `user_data` are left
out. -/
def test_new_face (ops : FT_Ops) (timer : btimer_t) (w : World) : Int × btimer_t × World :=
  (1,
    (TIMER_STOP (TIMER_START timer w).1
      (if (ops.get_face (TIMER_START timer w).2).1 = 0 then
        ops.FT_Done_Face (ops.get_face (TIMER_START timer w).2).2
       else (ops.get_face (TIMER_START timer w).2).2)).1,
    (TIMER_STOP (TIMER_START timer w).1
      (if (ops.get_face (TIMER_START timer w).2).1 = 0 then
        ops.FT_Done_Face (ops.get_face (TIMER_START timer w).2).2
       else (ops.get_face (TIMER_START timer w).2).2)).2)

/-- The world after `FT_Load_Glyph` has been called on the `d` glyph indices
`j, j + 1, ..., j + d - 1` in turn. -/
def load_world (ops : FT_Ops) (face : FT_Face) (load_flags : Int) : Nat → Nat → World → World
  | 0, _, w => w
  | d + 1, j, w => load_world ops face load_flags d (j + 1) (ops.FT_Load_Glyph face j load_flags w).2

/-- Number of logged sub-operations that returned no error. -/
def succeeded (tried : List (Nat × Int)) : Nat :=
  (tried.filter (fun e => decide (e.2 = 0))).length

/-! ### Sample operations -/

/-- The reading a call of `get_time` would return in this world. -/
def now (w : World) : ℚ := w.clock w.ticks

/-- Let `d` seconds pass: every later reading of the clock is `d` more. -/
def advance (d : ℚ) (w : World) : World := { w with clock := fun t => w.clock t + d }

/-- Operations of fixed outcome and duration: loading glyph `i` returns
`lerr i` and takes `ldur i`, rendering it returns `rerr i` and takes
`rdur i`, the advances query returns `aerr`, `get_face` returns `ferr`;
the last three take no time. -/
def ops_timed (lerr : Nat → Int) (ldur : Nat → ℚ) (rerr : Nat → Int) (rdur : Nat → ℚ)
    (aerr ferr : Int) : FT_Ops :=
  { FT_Load_Glyph := fun _ i _ w => (lerr i, advance (ldur i) w)
    FT_Render_Glyph := fun _ i _ w => (rerr i, advance (rdur i) w)
    FT_Get_Advances := fun _ _ _ _ w => (aerr, w)
    get_face := fun w => (ferr, w)
    FT_Done_Face := fun w => w }

/-- The summed duration of a sub-operation over the glyph indices
`k, ..., k + len - 1` that pass the test `keep`. -/
def summed (dur : Nat → ℚ) (keep : Nat → Bool) (k len : Nat) : ℚ :=
  (((List.range' k len).filter keep).map dur).sum

/-- Operations that take no time: loading glyph `i` returns `lerr i`, the
advances query returns `aerr`, `get_face` returns `ferr`, rendering
succeeds. -/
def ops_instant (lerr : Nat → Int) (aerr ferr : Int) : FT_Ops :=
  ops_timed lerr (fun _ => 0) (fun _ => 0) (fun _ => 0) aerr ferr

/-- A world whose clock stands at 0, with nothing read or printed. -/
def world_still : World := world_of (fun _ => 0) false

/-- A world whose clock reads 0, 1, 2, ... on successive calls. -/
def world_counting : World := world_of (fun t => (t : ℚ)) false

/-! ## Timer cycles -/

/-- A sequence of balanced start/stop pairs on one timer: before each start
the world changes by `idle`, between start and stop by `work`. -/
def timer_cycles : List ((World → World) × (World → World)) → btimer_t → World →
    btimer_t × World
  | [], timer, w => (timer, w)
  | c :: rest, timer, w =>
    timer_cycles rest
      (TIMER_STOP (TIMER_START timer (c.1 w)).1 (c.2 (TIMER_START timer (c.1 w)).2)).1
      (TIMER_STOP (TIMER_START timer (c.1 w)).1 (c.2 (TIMER_START timer (c.1 w)).2)).2

/-- The clock values read by the pairs of `timer_cycles`: for each pair the
value at the start and the value at the matching stop. -/
def timer_readings : List ((World → World) × (World → World)) → World → List (ℚ × ℚ)
  | [], _ => []
  | c :: rest, w =>
    ((get_time (c.1 w)).1, (get_time (c.2 (get_time (c.1 w)).2)).1) ::
      timer_readings rest (get_time (c.2 (get_time (c.1 w)).2)).2

/-! ## The dispatcher: selection of catalog entries -/

/-- The enum constant `N_FT_BENCH`, the number of catalog entries. -/
def N_FT_BENCH : Nat := 10

/-- The library function `strchr( s, c ) != NULL` on a C string given as the
list of its character codes (terminator excluded): the code `c`, converted
to `char`, occurs in the string or is the terminator. -/
def strchr (s : List Nat) (c : Nat) : Bool :=
  decide (c % 256 ∈ s) || decide (c % 256 = 0)

/-- The macro `TEST( x )`: `!test_string || strchr( test_string, (x) )`, with
`test_string = none` for the NULL pointer. -/
def TEST (test_string : Option (List Nat)) (x : Nat) : Bool :=
  match test_string with
  | none => true
  | some s => strchr s x

/-- The loop of `main` over the catalog,
`for ( i = 0; i < N_FT_BENCH; i++ ) { if ( !TEST( 'a' + i ) ) continue; ... switch ( i ) ... }`,
with the rest of the body, `entry i`, acting on a state. -/
def dispatch_loop {σ : Type} (test_string : Option (List Nat)) (entry : Nat → σ → σ)
    (s : σ) : σ :=
  (List.range N_FT_BENCH).foldl
    (fun st i => if TEST test_string (97 + i) = true then entry i st else st) s

/-- The catalog entries whose `switch` is reached, in the order reached. -/
def dispatched (test_string : Option (List Nat)) : List Nat :=
  dispatch_loop test_string (fun i log => log ++ [i]) []

/-! ## The dispatcher: the body of the loop of `main` -/

/-- The case functions of ftbench.c, by name. -/
inductive case_id where
  | test_load
  | test_load_advances
  | test_render
  | test_embolden
  | test_get_glyph
  | test_get_cbox
  | test_get_bbox
  | test_get_char_index
  | test_cmap_cache
  | test_image_cache
  | test_sbit_cache
  | test_cmap_iter
  | test_new_face
  deriving DecidableEq

/-- The local `btest_t test` of `main`, with the case function by name
(`none` is the NULL pointer). -/
structure dtest_t where
  title : String
  bench : Option case_id
  cache_first : Int
  user_data : user_data_t

/-- What an iteration of the loop of `main` does, as seen from outside:
a call `benchmark( face, &test, max_iter, max_time )` with the contents of
`test` at that moment, or the line
`printf( "  %-25s disabled (size = 0)\n", test.title )`. -/
inductive Action where
  | benchmark (test : dtest_t)
  | disabled (title : String)

/-- What the loop of `main` reads: the locals `compare_cached` and `size`,
the face, the global `first_index`, the indeterminate initial contents of
the local `charset`, whether the allocator serves `get_charset` and the
fuel given to it, and the two load flag constants of the FreeType headers
used for the advances cases. -/
structure main_env where
  compare_cached : Int
  size : Int
  face : FT_Face
  first_index : Nat
  charset : bcharset_t
  alloc_ok : Bool
  fuel : Nat
  FT_LOAD_DEFAULT : Nat
  FT_LOAD_TARGET_LIGHT : Nat

/-- The contents of `test` after the four assignments at the top of the loop
body. -/
def test_cleared : dtest_t :=
  { title := "", bench := none, cache_first := 0, user_data := user_data_t.null }

/-- The cases that work through the cache. -/
def uses_cache (c : Option case_id) : Bool :=
  c = some case_id.test_image_cache || c = some case_id.test_sbit_cache ||
    c = some case_id.test_cmap_cache

/-- The statement `if ( size ) benchmark( face, &test, ... ); else printf( ... disabled ... )`. -/
def bench_if_size (size : Int) (test : dtest_t) : Action :=
  if size ≠ 0 then Action.benchmark test else Action.disabled test.title

/-- The `switch ( i )` of the loop of `main`, after `test` has been cleared:
the calls and lines of catalog entry `i`, appended to the trace `tr`.  A
fault of `get_charset` ends the run. -/
def main_entry (env : main_env) (i : Nat) (tr : List Action) : Except Fault (List Action) :=
  match i with
  | 0 =>
    Except.ok (tr ++
      [Action.benchmark { test_cleared with title := "Load", bench := some case_id.test_load }] ++
      (if env.compare_cached ≠ 0 then
        [Action.benchmark
          { test_cleared with
            cache_first := 1, title := "Load (image cached)",
            bench := some case_id.test_image_cache },
         bench_if_size env.size
          { test_cleared with
            cache_first := 1, title := "Load (sbit cached)",
            bench := some case_id.test_sbit_cache }]
       else []))
  | 1 =>
    Except.ok (tr ++
      [Action.benchmark
        { test_cleared with
          user_data := user_data_t.flags env.FT_LOAD_DEFAULT,
          title := "Load_Advances (Normal)", bench := some case_id.test_load_advances },
       Action.benchmark
        { test_cleared with
          user_data := user_data_t.flags env.FT_LOAD_TARGET_LIGHT,
          title := "Load_Advances (Fast)", bench := some case_id.test_load_advances }])
  | 2 =>
    Except.ok (tr ++
      [bench_if_size env.size
        { test_cleared with title := "Render", bench := some case_id.test_render }])
  | 3 =>
    Except.ok (tr ++
      [Action.benchmark
        { test_cleared with title := "Get_Glyph", bench := some case_id.test_get_glyph }])
  | 4 =>
    Except.ok (tr ++
      [Action.benchmark
        { test_cleared with title := "Get_CBox", bench := some case_id.test_get_cbox }])
  | 5 =>
    match get_charset env.fuel env.face env.first_index env.alloc_ok env.charset with
    | Except.error e => Except.error e
    | Except.ok charset =>
      if charset.code.isSome then
        Except.ok (tr ++
          [Action.benchmark
            { test_cleared with
              user_data := user_data_t.charset charset,
              title := "Get_Char_Index", bench := some case_id.test_get_char_index }] ++
          (if env.compare_cached ≠ 0 then
            [Action.benchmark
              { test_cleared with
                user_data := user_data_t.charset charset, cache_first := 1,
                title := "Get_Char_Index (cached)", bench := some case_id.test_cmap_cache }]
           else []))
      else Except.ok tr
  | 6 =>
    Except.ok (tr ++
      [Action.benchmark
        { test_cleared with title := "Iterate CMap", bench := some case_id.test_cmap_iter }])
  | 7 =>
    Except.ok (tr ++
      [Action.benchmark
        { test_cleared with title := "New_Face", bench := some case_id.test_new_face }])
  | 8 =>
    Except.ok (tr ++
      [bench_if_size env.size
        { test_cleared with title := "Embolden", bench := some case_id.test_embolden }])
  | 9 =>
    Except.ok (tr ++
      [Action.benchmark
        { test_cleared with title := "Get_BBox", bench := some case_id.test_get_bbox }])
  | _ => Except.ok tr

/-- One pass through the body of the loop of `main` for a selected entry; a
fault met earlier stays. -/
def main_step (env : main_env) (i : Nat) (st : Except Fault (List Action)) :
    Except Fault (List Action) :=
  match st with
  | Except.error e => Except.error e
  | Except.ok tr => main_entry env i tr

/-- The loop of `main` over the catalog: the trace of `benchmark` calls and
`disabled` lines, in the order made. -/
def main_dispatch (env : main_env) (test_string : Option (List Nat)) :
    Except Fault (List Action) :=
  dispatch_loop test_string (main_step env) (Except.ok [])

/-- A sample environment: the given face and `first_index`, comparison with
the cache switched on, a working allocator. -/
def env_sample (face : FT_Face) (first_index : Nat) (size : Int) : main_env :=
  { compare_cached := 1, size := size, face := face, first_index := first_index,
    charset := charset_blank, alloc_ok := true, fuel := 10,
    FT_LOAD_DEFAULT := 0, FT_LOAD_TARGET_LIGHT := 65536 }

/-! ## `get_face` and the exit status of `main` -/

/-- The calls out of ftbench.c made by `get_face`: whether `fopen`, `malloc`
and `fread` succeed, and the error codes of `FT_New_Memory_Face` and
`FT_New_Face`. -/
structure file_env where
  fopen_ok : Bool
  malloc_ok : Bool
  fread_ok : Bool
  FT_New_Memory_Face : Int
  FT_New_Face : Int

/-- The C function `get_face`: given the global `preload` and whether the
static `memory_file` is set, the error returned, whether `memory_file` is
set afterwards, and the lines written to the error stream. -/
def get_face (preload : Int) (memory_file : Bool) (fs : file_env) :
    Int × Bool × List String :=
  if preload ≠ 0 then
    if memory_file = false then
      if fs.fopen_ok = false then (1, false, ["couldn't find or open"])
      else if fs.malloc_ok = false then
        (1, false, ["couldn't allocate memory to pre-load font file"])
      else if fs.fread_ok = false then (1, false, ["read error"])
      else
        (fs.FT_New_Memory_Face, true,
          if fs.FT_New_Memory_Face ≠ 0 then ["couldn't load font resource"] else [])
    else
      (fs.FT_New_Memory_Face, true,
        if fs.FT_New_Memory_Face ≠ 0 then ["couldn't load font resource"] else [])
  else
    (fs.FT_New_Face, memory_file,
      if fs.FT_New_Face ≠ 0 then ["couldn't load font resource"] else [])

/-- How the option loop and the argument count check of `main` end: in
`usage()` (which calls `exit( 1 )`), in the `-v` branch (`exit( 0 )`), or
by going on. -/
inductive cmdline_t where
  | usage
  | version
  | proceed

/-- The exit status of `main`: `FT_Init_FreeType` failing returns 1;
`usage()` exits with 1 and `-v` with 0; a failing `get_face` jumps to
`Exit`, where `main` returns 0; a failing `FT_Set_Pixel_Sizes` (called for
a nonzero `size` on a scalable face) returns 1; otherwise the tests run and
`main` returns 0 at `Exit`. -/
def main_exit (FT_Init_FreeType : Int) (cmdline : cmdline_t) (get_face_error : Int)
    (size : Int) (FT_IS_SCALABLE : Bool) (FT_Set_Pixel_Sizes : Int) : Int :=
  if FT_Init_FreeType ≠ 0 then 1
  else
    match cmdline with
    | cmdline_t.usage => 1
    | cmdline_t.version => 0
    | cmdline_t.proceed =>
      if get_face_error ≠ 0 then 0
      else if size ≠ 0 ∧ FT_IS_SCALABLE = true ∧ FT_Set_Pixel_Sizes ≠ 0 then 1
      else 0

/-- A file system in which the font file cannot be opened. -/
def file_env_missing : file_env :=
  { fopen_ok := false, malloc_ok := true, fread_ok := true,
    FT_New_Memory_Face := 1, FT_New_Face := 1 }

/-! ## The options `-c` and `-t` of `main` -/

/-- The branch `case 'c'` applied to the value of `atoi( optarg )`:
`if ( max_iter < 0 ) max_iter = -max_iter;`. -/
def option_c (v : Int) : Int := if v < 0 then wrap_int (-v) else v

/-- The branch `case 't'` applied to the value of `atof( optarg )`:
`if ( max_time < 0 ) max_time = -max_time;`. -/
def option_t (v : ℚ) : ℚ := if v < 0 then -v else v

/-! ## Arbitrary sequences of timer calls -/

/-- A use of a timer macro. -/
inductive timer_call where
  | start
  | stop
  | read

/-- One use of a timer macro, after the clock has been read `skip` times by
others. -/
def timer_step (c : Nat × timer_call) (s : btimer_t × World) : btimer_t × World :=
  match c.2 with
  | timer_call.start => TIMER_START s.1 { s.2 with ticks := s.2.ticks + c.1 }
  | timer_call.stop => TIMER_STOP s.1 { s.2 with ticks := s.2.ticks + c.1 }
  | timer_call.read => (s.1, { s.2 with ticks := s.2.ticks + c.1 })

/-- A sequence of uses of the timer macros, with no reset. -/
def timer_calls (cs : List (Nat × timer_call)) (s : btimer_t × World) : btimer_t × World :=
  cs.foldl (fun st c => timer_step c st) s

/-- A world whose clock reads 5 first and 3 ever after. -/
def world_backwards : World := world_of (fun t => if t = 0 then 5 else 3) false

/-! ## ftview and ftgrid: event handlers -/

/-- The enum constant `N_RENDER_MODES` of ftview.c. -/
def N_RENDER_MODES : Int := 6

/-- The C function `event_render_mode_change` of ftview.c, on
`status.render_mode`. -/
def event_render_mode_change (render_mode delta : Int) : Int :=
  if delta ≠ 0 then
    wrap_int (Int.tmod (wrap_int (wrap_int (render_mode + delta) + N_RENDER_MODES))
      N_RENDER_MODES)
  else render_mode

/-- The C function `event_index_change` of ftview.c, on `status.offset`:
the value returned and the new offset. -/
def event_index_change (offset num_indices delta : Int) : Int × Int :=
  let moved := wrap_int (offset + delta)
  let clamped :=
    if moved < 0 then 0
    else if moved ≥ num_indices then wrap_int (num_indices - 1)
    else moved
  (if offset = clamped then 0 else 1, clamped)

/-- The C function `event_index_change` of ftgrid.c, on `status.Num`. -/
def ftgrid_event_index_change (num num_indices delta : Int) : Int :=
  if wrap_int (num + delta) < 0 then 0
  else if wrap_int (num + delta) ≥ num_indices then wrap_int (num_indices - 1)
  else wrap_int (num + delta)

/-- The branch `case 'l'` of `parse_cmdline` in ftview.c applied to the value
of `atoi( optarg )`: `none` is `exit( 3 )`, otherwise the value left in
`status.lcd_mode`.  The enum constant `N_LCD_MODES` (defined in
ftcommon.h) is an argument. -/
def option_l (N_LCD_MODES : Int) (v : Int) : Option Int :=
  if v < 0 ∨ v > N_LCD_MODES then none else some v

/-- The statement `if ( status.lcd_mode >= 0 ) handle->lcd_mode = status.lcd_mode;`
of `main` in ftview.c: the new `handle->lcd_mode`. -/
def lcd_startup (status_lcd_mode handle_lcd_mode : Int) : Int :=
  if status_lcd_mode ≥ 0 then status_lcd_mode else handle_lcd_mode

/-- The statement under `case grKEY( 'l' ): case grKEY( 'k' ):` in the switch
of `Process_Event` in ftview.c, on `handle->lcd_mode`; `antialias` is
`handle->antialias` and `next` tells whether `event->key == grKEY( 'l' )`.
The tests that `Process_Event` runs before the switch are in
`Process_Event_lcd_mode`. -/
def lcd_key_cycle (N_LCD_MODES : Int) (antialias : Bool) (next : Bool) (lcd_mode : Int) : Int :=
  if antialias = true then
    if next = true then
      (if lcd_mode = wrap_int (N_LCD_MODES - 1) then 0 else wrap_int (lcd_mode + 1))
    else
      (if lcd_mode = 0 then wrap_int (N_LCD_MODES - 1) else wrap_int (lcd_mode - 1))
  else lcd_mode

/-- The block `if ( handle->antialias ) { ... }` that `Process_Event` in
ftview.c runs before its switch, on `handle->lcd_mode`: with
`handle->antialias` set, a key from `'A'` (65) up to `'A' + N_LCD_MODES`
(excluded) selects the mode `key - 'A'`. -/
def lcd_key_select (N_LCD_MODES : Int) (antialias : Bool) (key lcd_mode : Int) : Int :=
  if antialias = true then
    if lcd_mode = wrap_int (key - 65) then lcd_mode
    else if key ≥ 65 ∧ key < wrap_int (65 + N_LCD_MODES) then wrap_int (key - 65)
    else lcd_mode
  else lcd_mode

/-- What the C function `Process_Event` of ftview.c does to
`handle->lcd_mode` for the key `key`, from its first statement on: the two
tests on the render mode keys (`'1'` is 49), which return before the LCD
mode is looked at; the two tests on the direct selection keys, which return
as well; then the switch, of which only the case of the keys `l` and `k`
assigns to `handle->lcd_mode`.  `key_l` and `key_k` are the values of
`grKEY( 'l' )` and `grKEY( 'k' )`, a macro of graph.h. -/
def Process_Event_lcd_mode (N_LCD_MODES key_l key_k : Int) (antialias : Bool)
    (render_mode key lcd_mode : Int) : Int :=
  if render_mode = wrap_int (key - 49) then lcd_mode
  else if key ≥ 49 ∧ key < wrap_int (49 + N_RENDER_MODES) then lcd_mode
  else if antialias = true ∧ lcd_mode = wrap_int (key - 65) then lcd_mode
  else if antialias = true ∧ key ≥ 65 ∧ key < wrap_int (65 + N_LCD_MODES) then
    wrap_int (key - 65)
  else if key = key_l ∨ key = key_k then
    lcd_key_cycle N_LCD_MODES antialias (decide (key = key_l)) lcd_mode
  else lcd_mode

/-! ## The BGRA blit of gblbgra.h -/

/-- A source pixel: the bytes `src[0]` (blue), `src[1]` (green), `src[2]`
(red) and `src[3]` (alpha). -/
structure bgra_t where
  b : Nat
  g : Nat
  r : Nat
  ra : Nat

/-- Store an `int` into an `unsigned char`. -/
def to_uchar (x : Int) : Nat := (x % 256).toNat

/-- The body of the inner loop of the blit for one pixel: the new bytes
`dst[0]`, `dst[1]`, `dst[2]`.  `a` is the value of
`GBLENDER_SHADE_INDEX( src[3] )`, a macro of gblender.h. -/
def blit_pixel (a : Int) (src : bgra_t) (dst : Nat × Nat × Nat) : Nat × Nat × Nat :=
  if a = 0 then dst
  else if a = 255 then (to_uchar src.r, to_uchar src.g, to_uchar src.b)
  else
    let ba : Int := 255 - (src.ra : Int)
    let br : Int := (dst.1 : Int)
    let bb : Int := (dst.2.1 : Int)
    let bg : Int := (dst.2.2 : Int)
    (to_uchar (Int.tdiv (br * ba) 255 + (src.r : Int)),
     to_uchar (Int.tdiv (bg * ba) 255 + (src.g : Int)),
     to_uchar (Int.tdiv (bb * ba) 255 + (src.b : Int)))

/-- The blit of one pixel as the specification words it, for comparison
with `blit_pixel`: in the blend each destination channel is computed from
its own previous value. -/
def blit_pixel_spec (a : Int) (src : bgra_t) (dst : Nat × Nat × Nat) : Nat × Nat × Nat :=
  if a = 0 then dst
  else if a = 255 then (to_uchar src.r, to_uchar src.g, to_uchar src.b)
  else
    (to_uchar (Int.tdiv ((dst.1 : Int) * (255 - (src.ra : Int))) 255 + (src.r : Int)),
     to_uchar (Int.tdiv ((dst.2.1 : Int) * (255 - (src.ra : Int))) 255 + (src.g : Int)),
     to_uchar (Int.tdiv ((dst.2.2 : Int) * (255 - (src.ra : Int))) 255 + (src.b : Int)))

/-! ## Lemmas on machine integers -/

theorem wrap_int_of_range {x : Int} (h : in_int_range x) : wrap_int x = x := by
  unfold in_int_range INT_MIN INT_MAX at h
  unfold wrap_int
  omega

theorem wrap_int_range (x : Int) : in_int_range (wrap_int x) := by
  unfold in_int_range INT_MIN INT_MAX wrap_int
  omega

theorem wrap_int_add_wrap (x y : Int) : wrap_int (wrap_int x + y) = wrap_int (x + y) := by
  unfold wrap_int
  omega

/-! ## Lemmas on the measured loop -/

theorem bench_body_set_n (face : FT_Face) (test : btest_t) (m : Int) (s : bench_state) :
    bench_body face test (set_n m s) = set_n m (bench_body face test s) := rfl

theorem bench_passes_succ (face : FT_Face) (test : btest_t) (k : Nat) (s : bench_state) :
    bench_passes face test (k + 1) s = bench_passes face test k (bench_body face test s) := rfl

theorem bench_passes_set_n (face : FT_Face) (test : btest_t) (m : Int) (k : Nat) :
    ∀ s : bench_state,
      bench_passes face test k (set_n m s) = set_n m (bench_passes face test k s) := by
  induction k with
  | zero => intro s; rfl
  | succ k ih =>
    intro s
    rw [bench_passes_succ, bench_passes_succ, bench_body_set_n, ih]

theorem bench_incr_eq (s : bench_state) : bench_incr s = set_n (wrap_int (s.n + 1)) s := rfl

theorem set_n_set_n (a b : Int) (s : bench_state) : set_n a (set_n b s) = set_n a s := rfl

theorem bench_passes_calls_length (face : FT_Face) (test : btest_t) (k : Nat) :
    ∀ s : bench_state, (bench_passes face test k s).calls.length = s.calls.length + k := by
  induction k with
  | zero => intro s; rfl
  | succ k ih =>
    intro s
    rw [bench_passes_succ, ih]
    simp [bench_body]
    omega

/-- The exit test of the loop entered in `bench_incr (bench_body s)` after
`i` invocations is the exit test of the loop entered in `s` after `i + 1`,
as long as the increment of `n` did not overflow. -/
theorem bench_exits_shift (face : FT_Face) (test : btest_t) (max_iter : Int) (max_time : ℚ)
    (s : bench_state) (i : Nat)
    (hn : max_iter ≠ 0 → wrap_int (s.n + 1) = s.n + 1) :
    bench_exits face test max_iter max_time (bench_incr (bench_body face test s)) i ↔
      bench_exits face test max_iter max_time s (i + 1) := by
  unfold bench_exits
  rw [bench_incr_eq, bench_passes_set_n, bench_passes_succ]
  have e1 : (set_n (wrap_int ((bench_body face test s).n + 1)) (bench_body face test s)).n
      = wrap_int (s.n + 1) := rfl
  have e2 : (set_n (wrap_int ((bench_body face test s).n + 1))
      (bench_passes face test i (bench_body face test s))).elapsed
      = (bench_passes face test i (bench_body face test s)).elapsed := rfl
  rw [e1, e2]
  constructor
  · rintro (⟨h0, h⟩ | h)
    · left; refine ⟨h0, ?_⟩; rw [hn h0] at h; push_cast; omega
    · right; exact h
  · rintro (⟨h0, h⟩ | h)
    · left; refine ⟨h0, ?_⟩; rw [hn h0]; push_cast at h; omega
    · right; exact h

/-- Every finished run of the measured loop made some number `k + 1` of
invocations, left after the last of them and after none before. -/
theorem bench_loop_sound (face : FT_Face) (test : btest_t) (max_iter : Int) (max_time : ℚ)
    (hmax : max_iter ≤ INT_MAX) :
    ∀ (fuel : Nat) (s s' : bench_state), INT_MIN ≤ s.n →
      (max_iter = 0 ∨ s.n < max_iter) →
      bench_loop face test max_iter max_time fuel s = some s' →
      ∃ k : Nat, s' = set_n s'.n (bench_passes face test (k + 1) s) ∧
        bench_exits face test max_iter max_time s (k + 1) ∧
        ∀ i : Nat, 1 ≤ i → i ≤ k → ¬ bench_exits face test max_iter max_time s i := by
  intro fuel
  induction fuel with
  | zero => intro s s' _ _ h; simp [bench_loop] at h
  | succ fuel ih =>
    intro s s' hlo hc h
    rw [bench_loop, if_pos hc] at h
    by_cases hb : TIMER_GET (bench_body face test s).elapsed > max_time
    · rw [if_pos hb] at h
      refine ⟨0, ?_, Or.inr hb, ?_⟩
      · cases h; rfl
      · intro i h1 h2; omega
    · rw [if_neg hb] at h
      have hwrap : max_iter ≠ 0 → wrap_int (s.n + 1) = s.n + 1 := by
        intro h0
        apply wrap_int_of_range
        unfold in_int_range
        unfold INT_MIN at hlo
        unfold INT_MAX at hmax ⊢
        unfold INT_MIN
        omega
      have hlo' : INT_MIN ≤ (bench_incr (bench_body face test s)).n :=
        (wrap_int_range _).1
      by_cases hc' : max_iter = 0 ∨ (bench_incr (bench_body face test s)).n < max_iter
      · obtain ⟨k, hk1, hk2, hk3⟩ := ih _ s' hlo' hc' h
        refine ⟨k + 1, ?_, ?_, ?_⟩
        · rw [hk1, bench_incr_eq, bench_passes_set_n, set_n_set_n, bench_passes_succ]
          rfl
        · exact (bench_exits_shift face test max_iter max_time s (k + 1) hwrap).1 hk2
        · intro i h1 h2
          rcases Nat.lt_or_ge 1 i with h | h
          · obtain ⟨j, rfl⟩ : ∃ j, i = j + 1 := ⟨i - 1, by omega⟩
            intro hex
            exact hk3 j (by omega) (by omega)
              ((bench_exits_shift face test max_iter max_time s j hwrap).2 hex)
          · have hi : i = 1 := by omega
            subst hi
            rintro (⟨h0, hh⟩ | hh)
            · have e : (bench_incr (bench_body face test s)).n = wrap_int (s.n + 1) := rfl
              rcases hc' with hc' | hc'
              · exact h0 hc'
              · rw [e, hwrap h0] at hc'
                push_cast at hh
                omega
            · exact hb hh
      · push_neg at hc'
        have e : (bench_incr (bench_body face test s)).n = wrap_int (s.n + 1) := rfl
        cases fuel with
        | zero => simp [bench_loop] at h
        | succ fuel =>
          rw [bench_loop, if_neg (by push_neg; exact hc')] at h
          refine ⟨0, ?_, ?_, ?_⟩
          · cases h; rfl
          · left
            refine ⟨hc'.1, ?_⟩
            have h2 := hc'.2
            rw [e, hwrap hc'.1] at h2
            rcases hc with hc | hc
            · exact absurd hc hc'.1
            · push_cast; omega
          · intro i h1 h2; omega

/-- When the loop entered in `s` is left after its `(k + 1)`-th invocation
and not before, `k + 2` units of fuel are enough to finish it. -/
theorem bench_loop_exit (face : FT_Face) (test : btest_t) (max_iter : Int) (max_time : ℚ)
    (hmax : max_iter ≤ INT_MAX) :
    ∀ (k fuel : Nat) (s : bench_state), INT_MIN ≤ s.n →
      (max_iter = 0 ∨ s.n < max_iter) →
      (∀ i : Nat, 1 ≤ i → i ≤ k → ¬ bench_exits face test max_iter max_time s i) →
      bench_exits face test max_iter max_time s (k + 1) →
      k + 1 < fuel →
      ∃ m : Int, bench_loop face test max_iter max_time fuel s
        = some (set_n m (bench_passes face test (k + 1) s)) := by
  intro k
  induction k with
  | zero =>
    intro fuel s hlo hc _ hex hf
    obtain ⟨f, rfl⟩ : ∃ f, fuel = f + 2 := ⟨fuel - 2, by omega⟩
    rw [bench_loop, if_pos hc]
    by_cases hb : TIMER_GET (bench_body face test s).elapsed > max_time
    · rw [if_pos hb]; exact ⟨s.n, rfl⟩
    · rw [if_neg hb]
      rcases hex with ⟨h0, hh⟩ | hh
      · have e : (bench_incr (bench_body face test s)).n = wrap_int (s.n + 1) := rfl
        have hw : wrap_int (s.n + 1) = s.n + 1 := by
          apply wrap_int_of_range
          unfold in_int_range
          unfold INT_MIN at hlo
          unfold INT_MAX at hmax ⊢
          unfold INT_MIN
          push_cast at hh
          omega
        rw [bench_loop, if_neg]
        · exact ⟨_, rfl⟩
        · rw [e, hw]; push_neg; refine ⟨h0, ?_⟩; push_cast at hh; omega
      · exact absurd hh hb
  | succ k ih =>
    intro fuel s hlo hc hno hex hf
    obtain ⟨f, rfl⟩ : ∃ f, fuel = f + 1 := ⟨fuel - 1, by omega⟩
    have h1 := hno 1 (le_refl 1) (by omega)
    have hb : ¬ TIMER_GET (bench_body face test s).elapsed > max_time :=
      fun h => h1 (Or.inr h)
    have hcnt : ¬ (max_iter ≠ 0 ∧ s.n + ((1 : Nat) : Int) = max_iter) :=
      fun h => h1 (Or.inl h)
    have hwrap : max_iter ≠ 0 → wrap_int (s.n + 1) = s.n + 1 := by
      intro h0
      apply wrap_int_of_range
      unfold in_int_range
      unfold INT_MIN at hlo
      unfold INT_MAX at hmax ⊢
      unfold INT_MIN
      omega
    rw [bench_loop, if_pos hc, if_neg hb]
    have e : (bench_incr (bench_body face test s)).n = wrap_int (s.n + 1) := rfl
    have hc' : max_iter = 0 ∨ (bench_incr (bench_body face test s)).n < max_iter := by
      by_cases h0 : max_iter = 0
      · exact Or.inl h0
      · right
        rw [e, hwrap h0]
        rcases hc with hc | hc
        · exact absurd hc h0
        · push_cast at hcnt
          have : s.n + 1 ≠ max_iter := fun h => hcnt ⟨h0, h⟩
          omega
    obtain ⟨m, hm⟩ := ih f (bench_incr (bench_body face test s)) (wrap_int_range _).1 hc'
      (fun i hi1 hi2 hx => hno (i + 1) (by omega) (by omega)
        ((bench_exits_shift face test max_iter max_time s i hwrap).1 hx))
      ((bench_exits_shift face test max_iter max_time s (k + 1) hwrap).2 hex)
      (by omega)
    refine ⟨m, ?_⟩
    rw [hm, bench_incr_eq, bench_passes_set_n, set_n_set_n, bench_passes_succ]
    rfl

/-- A finished run of the loop ends in the state reached by some number of
passes through the body, up to the value of `n`. -/
theorem bench_loop_passes (face : FT_Face) (test : btest_t) (max_iter : Int) (max_time : ℚ) :
    ∀ (fuel : Nat) (s s' : bench_state),
      bench_loop face test max_iter max_time fuel s = some s' →
      ∃ k : Nat, s' = set_n s'.n (bench_passes face test k s) := by
  intro fuel
  induction fuel with
  | zero => intro s s' h; simp [bench_loop] at h
  | succ fuel ih =>
    intro s s' h
    rw [bench_loop] at h
    split at h
    · split at h
      · cases h; exact ⟨1, rfl⟩
      · obtain ⟨k, hk⟩ := ih _ _ h
        refine ⟨k + 1, ?_⟩
        rw [hk, bench_incr_eq, bench_passes_set_n, set_n_set_n, bench_passes_succ]
        rfl
    · cases h; exact ⟨0, rfl⟩

/-- The counter `done` is the wrapped sum of the logged return values. -/
theorem bench_passes_done (face : FT_Face) (test : btest_t) (k : Nat) :
    ∀ s : bench_state, s.done = wrap_int s.calls.sum →
      (bench_passes face test k s).done = wrap_int (bench_passes face test k s).calls.sum := by
  induction k with
  | zero => intro s h; exact h
  | succ k ih =>
    intro s h
    rw [bench_passes_succ]
    apply ih
    have e : (bench_body face test s).done
        = wrap_int (s.done + (test.bench s.timer face test.user_data
            (TIMER_START s.elapsed s.world).2).1) := rfl
    have e2 : (bench_body face test s).calls
        = s.calls ++ [(test.bench s.timer face test.user_data
            (TIMER_START s.elapsed s.world).2).1] := rfl
    rw [e, e2, h, wrap_int_add_wrap]
    simp

/-- When the measured loop is reached, `benchmark` is its measured part run
from the entry state. -/
theorem benchmark_eq_measure (fuel : Nat) (face : FT_Face) (test : btest_t) (max_iter : Int)
    (max_time : ℚ) (timer elapsed : btimer_t) (w : World) (hr : bench_reached test w) :
    benchmark fuel face test max_iter max_time timer elapsed w
      = benchmark_measure fuel face test max_iter max_time
          (bench_entry face test timer w).1 elapsed (bench_entry face test timer w).2.1
          (bench_entry face test timer w).2.2 := by
  unfold benchmark bench_entry
  by_cases hc : test.cache_first ≠ 0
  · have hm : w.cache_man = true := by
      rcases hr with h | h
      · exact absurd h hc
      · exact h
    simp [hc, hm]
  · simp [hc]

/-- A finished call of `benchmark` that reached the measured loop: the final
locals are those of the loop, and the report line is printed last. -/
theorem benchmark_some (fuel : Nat) (face : FT_Face) (test : btest_t) (max_iter : Int)
    (max_time : ℚ) (timer elapsed : btimer_t) (w : World) (hr : bench_reached test w)
    (r : bench_result)
    (h : benchmark fuel face test max_iter max_time timer elapsed w = some r) :
    ∃ s : bench_state,
      bench_loop face test max_iter max_time fuel (bench_start face test timer elapsed w)
        = some s ∧
      r = { world := printf (bench_report s) s.world
            warmup := (bench_entry face test timer w).2.1
            final := some s } := by
  rw [benchmark_eq_measure fuel face test max_iter max_time timer elapsed w hr] at h
  unfold benchmark_measure at h
  unfold bench_start
  split at h
  · cases h
  · rename_i s hs
    exact ⟨s, hs, by cases h; rfl⟩

/-- Conversely, a finished loop gives a finished call. -/
theorem benchmark_of_loop (fuel : Nat) (face : FT_Face) (test : btest_t) (max_iter : Int)
    (max_time : ℚ) (timer elapsed : btimer_t) (w : World) (hr : bench_reached test w)
    (s : bench_state)
    (h : bench_loop face test max_iter max_time fuel (bench_start face test timer elapsed w)
      = some s) :
    benchmark fuel face test max_iter max_time timer elapsed w
      = some { world := printf (bench_report s) s.world
               warmup := (bench_entry face test timer w).2.1
               final := some s } := by
  rw [benchmark_eq_measure fuel face test max_iter max_time timer elapsed w hr]
  unfold benchmark_measure
  unfold bench_start at h
  rw [h]

theorem bench_start_n (face : FT_Face) (test : btest_t) (timer elapsed : btimer_t) (w : World) :
    (bench_start face test timer elapsed w).n = 0 := rfl

theorem bench_start_calls (face : FT_Face) (test : btest_t) (timer elapsed : btimer_t)
    (w : World) : (bench_start face test timer elapsed w).calls = [] := rfl

theorem bench_stops_iff (face : FT_Face) (test : btest_t) (max_iter : Int) (max_time : ℚ)
    (timer elapsed : btimer_t) (w : World) (k : Nat) :
    bench_stops face test max_iter max_time timer elapsed w k ↔
      bench_exits face test max_iter max_time (bench_start face test timer elapsed w) k := by
  unfold bench_stops bench_exits elapsed_after
  rw [bench_start_n, zero_add]

/-- Number of invocations of a finished call, from the loop's final state. -/
theorem invocations_of_passes (face : FT_Face) (test : btest_t) (timer elapsed : btimer_t)
    (w : World) (k : Nat) (m : Int) (wd : World) (wu : List Int) :
    bench_result.invocations
      { world := wd, warmup := wu,
        final := some (set_n m (bench_passes face test k
          (bench_start face test timer elapsed w))) } = k := by
  show (bench_passes face test k (bench_start face test timer elapsed w)).calls.length = k
  rw [bench_passes_calls_length, bench_start_calls]
  simp

/-- The measured loop of a call with `0 ≤ max_iter ≤ INT_MAX`: the number of
invocations of every finished call is the first `k ≥ 1` at which the exit
test holds. -/
theorem benchmark_sound (fuel : Nat) (face : FT_Face) (test : btest_t) (max_iter : Int)
    (max_time : ℚ) (timer elapsed : btimer_t) (w : World) (hr : bench_reached test w)
    (h0 : 0 ≤ max_iter) (hmax : max_iter ≤ INT_MAX) (r : bench_result)
    (h : benchmark fuel face test max_iter max_time timer elapsed w = some r) :
    ∃ (k : Nat) (m : Int),
      r = { world := printf (bench_report (set_n m (bench_passes face test (k + 1)
                (bench_start face test timer elapsed w))))
              (bench_passes face test (k + 1) (bench_start face test timer elapsed w)).world
            warmup := (bench_entry face test timer w).2.1
            final := some (set_n m (bench_passes face test (k + 1)
                (bench_start face test timer elapsed w))) } ∧
      r.invocations = k + 1 ∧
      bench_stops face test max_iter max_time timer elapsed w (k + 1) ∧
      ∀ i : Nat, 1 ≤ i → i ≤ k → ¬ bench_stops face test max_iter max_time timer elapsed w i := by
  obtain ⟨s, hs, hrs⟩ := benchmark_some fuel face test max_iter max_time timer elapsed w hr r h
  have hc : max_iter = 0 ∨ (bench_start face test timer elapsed w).n < max_iter := by
    rw [bench_start_n]
    rcases eq_or_lt_of_le h0 with h | h
    · exact Or.inl h.symm
    · exact Or.inr h
  have hlo : INT_MIN ≤ (bench_start face test timer elapsed w).n := by
    rw [bench_start_n]; unfold INT_MIN; omega
  obtain ⟨k, hk1, hk2, hk3⟩ :=
    bench_loop_sound face test max_iter max_time hmax fuel _ s hlo hc hs
  refine ⟨k, s.n, ?_, ?_, ?_, ?_⟩
  · rw [hrs]
    have e : s.world = (bench_passes face test (k + 1)
        (bench_start face test timer elapsed w)).world := by
      conv_lhs => rw [hk1]
      rfl
    rw [e, ← hk1]
  · rw [hrs]
    conv_lhs => rw [hk1]
    exact invocations_of_passes face test timer elapsed w (k + 1) s.n _ _
  · exact (bench_stops_iff face test max_iter max_time timer elapsed w (k + 1)).2 hk2
  · intro i h1 h2 hx
    exact hk3 i h1 h2 ((bench_stops_iff face test max_iter max_time timer elapsed w i).1 hx)

/-- The measured loop of a call with `0 ≤ max_iter ≤ INT_MAX`: when the exit
test first holds after `k + 1` invocations, `k + 2` units of fuel finish
the call with exactly `k + 1` invocations. -/
theorem benchmark_complete (fuel : Nat) (face : FT_Face) (test : btest_t) (max_iter : Int)
    (max_time : ℚ) (timer elapsed : btimer_t) (w : World) (hr : bench_reached test w)
    (h0 : 0 ≤ max_iter) (hmax : max_iter ≤ INT_MAX) (k : Nat)
    (hno : ∀ i : Nat, 1 ≤ i → i ≤ k →
      ¬ bench_stops face test max_iter max_time timer elapsed w i)
    (hex : bench_stops face test max_iter max_time timer elapsed w (k + 1))
    (hf : k + 1 < fuel) :
    ∃ m : Int, benchmark fuel face test max_iter max_time timer elapsed w
      = some { world := printf (bench_report (set_n m (bench_passes face test (k + 1)
                  (bench_start face test timer elapsed w))))
                (bench_passes face test (k + 1) (bench_start face test timer elapsed w)).world
               warmup := (bench_entry face test timer w).2.1
               final := some (set_n m (bench_passes face test (k + 1)
                  (bench_start face test timer elapsed w))) } := by
  have hc : max_iter = 0 ∨ (bench_start face test timer elapsed w).n < max_iter := by
    rw [bench_start_n]
    rcases eq_or_lt_of_le h0 with h | h
    · exact Or.inl h.symm
    · exact Or.inr h
  have hlo : INT_MIN ≤ (bench_start face test timer elapsed w).n := by
    rw [bench_start_n]; unfold INT_MIN; omega
  obtain ⟨m, hm⟩ := bench_loop_exit face test max_iter max_time hmax k fuel
    (bench_start face test timer elapsed w) hlo hc
    (fun i h1 h2 hx => hno i h1 h2
      ((bench_stops_iff face test max_iter max_time timer elapsed w i).2 hx))
    ((bench_stops_iff face test max_iter max_time timer elapsed w (k + 1)).1 hex) hf
  exact ⟨m, benchmark_of_loop fuel face test max_iter max_time timer elapsed w hr _ hm⟩

/-! ### Scenario A: five iterations of a case of fixed duration -/

theorem scenario_elapsed (ret : Int) (d : ℚ) (i : Nat) (hi : i ≤ 5) :
    elapsed_after face_none (test_const ret 0) timer_zero timer_zero
      (world_of (clock_fixed d) false) i = (i : ℚ) * d := by
  interval_cases i <;>
  norm_num [elapsed_after, bench_passes, bench_start, bench_entry, bench_init, bench_body,
    test_const, case_const, TIMER_START, TIMER_STOP, TIMER_GET, TIMER_RESET, get_time, printf,
    world_of, clock_fixed, timer_zero, Function.iterate_succ]

theorem scenario_stdout (d : ℚ) (m : Int) :
    (printf (bench_report (set_n m (bench_passes face_none (test_const 1 0) 5
        (bench_start face_none (test_const 1 0) timer_zero timer_zero
          (world_of (clock_fixed d) false)))))
      (bench_passes face_none (test_const 1 0) 5
        (bench_start face_none (test_const 1 0) timer_zero timer_zero
          (world_of (clock_fixed d) false))).world).stdout
      = [Out.title "t", Out.us_per_op (d * 1000000)] := by
  norm_num [bench_report, set_n, bench_passes, bench_start, bench_entry, bench_init, bench_body,
    test_const, case_const, TIMER_START, TIMER_STOP, TIMER_GET, TIMER_RESET, get_time, printf,
    world_of, clock_fixed, timer_zero, Function.iterate_succ, wrap_int]
  ring

theorem scenario_reached (c : Bool) (clock : Nat → ℚ) (ret : Int) :
    bench_reached (test_const ret 0) (world_of clock c) := Or.inl rfl

/-! ## The claims on `benchmark` -/

/-- C1, as stated, fails: with `max_iter = 5`, `max_time = 2` and a case whose
every invocation lasts one second, `benchmark` makes 3 measured invocations,
not 5; the time cap ends the loop first. -/
theorem benchmark_iteration_cap_counterexample :
    ∃ r : bench_result,
      benchmark 10 face_none (test_const 1 0) 5 2 timer_zero timer_zero
        (world_of (clock_fixed 1) false) = some r ∧ r.invocations = 3 := by
  have h : (benchmark 10 face_none (test_const 1 0) 5 2 timer_zero timer_zero
      (world_of (clock_fixed 1) false)).map bench_result.invocations = some 3 := by
    norm_num [benchmark, benchmark_measure, bench_loop, bench_body, bench_incr, bench_init,
      test_const, case_const, TIMER_START, TIMER_STOP, TIMER_GET, TIMER_RESET, get_time,
      printf, world_of, clock_fixed, timer_zero, wrap_int, bench_result.invocations]
  obtain ⟨r, hr, hr2⟩ := Option.map_eq_some'.1 h
  exact ⟨r, hr, hr2⟩

/-- C1, amended: for `max_iter = N` with `0 < N ≤ INT_MAX`, every finished
call of `benchmark` that reaches the measured loop makes at least one and at
most `N` measured invocations; it makes exactly `N` (and `N + 1` units of
fuel finish it) whenever the cumulative outer elapsed time after each of the
first `N - 1` invocations does not exceed `max_time`.  Scenario A: `N = 5`,
each invocation returns 1 and lasts `d ≥ 0` with `4 * d ≤ max_time`, gives
exactly 5 invocations and the reported figure `d * 1e6` us/op. -/
theorem benchmark_iteration_cap (face : FT_Face) (test : btest_t) (N : Int) (max_time : ℚ)
    (timer elapsed : btimer_t) (w : World) (hr : bench_reached test w)
    (hN : 0 < N) (hmax : N ≤ INT_MAX) :
    (∀ (fuel : Nat) (r : bench_result),
        benchmark fuel face test N max_time timer elapsed w = some r →
        1 ≤ r.invocations ∧ (r.invocations : Int) ≤ N) ∧
    ((∀ i : Nat, 1 ≤ i → (i : Int) < N →
          elapsed_after face test timer elapsed w i ≤ max_time) →
      ∀ fuel : Nat, N < (fuel : Int) →
        ∃ r : bench_result,
          benchmark fuel face test N max_time timer elapsed w = some r ∧
          (r.invocations : Int) = N) ∧
    (∀ (d mt : ℚ) (fuel : Nat), 0 ≤ d → 4 * d ≤ mt → 5 < fuel →
      ∃ r : bench_result,
        benchmark fuel face_none (test_const 1 0) 5 mt timer_zero timer_zero
          (world_of (clock_fixed d) false) = some r ∧
        r.invocations = 5 ∧
        r.world.stdout = [Out.title "t", Out.us_per_op (d * 1000000)]) := by
  refine ⟨?_, ?_, ?_⟩
  · intro fuel r h
    obtain ⟨k, m, _, hk, _, hno⟩ :=
      benchmark_sound fuel face test N max_time timer elapsed w hr (le_of_lt hN) hmax r h
    rw [hk]
    refine ⟨by omega, ?_⟩
    by_contra hgt
    push_neg at hgt
    have hNk : N.toNat ≤ k := by push_cast at hgt; omega
    apply hno N.toNat (by omega) hNk
    left
    exact ⟨ne_of_gt hN, by omega⟩
  · intro hel fuel hf
    obtain ⟨k, hk⟩ : ∃ k : Nat, (k : Int) + 1 = N := ⟨(N - 1).toNat, by omega⟩
    obtain ⟨m, hm⟩ := benchmark_complete fuel face test N max_time timer elapsed w hr
      (le_of_lt hN) hmax k
      (by
        rintro i h1 h2 (⟨_, hc⟩ | ht)
        · omega
        · exact absurd ht (not_lt.2 (hel i h1 (by omega))))
      (Or.inl ⟨ne_of_gt hN, by push_cast; omega⟩)
      (by omega)
    refine ⟨_, hm, ?_⟩
    rw [invocations_of_passes]
    push_cast
    omega
  · intro d mt fuel hd hmt hf
    obtain ⟨m, hm⟩ := benchmark_complete fuel face_none (test_const 1 0) 5 mt timer_zero
      timer_zero (world_of (clock_fixed d) false) (scenario_reached _ _ _)
      (by norm_num) (by unfold INT_MAX; norm_num) 4
      (by
        rintro i h1 h2 (⟨_, hc⟩ | ht)
        · omega
        · rw [scenario_elapsed 1 d i (by omega)] at ht
          have hi : (i : ℚ) ≤ 4 := by exact_mod_cast h2
          have : (i : ℚ) * d ≤ 4 * d := mul_le_mul_of_nonneg_right hi hd
          linarith)
      (Or.inl ⟨by norm_num, by norm_num⟩)
      (by omega)
    refine ⟨_, hm, ?_, ?_⟩
    · rw [invocations_of_passes]
    · exact scenario_stdout d m

/-- Witness of C1 (amended): five iterations, one millisecond each, under a
two seconds cap. -/
theorem benchmark_iteration_cap_witness :
    ∃ r : bench_result,
      benchmark 6 face_none (test_const 1 0) 5 2 timer_zero timer_zero
        (world_of (clock_fixed (1 / 1000)) false) = some r ∧
      r.invocations = 5 ∧
      r.world.stdout = [Out.title "t", Out.us_per_op (1 / 1000 * 1000000)] :=
  (benchmark_iteration_cap face_none (test_const 1 0) 5 2 timer_zero timer_zero
    (world_of (clock_fixed (1 / 1000)) false) (scenario_reached _ _ _)
    (by norm_num) (by unfold INT_MAX; norm_num)).2.2 (1 / 1000) 2 6
    (by norm_num) (by norm_num) (by norm_num)

/-- C2: for `0 ≤ max_iter ≤ INT_MAX`, the number of measured invocations of
every finished call of `benchmark` is the least `k ≥ 1` at which either the
iteration cap is nonzero and reached or the cumulative outer elapsed time
is strictly greater than `max_time`; it is at least 1 and, when
`max_iter > 0`, at most `max_iter`.  Conversely, when such a least `k`
exists, `k + 1` units of fuel finish the call with exactly `k` invocations. -/
theorem benchmark_invocation_count (face : FT_Face) (test : btest_t) (max_iter : Int)
    (max_time : ℚ) (timer elapsed : btimer_t) (w : World) (hr : bench_reached test w)
    (h0 : 0 ≤ max_iter) (hmax : max_iter ≤ INT_MAX) :
    (∀ (fuel : Nat) (r : bench_result),
        benchmark fuel face test max_iter max_time timer elapsed w = some r →
        1 ≤ r.invocations ∧
        bench_stops face test max_iter max_time timer elapsed w r.invocations ∧
        (∀ i : Nat, 1 ≤ i → i < r.invocations →
          ¬ bench_stops face test max_iter max_time timer elapsed w i) ∧
        (0 < max_iter → (r.invocations : Int) ≤ max_iter)) ∧
    (∀ k : Nat, 1 ≤ k →
        bench_stops face test max_iter max_time timer elapsed w k →
        (∀ i : Nat, 1 ≤ i → i < k →
          ¬ bench_stops face test max_iter max_time timer elapsed w i) →
        ∀ fuel : Nat, k < fuel →
          ∃ r : bench_result,
            benchmark fuel face test max_iter max_time timer elapsed w = some r ∧
            r.invocations = k) := by
  constructor
  · intro fuel r h
    obtain ⟨k, m, _, hk, hex, hno⟩ :=
      benchmark_sound fuel face test max_iter max_time timer elapsed w hr h0 hmax r h
    rw [hk]
    refine ⟨by omega, hex, fun i h1 h2 => hno i h1 (by omega), ?_⟩
    intro hpos
    by_contra hgt
    push_neg at hgt
    apply hno max_iter.toNat (by omega) (by push_cast at hgt; omega)
    left
    exact ⟨ne_of_gt hpos, by omega⟩
  · intro k hk hex hno fuel hf
    obtain ⟨j, rfl⟩ : ∃ j, k = j + 1 := ⟨k - 1, by omega⟩
    obtain ⟨m, hm⟩ := benchmark_complete fuel face test max_iter max_time timer elapsed w hr
      h0 hmax j (fun i h1 h2 => hno i h1 (by omega)) hex hf
    exact ⟨_, hm, invocations_of_passes face test timer elapsed w (j + 1) m _ _⟩

/-- Witness of C2: with `max_iter = 0` and `max_time = 0` a case lasting one
second is invoked exactly once. -/
theorem benchmark_invocation_count_witness :
    ∃ r : bench_result,
      benchmark 2 face_none (test_const 1 0) 0 0 timer_zero timer_zero
        (world_of (clock_fixed 1) false) = some r ∧ r.invocations = 1 :=
  (benchmark_invocation_count face_none (test_const 1 0) 0 0 timer_zero timer_zero
    (world_of (clock_fixed 1) false) (scenario_reached _ _ _) (le_refl 0)
    (by unfold INT_MAX; norm_num)).2 1 (le_refl 1)
    (Or.inr (by rw [scenario_elapsed 1 1 1 (by norm_num)]; norm_num))
    (fun i h1 h2 => absurd h1 (by omega)) 2 (by norm_num)

/-- C3: with `max_iter = 0` and `max_time ≥ 0`, whenever the measured loop of
`benchmark` is left, the cumulative outer elapsed time is at least (indeed
strictly above) `max_time`, at least one invocation was made, and the
cumulative outer elapsed time before the final invocation started was at
most `max_time`. -/
theorem benchmark_time_cap_overshoot (fuel : Nat) (face : FT_Face) (test : btest_t)
    (max_time : ℚ) (timer elapsed : btimer_t) (w : World) (hr : bench_reached test w)
    (hmt : 0 ≤ max_time) (r : bench_result) (s : bench_state)
    (h : benchmark fuel face test 0 max_time timer elapsed w = some r)
    (hs : r.final = some s) :
    max_time ≤ TIMER_GET s.elapsed ∧
    max_time < TIMER_GET s.elapsed ∧
    1 ≤ r.invocations ∧
    TIMER_GET s.elapsed = elapsed_after face test timer elapsed w r.invocations ∧
    elapsed_after face test timer elapsed w (r.invocations - 1) ≤ max_time := by
  obtain ⟨k, m, hrk, hk, hex, hno⟩ :=
    benchmark_sound fuel face test 0 max_time timer elapsed w hr (le_refl 0)
      (by unfold INT_MAX; norm_num) r h
  have hsk : s = set_n m (bench_passes face test (k + 1)
      (bench_start face test timer elapsed w)) := by
    rw [hrk] at hs
    cases hs
    rfl
  have hel : TIMER_GET s.elapsed = elapsed_after face test timer elapsed w (k + 1) := by
    rw [hsk]; rfl
  have hlt : max_time < TIMER_GET s.elapsed := by
    rw [hel]
    rcases hex with ⟨h0, _⟩ | h
    · exact absurd rfl h0
    · exact h
  refine ⟨le_of_lt hlt, hlt, by omega, by rw [hk, hel], ?_⟩
  rw [hk, Nat.add_sub_cancel]
  rcases Nat.eq_zero_or_pos k with hz | hp
  · rw [hz]
    exact hmt
  · by_contra hgt
    exact hno k hp (le_refl k) (Or.inr (not_le.1 hgt))

/-- Witness of C3: a purely time-boxed run with a two seconds cap and a case
lasting one second. -/
theorem benchmark_time_cap_overshoot_witness :
    ∃ (r : bench_result) (s : bench_state),
      benchmark 4 face_none (test_const 1 0) 0 2 timer_zero timer_zero
        (world_of (clock_fixed 1) false) = some r ∧
      r.final = some s ∧
      (2 : ℚ) ≤ TIMER_GET s.elapsed ∧
      elapsed_after face_none (test_const 1 0) timer_zero timer_zero
        (world_of (clock_fixed 1) false) (r.invocations - 1) ≤ 2 := by
  obtain ⟨m, hm⟩ := benchmark_complete 4 face_none (test_const 1 0) 0 2 timer_zero
    timer_zero (world_of (clock_fixed 1) false) (scenario_reached _ _ _)
    (le_refl 0) (by unfold INT_MAX; norm_num) 2
    (by
      rintro i h1 h2 (⟨h0, _⟩ | ht)
      · exact h0 rfl
      · rw [scenario_elapsed 1 1 i (by omega)] at ht
        have hi : (i : ℚ) ≤ 2 := by exact_mod_cast h2
        linarith)
    (Or.inr (by rw [scenario_elapsed 1 1 3 (by norm_num)]; norm_num))
    (by norm_num)
  have hw := benchmark_time_cap_overshoot 4 face_none (test_const 1 0) 2 timer_zero
    timer_zero (world_of (clock_fixed 1) false) (scenario_reached _ _ _) (by norm_num)
    _ _ hm rfl
  exact ⟨_, _, hm, rfl, hw.1, hw.2.2.2.2⟩

/-! ### The report line -/

/-- The final locals of a finished call, in terms of passes of the body. -/
theorem benchmark_final (fuel : Nat) (face : FT_Face) (test : btest_t) (max_iter : Int)
    (max_time : ℚ) (timer elapsed : btimer_t) (w : World) (hr : bench_reached test w)
    (r : bench_result)
    (h : benchmark fuel face test max_iter max_time timer elapsed w = some r) :
    ∃ s : bench_state, r.final = some s ∧
      r.world.stdout = s.world.stdout ++ [bench_report s] ∧
      r.warmup = (bench_entry face test timer w).2.1 ∧
      s = set_n s.n (bench_passes face test r.invocations
        (bench_start face test timer elapsed w)) := by
  obtain ⟨s, hs, hrs⟩ := benchmark_some fuel face test max_iter max_time timer elapsed w hr r h
  obtain ⟨k, hk⟩ := bench_loop_passes face test max_iter max_time fuel _ s hs
  refine ⟨s, by rw [hrs], by rw [hrs]; rfl, by rw [hrs], ?_⟩
  have hinv : r.invocations = k := by
    rw [hrs]
    conv_lhs => rw [hk]
    exact invocations_of_passes face test timer elapsed w k s.n _ _
  rw [hinv]
  exact hk

/-- The measured loop reads only the case function and the user data of the
test record. -/
theorem bench_loop_cache_first (face : FT_Face) (test : btest_t) (c : Int) (max_iter : Int)
    (max_time : ℚ) :
    ∀ (fuel : Nat) (s : bench_state),
      bench_loop face { test with cache_first := c } max_iter max_time fuel s
        = bench_loop face test max_iter max_time fuel s := by
  intro fuel
  induction fuel with
  | zero => intro s; rfl
  | succ fuel ih =>
    intro s
    rw [bench_loop, bench_loop]
    have e : bench_body face { test with cache_first := c } s = bench_body face test s := rfl
    rw [e, ih]

/-- C5: for a `cache_first` case with a cache manager present, `benchmark`
is one warm-up invocation of the case followed by what `benchmark` does for
the same case without `cache_first`, entered in the world the warm-up left
and with the timer total reset: exactly one invocation precedes the
measured ones, and neither the count the warm-up returned nor the time it
added to the timer reaches the measured loop or the report. -/
theorem benchmark_cache_first (fuel : Nat) (face : FT_Face) (test : btest_t) (max_iter : Int)
    (max_time : ℚ) (timer elapsed : btimer_t) (w : World)
    (hc : test.cache_first ≠ 0) (hm : w.cache_man = true) :
    benchmark fuel face test max_iter max_time timer elapsed w
      = (benchmark fuel face { test with cache_first := 0 } max_iter max_time
          (TIMER_RESET (test.bench (TIMER_RESET timer) face test.user_data w).2.1) elapsed
          (test.bench (TIMER_RESET timer) face test.user_data w).2.2).map
        (fun r => { r with
          warmup := [(test.bench (TIMER_RESET timer) face test.user_data w).1] }) ∧
    ∀ r : bench_result,
      benchmark fuel face test max_iter max_time timer elapsed w = some r →
      r.warmup.length = 1 ∧
      ∃ s : bench_state, r.final = some s ∧
        r.world.stdout = s.world.stdout ++ [bench_report s] ∧
        s.done = wrap_int s.calls.sum ∧
        s.calls.length = r.invocations ∧
        s.timer = (bench_passes face test r.invocations
          (bench_init { t0 := (test.bench (TIMER_RESET timer) face test.user_data w).2.1.t0
                        total := 0 } elapsed
            (printf (Out.title test.title)
              (test.bench (TIMER_RESET timer) face test.user_data w).2.2))).timer := by
  constructor
  · rw [benchmark_eq_measure fuel face test max_iter max_time timer elapsed w (Or.inr hm),
      benchmark_eq_measure fuel face { test with cache_first := 0 } max_iter max_time _ elapsed
        _ (Or.inl rfl)]
    have e1 : bench_entry face test timer w
        = ((test.bench (TIMER_RESET timer) face test.user_data w).2.1,
            [(test.bench (TIMER_RESET timer) face test.user_data w).1],
            (test.bench (TIMER_RESET timer) face test.user_data w).2.2) := by
      unfold bench_entry
      rw [if_pos hc]
    have e2 : ∀ (T : btimer_t) (W : World),
        bench_entry face { test with cache_first := 0 } T W = (T, [], W) := fun _ _ => rfl
    rw [e1, e2]
    unfold benchmark_measure
    rw [bench_loop_cache_first face test 0]
    have e : bench_init (TIMER_RESET (test.bench (TIMER_RESET timer) face test.user_data w).2.1)
        elapsed (printf (Out.title test.title)
          (test.bench (TIMER_RESET timer) face test.user_data w).2.2)
        = bench_init (test.bench (TIMER_RESET timer) face test.user_data w).2.1
        elapsed (printf (Out.title test.title)
          (test.bench (TIMER_RESET timer) face test.user_data w).2.2) := rfl
    simp only [e]
    cases bench_loop face test max_iter max_time fuel
      (bench_init (test.bench (TIMER_RESET timer) face test.user_data w).2.1
        elapsed (printf (Out.title test.title)
          (test.bench (TIMER_RESET timer) face test.user_data w).2.2)) <;> rfl
  · intro r h
    obtain ⟨s, hs, hout, hwarm, hsp⟩ :=
      benchmark_final fuel face test max_iter max_time timer elapsed w (Or.inr hm) r h
    have hst : bench_start face test timer elapsed w
        = bench_init { t0 := (test.bench (TIMER_RESET timer) face test.user_data w).2.1.t0
                       total := 0 } elapsed
            (printf (Out.title test.title)
              (test.bench (TIMER_RESET timer) face test.user_data w).2.2) := by
      unfold bench_start bench_entry
      simp only [hc, ne_eq, not_false_eq_true, if_true]
      rfl
    have hwl : r.warmup.length = 1 := by
      rw [hwarm]
      unfold bench_entry
      simp [hc]
    refine ⟨hwl, s, hs, hout, ?_, ?_, ?_⟩
    · have hp := bench_passes_done face test r.invocations
        (bench_start face test timer elapsed w) rfl
      rw [hsp]
      exact hp
    · unfold bench_result.invocations
      rw [hs]
    · rw [← hst]
      conv_lhs => rw [hsp]
      rfl

/-- Witness of C5: the cold first invocation of `case_cold` is the warm-up;
its count 7 and its 1000 seconds do not reach the report, which is that of
the two measured invocations of one second each. -/
theorem benchmark_cache_first_witness :
    ∃ r : bench_result,
      benchmark 3 face_none
        { title := "c", bench := case_cold, cache_first := 1, user_data := user_data_t.null }
        2 5 timer_zero timer_zero (world_of (clock_fixed 1) true) = some r ∧
      r.warmup = [7] ∧ r.invocations = 2 ∧
      r.world.stdout = [Out.title "c", Out.us_per_op 1000000] := by
  rw [(benchmark_cache_first 3 face_none
    { title := "c", bench := case_cold, cache_first := 1, user_data := user_data_t.null }
    2 5 timer_zero timer_zero (world_of (clock_fixed 1) true) (by decide) rfl).1]
  norm_num [benchmark, benchmark_measure, bench_loop, bench_body, bench_incr, bench_init,
    case_cold, case_const, TIMER_START, TIMER_STOP, TIMER_GET, TIMER_RESET, get_time,
    printf, world_of, clock_fixed, timer_zero, wrap_int, bench_result.invocations,
    bench_report]

/-- C6: for a `cache_first` case with no cache manager, `benchmark` returns
at once, whatever the fuel: the case is never invoked (no warm-up, no
measured invocation, the clock is not read, and the outcome is the same for
any case function), and the only output is the "no cache manager" line for
the title. -/
theorem benchmark_no_cache_manager (fuel : Nat) (face : FT_Face) (test : btest_t)
    (max_iter : Int) (max_time : ℚ) (timer elapsed : btimer_t) (w : World)
    (hc : test.cache_first ≠ 0) (hm : w.cache_man = false) :
    benchmark fuel face test max_iter max_time timer elapsed w
      = some { world := { w with stdout := w.stdout ++ [Out.no_cache_manager test.title] }
               warmup := []
               final := none } ∧
    (∀ r : bench_result,
      benchmark fuel face test max_iter max_time timer elapsed w = some r →
      r.warmup = [] ∧ r.invocations = 0 ∧ r.final = none ∧ r.world.ticks = w.ticks ∧
      r.world.stdout = w.stdout ++ [Out.no_cache_manager test.title]) ∧
    (∀ b : bcall_t,
      benchmark fuel face { test with bench := b } max_iter max_time timer elapsed w
        = benchmark fuel face test max_iter max_time timer elapsed w) := by
  have h1 : ∀ t : btest_t, t.cache_first ≠ 0 →
      benchmark fuel face t max_iter max_time timer elapsed w
      = some { world := { w with stdout := w.stdout ++ [Out.no_cache_manager t.title] }
               warmup := []
               final := none } := by
    intro t ht
    unfold benchmark
    rw [if_pos ht, if_pos hm]
    rfl
  refine ⟨h1 test hc, ?_, ?_⟩
  · intro r h
    rw [h1 test hc] at h
    cases h
    exact ⟨rfl, rfl, rfl, rfl, rfl⟩
  · intro b
    rw [h1 test hc, h1 { test with bench := b } hc]

/-- Witness of C6: a cache-first case in a world without cache manager. -/
theorem benchmark_no_cache_manager_witness :
    benchmark 0 face_none (test_const 1 1) 5 2 timer_zero timer_zero
        (world_of (clock_fixed 1) false)
      = some { world := { world_of (clock_fixed 1) false with
                          stdout := [Out.no_cache_manager "t"] }
               warmup := []
               final := none } :=
  (benchmark_no_cache_manager 0 face_none (test_const 1 1) 5 2 timer_zero timer_zero
    (world_of (clock_fixed 1) false) (by decide) rfl).1

/-! ## Lemmas on `get_charset` -/

theorem store_lt (code : List Nat) (m : Nat) (v : Nat) (h : m < code.length) :
    store code (m : Int) v = some (code.set m v) := by
  unfold store
  rw [if_pos ⟨by omega, by omega⟩]
  rfl

theorem take_set_succ (code : List Nat) (m : Nat) (v : Nat) (h : m < code.length) :
    (code.set m v).take (m + 1) = code.take m ++ [v] := by
  rw [List.set_eq_take_append_cons_drop, if_pos h, List.take_append_eq_append_take]
  have hl : (List.take m code).length = m := by
    rw [List.length_take]; omega
  rw [hl, List.take_of_length_le (by omega)]
  simp

/-- The character map loop, entered with `m` cells filled, at the pair `e`
from which the enumeration ends within `L` steps: it returns, having
appended the kept character codes up to the capacity `N`. -/
theorem charmap_loop_spec (face : FT_Face) (k N : Nat) (hN : face.num_glyphs = (N : Int))
    (hmax : face.num_glyphs ≤ INT_MAX) :
    ∀ (L fuel : Nat) (e : Nat × Nat) (m : Nat) (code : List Nat),
      (cmap_nth_from face L e).2 = 0 → L < fuel → m ≤ N → code.length = N →
      ∃ code' : List Nat,
        charmap_loop face k fuel e.1 e.2 (m : Int) code
          = Except.ok (((m + min (N - m)
              (((cmap_enum_from face L e).filter
                (fun p => decide (k ≤ p.2))).map Prod.fst).length : Nat) : Int), code') ∧
        code'.length = N ∧
        code'.take (m + min (N - m)
            (((cmap_enum_from face L e).filter
              (fun p => decide (k ≤ p.2))).map Prod.fst).length)
          = code.take m ++
            (((cmap_enum_from face L e).filter
              (fun p => decide (k ≤ p.2))).map Prod.fst).take (N - m) := by
  intro L
  induction L with
  | zero =>
    intro fuel e m code hend hf hm hlen
    obtain ⟨f, rfl⟩ : ∃ f, fuel = f + 1 := ⟨fuel - 1, by omega⟩
    have hz : e.2 = 0 := hend
    refine ⟨code, ?_, hlen, ?_⟩
    · rw [charmap_loop, if_neg (by rw [hz]; simp)]
      simp [cmap_enum_from]
    · simp [cmap_enum_from]
  | succ L ih =>
    intro fuel e m code hend hf hm hlen
    obtain ⟨f, rfl⟩ : ∃ f, fuel = f + 1 := ⟨fuel - 1, by omega⟩
    by_cases hz : e.2 = 0
    · refine ⟨code, ?_, hlen, ?_⟩
      · rw [charmap_loop, if_neg (by rw [hz]; simp)]
        simp [cmap_enum_from, hz]
      · simp [cmap_enum_from, hz]
    · by_cases hfull : m = N
      · refine ⟨code, ?_, hlen, ?_⟩
        · rw [charmap_loop, if_neg (by rw [hN, hfull]; simp)]
          simp [hfull]
        · simp [hfull]
      · have hlt : m < N := by omega
        have hcond : e.2 ≠ 0 ∧ (m : Int) < face.num_glyphs := ⟨hz, by rw [hN]; omega⟩
        have hend' : (cmap_nth_from face L (face.FT_Get_Next_Char e.1)).2 = 0 := hend
        rw [charmap_loop, if_pos hcond]
        by_cases hk : e.2 ≥ k
        · rw [if_pos hk, store_lt code m e.1 (by omega)]
          have hw : wrap_int ((m : Int) + 1) = ((m + 1 : Nat) : Int) := by
            rw [wrap_int_of_range]
            · push_cast; rfl
            · unfold in_int_range INT_MIN
              unfold INT_MAX at hmax ⊢
              omega
          simp only [hw]
          clear hw
          obtain ⟨code', h1, h2, h3⟩ := ih f (face.FT_Get_Next_Char e.1) (m + 1)
            (code.set m e.1) hend' (by omega) (by omega) (by rw [List.length_set]; exact hlen)
          refine ⟨code', ?_, h2, ?_⟩
          · rw [h1]
            have hkd : decide (k ≤ e.2) = true := by simpa using hk
            simp only [cmap_enum_from, if_neg hz, List.filter_cons, hkd, if_true,
              List.map_cons, List.length_cons]
            congr 2
            push_cast
            omega
          · have hkd : decide (k ≤ e.2) = true := by simpa using hk
            simp only [cmap_enum_from, if_neg hz, List.filter_cons, hkd, if_true,
              List.map_cons, List.length_cons]
            have hidx : m + min (N - m)
                ((List.map Prod.fst (List.filter (fun p => decide (k ≤ p.2))
                  (cmap_enum_from face L (face.FT_Get_Next_Char e.1)))).length + 1)
                = m + 1 + min (N - (m + 1))
                  (List.map Prod.fst (List.filter (fun p => decide (k ≤ p.2))
                  (cmap_enum_from face L (face.FT_Get_Next_Char e.1)))).length := by
              omega
            rw [hidx, h3, take_set_succ code m e.1 (by omega)]
            have hNm : N - m = (N - (m + 1)) + 1 := by omega
            rw [hNm, List.take_succ_cons]
            simp
        · rw [if_neg hk]
          obtain ⟨code', h1, h2, h3⟩ := ih f (face.FT_Get_Next_Char e.1) m code hend'
            (by omega) hm hlen
          have hkd : decide (k ≤ e.2) = false := by simpa using hk
          refine ⟨code', ?_, h2, ?_⟩
          · rw [h1]
            simp only [cmap_enum_from, if_neg hz, List.filter_cons, hkd]
            rfl
          · simp only [cmap_enum_from, if_neg hz, List.filter_cons, hkd]
            exact h3

/-- The character map branch of `get_charset` for a face with
`0 ≤ num_glyphs ≤ INT_MAX` whose enumeration ends within `L` steps, when
the allocation succeeds: the call returns, and the charset holds the kept
character codes up to `num_glyphs` of them. -/
theorem get_charset_charmap_spec (fuel : Nat) (face : FT_Face) (k : Nat) (cs : bcharset_t)
    (L : Nat) (hcm : face.charmap = true) (h0 : 0 ≤ face.num_glyphs)
    (hmax : face.num_glyphs ≤ INT_MAX) (hend : (cmap_nth face L).2 = 0) (hf : L < fuel) :
    ∃ r : bcharset_t,
      get_charset fuel face k true cs = Except.ok r ∧
      r.size = ((min face.num_glyphs.toNat (cmap_kept face k L).length : Nat) : Int) ∧
      (∃ code : List Nat, r.code = some code ∧ code.length = face.num_glyphs.toNat) ∧
      r.entries = (cmap_kept face k L).take face.num_glyphs.toNat := by
  have hN : face.num_glyphs = ((face.num_glyphs.toNat : Nat) : Int) := by omega
  obtain ⟨code', h1, h2, h3⟩ := charmap_loop_spec face k face.num_glyphs.toNat hN hmax L fuel
    face.FT_Get_First_Char 0 (List.replicate face.num_glyphs.toNat 0) hend hf (by omega)
    (by simp)
  have hcal : calloc face.num_glyphs true = some (List.replicate face.num_glyphs.toNat 0) := by
    unfold calloc
    rw [if_pos ⟨h0, rfl⟩]
  have h1' : charmap_loop face k fuel face.FT_Get_First_Char.1 face.FT_Get_First_Char.2 0
      (List.replicate face.num_glyphs.toNat 0) = _ := h1
  refine ⟨{ size := ((0 + min (face.num_glyphs.toNat - 0)
      (((cmap_enum_from face L face.FT_Get_First_Char).filter
        (fun p => decide (k ≤ p.2))).map Prod.fst).length : Nat) : Int),
            code := some code' }, ?_, ?_, ?_, ?_⟩
  · unfold get_charset
    rw [hcal]
    simp only [hcm, if_true]
    rw [h1']
  · simp only [cmap_kept, cmap_enum, Nat.zero_add, Nat.sub_zero]
  · exact ⟨code', rfl, h2⟩
  · show code'.take (Int.toNat ((_ : Nat) : Int)) = _
    rw [Int.toNat_ofNat]
    simp only [Nat.zero_add, Nat.sub_zero, List.take_zero, List.nil_append] at h3
    simp only [Nat.zero_add, Nat.sub_zero]
    exact h3

theorem wrap_int_nat_succ (m : Nat) (h : (m : Int) + 1 ≤ INT_MAX) :
    wrap_int ((m : Int) + 1) = ((m + 1 : Nat) : Int) := by
  rw [wrap_int_of_range]
  · push_cast; rfl
  · unfold in_int_range INT_MIN
    unfold INT_MAX at h ⊢
    omega

theorem to_ulong_nat (j : Nat) (h : (j : Int) ≤ INT_MAX) : to_ulong (j : Int) = j := by
  unfold to_ulong
  unfold INT_MAX at h
  omega

/-- The identity loop entered at `j ≥ num_glyphs` stores nothing. -/
theorem identity_loop_done (face : FT_Face) (fuel : Nat) (i j : Int) (code : List Nat)
    (h : face.num_glyphs ≤ j) :
    identity_loop face (fuel + 1) i j code = Except.ok (i, code) := by
  rw [identity_loop, if_neg (not_lt.2 h)]

/-- The identity loop, entered with `m` cells filled at glyph index `j` with
`d` glyph indices left below `num_glyphs = N`: it returns, having appended
`j, j + 1, ..., N - 1`. -/
theorem identity_loop_spec (face : FT_Face) (N : Nat) (hN : face.num_glyphs = (N : Int))
    (hmax : face.num_glyphs ≤ INT_MAX) :
    ∀ (d fuel m j : Nat) (code : List Nat),
      j + d = N → d < fuel → m + d ≤ N → code.length = N →
      ∃ code' : List Nat,
        identity_loop face fuel (m : Int) (j : Int) code
          = Except.ok (((m + d : Nat) : Int), code') ∧
        code'.length = N ∧
        code'.take (m + d) = code.take m ++ List.range' j d := by
  intro d
  induction d with
  | zero =>
    intro fuel m j code hj hf hm hlen
    obtain ⟨f, rfl⟩ : ∃ f, fuel = f + 1 := ⟨fuel - 1, by omega⟩
    refine ⟨code, ?_, hlen, by simp⟩
    rw [identity_loop_done face f _ _ code (by rw [hN]; omega)]
    rfl
  | succ d ih =>
    intro fuel m j code hj hf hm hlen
    obtain ⟨f, rfl⟩ : ∃ f, fuel = f + 1 := ⟨fuel - 1, by omega⟩
    have hNmax : (N : Int) ≤ INT_MAX := by rw [← hN]; exact hmax
    have hjN : (j : Int) < face.num_glyphs := by rw [hN]; omega
    have hjmax : (j : Int) ≤ INT_MAX := by
      unfold INT_MAX at hNmax ⊢; omega
    have hj1 : (j : Int) + 1 ≤ INT_MAX := by
      unfold INT_MAX at hNmax ⊢; omega
    have hm1 : (m : Int) + 1 ≤ INT_MAX := by
      unfold INT_MAX at hNmax ⊢; omega
    have hml : m < code.length := by omega
    obtain ⟨code', h1, h2, h3⟩ := ih f (m + 1) (j + 1) (code.set m j) (by omega) (by omega)
      (by omega) (by rw [List.length_set]; exact hlen)
    refine ⟨code', ?_, h2, ?_⟩
    · rw [identity_loop, if_pos hjN, to_ulong_nat j hjmax, store_lt code m j hml]
      simp only [wrap_int_nat_succ m hm1, wrap_int_nat_succ j hj1]
      rw [h1]
      congr 2
      push_cast
      omega
    · have hidx : m + (d + 1) = m + 1 + d := by omega
      rw [hidx, h3, take_set_succ code m j hml, List.range'_succ]
      simp

/-- The identity branch of `get_charset` for `0 ≤ num_glyphs ≤ INT_MAX` and
`first_index ≤ INT_MAX`, when the allocation succeeds: the call returns, and
the charset holds `first_index, ..., num_glyphs - 1`. -/
theorem get_charset_identity_spec (fuel : Nat) (face : FT_Face) (k : Nat) (cs : bcharset_t)
    (hcm : face.charmap = false) (h0 : 0 ≤ face.num_glyphs)
    (hmax : face.num_glyphs ≤ INT_MAX) (hk : (k : Int) ≤ INT_MAX)
    (hf : face.num_glyphs.toNat - k < fuel) :
    ∃ r : bcharset_t,
      get_charset fuel face k true cs = Except.ok r ∧
      r.size = ((face.num_glyphs.toNat - k : Nat) : Int) ∧
      (∃ code : List Nat, r.code = some code ∧ code.length = face.num_glyphs.toNat) ∧
      r.entries = List.range' k (face.num_glyphs.toNat - k) := by
  have hN : face.num_glyphs = ((face.num_glyphs.toNat : Nat) : Int) := by omega
  have hcal : calloc face.num_glyphs true = some (List.replicate face.num_glyphs.toNat 0) := by
    unfold calloc
    rw [if_pos ⟨h0, rfl⟩]
  have hwk : wrap_int (k : Int) = (k : Int) := by
    apply wrap_int_of_range
    unfold in_int_range INT_MIN
    unfold INT_MAX at hk ⊢
    omega
  by_cases hkn : k ≤ face.num_glyphs.toNat
  · obtain ⟨code', h1, h2, h3⟩ := identity_loop_spec face face.num_glyphs.toNat hN hmax
      (face.num_glyphs.toNat - k) fuel 0 k (List.replicate face.num_glyphs.toNat 0)
      (by omega) hf (by omega) (by simp)
    have h1' : identity_loop face fuel 0 (k : Int) (List.replicate face.num_glyphs.toNat 0)
        = _ := h1
    refine ⟨{ size := ((0 + (face.num_glyphs.toNat - k) : Nat) : Int), code := some code' },
      ?_, ?_, ⟨code', rfl, h2⟩, ?_⟩
    · unfold get_charset
      rw [hcal]
      simp only [hcm, Bool.false_eq_true, if_false]
      rw [hwk, h1']
    · simp only [Nat.zero_add]
    · show code'.take (Int.toNat ((_ : Nat) : Int)) = _
      rw [Int.toNat_ofNat]
      simp only [List.take_zero, List.nil_append] at h3
      exact h3
  · obtain ⟨f, rfl⟩ : ∃ f, fuel = f + 1 := ⟨fuel - 1, by omega⟩
    have hz : face.num_glyphs.toNat - k = 0 := by omega
    refine ⟨{ size := 0, code := some (List.replicate face.num_glyphs.toNat 0) },
      ?_, ?_, ⟨_, rfl, by simp⟩, ?_⟩
    · unfold get_charset
      rw [hcal]
      simp only [hcm, Bool.false_eq_true, if_false]
      rw [hwk, identity_loop_done face f 0 (k : Int) _ (by omega)]
    · rw [hz]; rfl
    · rw [hz]; rfl

/-! ### What the character map loop keeps, for any fuel and any map -/

theorem wrap_int_succ_le (i : Int) (h : 0 ≤ i) : wrap_int (i + 1) ≤ i + 1 := by
  unfold wrap_int
  omega

theorem cmap_nth_from_succ_last (face : FT_Face) (j : Nat) :
    ∀ e : Nat × Nat,
      cmap_nth_from face (j + 1) e = face.FT_Get_Next_Char (cmap_nth_from face j e).1 := by
  induction j with
  | zero => intro e; rfl
  | succ j ih =>
    intro e
    show cmap_nth_from face (j + 1) (face.FT_Get_Next_Char e.1) = _
    rw [ih]
    rfl

/-- A pair reached through pairs of nonzero glyph index, and itself of
nonzero glyph index, belongs to the enumeration. -/
theorem cmap_nth_from_mem_enum (face : FT_Face) (j : Nat) :
    ∀ e : Nat × Nat, (∀ i : Nat, i ≤ j → (cmap_nth_from face i e).2 ≠ 0) →
      cmap_nth_from face j e ∈ cmap_enum_from face (j + 1) e := by
  induction j with
  | zero =>
    intro e h
    have h0 : e.2 ≠ 0 := h 0 (le_refl 0)
    rw [cmap_enum_from, if_neg h0]
    exact List.mem_cons_self _ _
  | succ j ih =>
    intro e h
    have h0 : e.2 ≠ 0 := h 0 (Nat.zero_le _)
    rw [cmap_enum_from, if_neg h0]
    apply List.mem_cons_of_mem
    exact ih (face.FT_Get_Next_Char e.1) (fun i hi => h (i + 1) (by omega))

/-- Whatever the fuel and the map: when the character map loop returns,
every cell below the final `i` was there before or holds the character code
of an enumerated pair with glyph index at least `k`. -/
theorem charmap_loop_kept (face : FT_Face) (k : Nat) :
    ∀ (fuel j : Nat) (i : Int) (code : List Nat) (r : Int × List Nat),
      (∀ t : Nat, t < j → (cmap_nth face t).2 ≠ 0) →
      (∀ x ∈ code.take i.toNat, ∃ (L g : Nat), (x, g) ∈ cmap_enum face L ∧ k ≤ g) →
      charmap_loop face k fuel (cmap_nth face j).1 (cmap_nth face j).2 i code = Except.ok r →
      ∀ x ∈ r.2.take r.1.toNat, ∃ (L g : Nat), (x, g) ∈ cmap_enum face L ∧ k ≤ g := by
  intro fuel
  induction fuel with
  | zero => intro j i code r _ _ h; simp [charmap_loop] at h
  | succ fuel ih =>
    intro j i code r hnz hinv h
    rw [charmap_loop] at h
    have hnext : face.FT_Get_Next_Char (cmap_nth face j).1 = cmap_nth face (j + 1) :=
      (cmap_nth_from_succ_last face j face.FT_Get_First_Char).symm
    split at h
    · rename_i hcond
      have hnz' : ∀ t : Nat, t < j + 1 → (cmap_nth face t).2 ≠ 0 := by
        intro t ht
        rcases Nat.lt_or_ge t j with h1 | h1
        · exact hnz t h1
        · have : t = j := by omega
          rw [this]
          exact hcond.1
      split at h
      · rename_i hk
        cases hst : store code i (cmap_nth face j).1 with
        | none => rw [hst] at h; cases h
        | some code1 =>
          rw [hst] at h
          simp only [hnext] at h
          have hst' := hst
          unfold store at hst'
          split at hst'
          · rename_i hidx
            have hc1 : code1 = code.set i.toNat (cmap_nth face j).1 := by
              injection hst' with e; exact e.symm
            have hle : (wrap_int (i + 1)).toNat ≤ i.toNat + 1 := by
              have := wrap_int_succ_le i hidx.1
              omega
            refine ih (j + 1) (wrap_int (i + 1)) code1 r hnz' ?_ h
            intro x hx
            have hsub : x ∈ code1.take (i.toNat + 1) := by
              have hx' : x ∈ (code1.take (i.toNat + 1)).take (wrap_int (i + 1)).toNat := by
                rw [List.take_take, Nat.min_eq_left hle]
                exact hx
              exact List.mem_of_mem_take hx'
            rw [hc1, take_set_succ code i.toNat _ (by omega)] at hsub
            rcases List.mem_append.1 hsub with h1 | h1
            · exact hinv x h1
            · rw [List.mem_singleton] at h1
              refine ⟨j + 1, (cmap_nth face j).2, ?_, hk⟩
              rw [h1]
              exact cmap_nth_from_mem_enum face j face.FT_Get_First_Char
                (fun t ht => hnz' t (by omega))
          · cases hst'
      · simp only [hnext] at h
        exact ih (j + 1) i code r hnz' hinv h
    · cases h
      exact hinv

/-- Whatever the fuel, the map and the allocator: every entry of a charset
returned by the character map branch of `get_charset` is the character
code of an enumerated pair with glyph index at least `k`. -/
theorem get_charset_charmap_kept (fuel : Nat) (face : FT_Face) (k : Nat) (alloc_ok : Bool)
    (cs r : bcharset_t) (hcm : face.charmap = true)
    (h : get_charset fuel face k alloc_ok cs = Except.ok r) :
    ∀ x ∈ r.entries, ∃ (L g : Nat), (x, g) ∈ cmap_enum face L ∧ k ≤ g := by
  unfold get_charset at h
  split at h
  · cases h
    intro x hx
    cases hx
  · rename_i code hcal
    simp only [hcm, if_true] at h
    split at h
    · cases h
    · rename_i res hres
      cases h
      have hcode : ∀ x ∈ code.take (0 : Int).toNat,
          ∃ (L g : Nat), (x, g) ∈ cmap_enum face L ∧ k ≤ g := by
        intro x hx
        simp at hx
      exact charmap_loop_kept face k fuel 0 0 code res (fun t ht => absurd ht (by omega))
        hcode hres

/-! ## The claims on `get_charset` -/

/-- C7: for a face with a character map (with `0 ≤ num_glyphs ≤ INT_MAX`, the
allocation succeeding, and the enumeration ending within `L` steps),
`get_charset` returns, and the cells `code[0 .. size)` are exactly the first
`num_glyphs` elements (all of them if there are fewer) of the character
codes of the enumerated pairs whose glyph index is at least `first_index`,
in enumeration order. -/
theorem get_charset_charmap_output (fuel : Nat) (face : FT_Face) (first_index : Nat)
    (cs : bcharset_t) (L : Nat) (hcm : face.charmap = true) (h0 : 0 ≤ face.num_glyphs)
    (hmax : face.num_glyphs ≤ INT_MAX) (hend : (cmap_nth face L).2 = 0) (hf : L < fuel) :
    ∃ r : bcharset_t,
      get_charset fuel face first_index true cs = Except.ok r ∧
      r.entries = (((cmap_enum face L).filter
        (fun e => decide (first_index ≤ e.2))).map Prod.fst).take face.num_glyphs.toNat ∧
      r.size = ((min face.num_glyphs.toNat (((cmap_enum face L).filter
        (fun e => decide (first_index ≤ e.2))).map Prod.fst).length : Nat) : Int) := by
  obtain ⟨r, h1, h2, _, h4⟩ :=
    get_charset_charmap_spec fuel face first_index cs L hcm h0 hmax hend hf
  exact ⟨r, h1, h4, h2⟩

/-- Witness of C7: the map (65, 3), (66, 1), (67, 2) filtered at
`first_index = 2` gives the charset 65, 67. -/
theorem get_charset_charmap_output_witness :
    ∃ r : bcharset_t,
      get_charset 4 face_abc 2 true charset_blank = Except.ok r ∧
      r.entries = [65, 67] ∧ r.size = 2 :=
  get_charset_charmap_output 4 face_abc 2 charset_blank 3 rfl (by decide) (by decide) rfl
    (by decide)

/-- C8: for a face with a character map and `first_index = k`, every
character code in a charset returned by `get_charset` is the code of an
enumerated pair whose glyph index is at least `k`, whatever the fuel, the
allocator and the map; and under the provisos of C7 the call does return
such a charset. -/
theorem get_charset_entries_ge_first_index (fuel : Nat) (face : FT_Face) (k : Nat)
    (cs : bcharset_t) (hcm : face.charmap = true) :
    (∀ (alloc_ok : Bool) (r : bcharset_t),
      get_charset fuel face k alloc_ok cs = Except.ok r →
      ∀ c ∈ r.entries, ∃ (L g : Nat), (c, g) ∈ cmap_enum face L ∧ k ≤ g) ∧
    (∀ L : Nat, 0 ≤ face.num_glyphs → face.num_glyphs ≤ INT_MAX →
      (cmap_nth face L).2 = 0 → L < fuel →
      ∃ r : bcharset_t,
        get_charset fuel face k true cs = Except.ok r ∧
        ∀ c ∈ r.entries, ∃ g : Nat, (c, g) ∈ cmap_enum face L ∧ k ≤ g) := by
  constructor
  · intro alloc_ok r h
    exact get_charset_charmap_kept fuel face k alloc_ok cs r hcm h
  · intro L h0 hmax hend hf
    obtain ⟨r, h1, _, _, h4⟩ :=
      get_charset_charmap_spec fuel face k cs L hcm h0 hmax hend hf
    refine ⟨r, h1, ?_⟩
    intro c hc
    rw [h4] at hc
    have hc2 := List.mem_of_mem_take hc
    unfold cmap_kept at hc2
    obtain ⟨p, hp, hpc⟩ := List.mem_map.1 hc2
    obtain ⟨hp1, hp2⟩ := List.mem_filter.1 hp
    refine ⟨p.2, ?_, by simpa using hp2⟩
    rw [← hpc]
    exact hp1

/-- Witness of C8 on the map (65, 3), (66, 1), (67, 2) with
`first_index = 2`. -/
theorem get_charset_entries_ge_first_index_witness :
    ∃ r : bcharset_t,
      get_charset 4 face_abc 2 true charset_blank = Except.ok r ∧
      ∀ c ∈ r.entries, ∃ g : Nat, (c, g) ∈ cmap_enum face_abc 3 ∧ 2 ≤ g :=
  (get_charset_entries_ge_first_index 4 face_abc 2 charset_blank rfl).2 3 (by decide)
    (by decide) rfl (by decide)

/-- C9, as stated, fails: on a face with 3 glyphs whose character map holds
the single pair (65, glyph 100), `get_charset` with `first_index = 0` keeps
the character code 65, although its glyph index 100 is not below
`num_glyphs = 3`. -/
theorem get_charset_keeps_out_of_range :
    get_charset 2 face_broken 0 true charset_blank
      = Except.ok { size := 1, code := some [65, 0, 0] } ∧
    cmap_enum face_broken 2 = [(65, 100)] ∧
    ¬ ((100 : Int) < face_broken.num_glyphs) :=
  ⟨rfl, rfl, by decide⟩

/-- C9, amended: every entry of a charset returned by the character map
branch of `get_charset` is the character code of an enumerated pair whose
glyph index is at least `first_index`; the glyph index is not compared with
`num_glyphs`: the first enumerated pair, when its glyph index is nonzero
and at least `first_index`, is kept whatever that glyph index is (for
`1 ≤ num_glyphs ≤ INT_MAX`, the allocation succeeding and the enumeration
ending within `L` steps). -/
theorem get_charset_entries_glyph_index (fuel : Nat) (face : FT_Face) (first_index : Nat)
    (cs : bcharset_t) (hcm : face.charmap = true) :
    (∀ (alloc_ok : Bool) (r : bcharset_t),
      get_charset fuel face first_index alloc_ok cs = Except.ok r →
      ∀ c ∈ r.entries, ∃ (L g : Nat), (c, g) ∈ cmap_enum face L ∧ first_index ≤ g) ∧
    (∀ L : Nat, 1 ≤ face.num_glyphs → face.num_glyphs ≤ INT_MAX →
      (cmap_nth face L).2 = 0 → L < fuel →
      face.FT_Get_First_Char.2 ≠ 0 → first_index ≤ face.FT_Get_First_Char.2 →
      ∃ r : bcharset_t,
        get_charset fuel face first_index true cs = Except.ok r ∧
        r.entries.head? = some face.FT_Get_First_Char.1) := by
  constructor
  · intro alloc_ok r h
    exact get_charset_charmap_kept fuel face first_index alloc_ok cs r hcm h
  · intro L h1 hmax hend hf hg hk
    obtain ⟨r, hr, _, _, h4⟩ :=
      get_charset_charmap_spec fuel face first_index cs L hcm (by omega) hmax hend hf
    refine ⟨r, hr, ?_⟩
    obtain ⟨L', rfl⟩ : ∃ L', L = L' + 1 := by
      cases L with
      | zero => exact absurd hend hg
      | succ L' => exact ⟨L', rfl⟩
    obtain ⟨n, hn⟩ : ∃ n : Nat, face.num_glyphs.toNat = n + 1 :=
      ⟨face.num_glyphs.toNat - 1, by omega⟩
    have hkd : decide (first_index ≤ face.FT_Get_First_Char.2) = true := by simpa using hk
    rw [h4, hn]
    simp only [cmap_kept, cmap_enum, cmap_enum_from, if_neg hg, List.filter_cons, hkd, if_true,
      List.map_cons, List.take_succ_cons, List.head?_cons]

/-- Witness of C9 (amended): the pair (65, glyph 100) of a face with 3
glyphs is kept. -/
theorem get_charset_entries_glyph_index_witness :
    ∃ r : bcharset_t,
      get_charset 2 face_broken 0 true charset_blank = Except.ok r ∧
      r.entries.head? = some 65 :=
  (get_charset_entries_glyph_index 2 face_broken 0 charset_blank rfl).2 1 (by decide)
    (by decide) rfl (by decide) (by decide) (by decide)

/-- C10, as stated, fails: with 3 glyphs, no character map and
`first_index = 5` the recorded size is 0, not `3 - 5`; and with
`first_index = 4294967295` (what `-i -1` gives) and 1 glyph the loop starts
at `j = -1` and writes past the end of the array. -/
theorem get_charset_identity_counterexample :
    get_charset 1 (face_plain 3) 5 true charset_blank
      = Except.ok { size := 0, code := some [0, 0, 0] } ∧
    (0 : Int) ≠ (face_plain 3).num_glyphs - 5 ∧
    get_charset 5 (face_plain 1) 4294967295 true charset_blank
      = Except.error Fault.out_of_bounds :=
  ⟨rfl, by decide, rfl⟩

/-- C10, amended: for a face with no character map, `0 ≤ num_glyphs ≤
INT_MAX` and `first_index = k ≤ INT_MAX` (the allocation succeeding),
`get_charset` returns, the cells `code[0 .. size)` are exactly
`k, k + 1, ..., num_glyphs - 1`, and the recorded size is `num_glyphs - k`
when `k ≤ num_glyphs` and 0 otherwise. -/
theorem get_charset_identity (fuel : Nat) (face : FT_Face) (k : Nat) (cs : bcharset_t)
    (hcm : face.charmap = false) (h0 : 0 ≤ face.num_glyphs)
    (hmax : face.num_glyphs ≤ INT_MAX) (hk : (k : Int) ≤ INT_MAX)
    (hf : face.num_glyphs.toNat - k < fuel) :
    ∃ r : bcharset_t,
      get_charset fuel face k true cs = Except.ok r ∧
      r.entries = List.range' k (face.num_glyphs.toNat - k) ∧
      r.size = max 0 (face.num_glyphs - (k : Int)) ∧
      ((k : Int) ≤ face.num_glyphs → r.size = face.num_glyphs - (k : Int)) ∧
      (face.num_glyphs < (k : Int) → r.size = 0) := by
  obtain ⟨r, h1, h2, _, h4⟩ := get_charset_identity_spec fuel face k cs hcm h0 hmax hk hf
  refine ⟨r, h1, h4, ?_, ?_, ?_⟩
  · rw [h2]; omega
  · intro h; rw [h2]; omega
  · intro h; rw [h2]; omega

/-- Witness of C10 (amended): 6 glyphs and `first_index = 2` give the
charset 2, 3, 4, 5 of size 4. -/
theorem get_charset_identity_witness :
    ∃ r : bcharset_t,
      get_charset 5 (face_plain 6) 2 true charset_blank = Except.ok r ∧
      r.entries = List.range' 2 4 ∧
      r.size = max 0 ((6 : Int) - 2) :=
  (get_charset_identity 5 (face_plain 6) 2 charset_blank rfl (by decide) (by decide)
    (by decide) (by decide)).imp (fun _ h => ⟨h.1, h.2.1, h.2.2.1⟩)

/-- C11, the code at the failing input: with no character map, 2 glyphs and
`first_index = 4294967295` (what `-i -1` gives), `int j = first_index` is
`-1`; the loop stores into `code[0]` and `code[1]` and then, still with
`j = 1 < num_glyphs`, into `code[2]`, outside the 2 cells allocated. -/
theorem get_charset_identity_writes_past_end :
    wrap_int 4294967295 = -1 ∧
    identity_loop (face_plain 2) 1 2 1 [18446744073709551615, 0]
      = Except.error Fault.out_of_bounds ∧
    store [18446744073709551615, 0] 2 (to_ulong 1) = none ∧
    get_charset 4 (face_plain 2) 4294967295 true charset_blank
      = Except.error Fault.out_of_bounds :=
  ⟨rfl, rfl, rfl, rfl⟩

/-! ### Scenario D: one entry below `first_index` -/

theorem filter_one_out (k : Nat) (A B : List (Nat × Nat)) (x : Nat × Nat) (hx : x.2 < k)
    (hA : ∀ e ∈ A, k ≤ e.2) (hB : ∀ e ∈ B, k ≤ e.2) :
    (A ++ x :: B).filter (fun e => decide (k ≤ e.2)) = A ++ B := by
  have h1 : A.filter (fun e => decide (k ≤ e.2)) = A :=
    List.filter_eq_self.2 (fun e he => by simpa using hA e he)
  have h2 : B.filter (fun e => decide (k ≤ e.2)) = B :=
    List.filter_eq_self.2 (fun e he => by simpa using hB e he)
  have h3 : decide (k ≤ x.2) = false := by simpa using hx
  rw [List.filter_append, List.filter_cons, h1, h2, h3]
  rfl

theorem filter_zero_all (E : List (Nat × Nat)) :
    E.filter (fun e => decide (0 ≤ e.2)) = E :=
  List.filter_eq_self.2 (fun e _ => by simp)

/-- C12, as stated, fails: the map (65, 2), (66, 1), (67, 2), (68, 2) of a
face with 3 glyphs has exactly one entry below `first_index = 2`; the
filtered charset 65, 67, 68 omits it, but both the filtered and the
unfiltered charset have size 3, the cap `num_glyphs`. -/
theorem get_charset_filter_counterexample :
    cmap_enum face_dense 5 = [(65, 2), (66, 1), (67, 2), (68, 2)] ∧
    get_charset 5 face_dense 2 true charset_blank
      = Except.ok { size := 3, code := some [65, 67, 68] } ∧
    get_charset 5 face_dense 0 true charset_blank
      = Except.ok { size := 3, code := some [65, 66, 67] } :=
  ⟨rfl, rfl, rfl⟩

/-- C12, amended: for a character map whose enumeration is `A ++ x :: B`
with the glyph index of `x` below `first_index` and all others at least
`first_index` (provisos of C7), the charset built by `get_charset` holds the
first `num_glyphs` character codes of `A ++ B`, so omits `x`, while the one
built with `first_index = 0` holds the first `num_glyphs` codes of
`A ++ x :: B`; when the enumeration has at most `num_glyphs` entries, the
filtered size is exactly one less than the unfiltered size. -/
theorem get_charset_filter_one (fuel : Nat) (face : FT_Face) (first_index : Nat)
    (cs : bcharset_t) (L : Nat) (A B : List (Nat × Nat)) (x : Nat × Nat)
    (hcm : face.charmap = true) (h0 : 0 ≤ face.num_glyphs)
    (hmax : face.num_glyphs ≤ INT_MAX) (hend : (cmap_nth face L).2 = 0) (hf : L < fuel)
    (hE : cmap_enum face L = A ++ x :: B) (hx : x.2 < first_index)
    (hA : ∀ e ∈ A, first_index ≤ e.2) (hB : ∀ e ∈ B, first_index ≤ e.2) :
    ∃ rk r0 : bcharset_t,
      get_charset fuel face first_index true cs = Except.ok rk ∧
      get_charset fuel face 0 true cs = Except.ok r0 ∧
      rk.entries = ((A ++ B).map Prod.fst).take face.num_glyphs.toNat ∧
      r0.entries = ((A ++ x :: B).map Prod.fst).take face.num_glyphs.toNat ∧
      (((A ++ x :: B).length : Int) ≤ face.num_glyphs →
        rk.size + 1 = r0.size ∧
        rk.entries = (A ++ B).map Prod.fst ∧
        r0.entries = (A ++ x :: B).map Prod.fst) := by
  obtain ⟨rk, hk1, hk2, _, hk4⟩ :=
    get_charset_charmap_spec fuel face first_index cs L hcm h0 hmax hend hf
  obtain ⟨r0, h01, h02, _, h04⟩ :=
    get_charset_charmap_spec fuel face 0 cs L hcm h0 hmax hend hf
  have ek : cmap_kept face first_index L = (A ++ B).map Prod.fst := by
    unfold cmap_kept
    rw [hE, filter_one_out first_index A B x hx hA hB]
  have e0 : cmap_kept face 0 L = (A ++ x :: B).map Prod.fst := by
    unfold cmap_kept
    rw [hE, filter_zero_all]
  rw [ek] at hk2 hk4
  rw [e0] at h02 h04
  refine ⟨rk, r0, hk1, h01, hk4, h04, ?_⟩
  intro hlen
  have hl : (A ++ x :: B).length ≤ face.num_glyphs.toNat := by omega
  have hl0 : ((A ++ x :: B).map Prod.fst).length ≤ face.num_glyphs.toNat := by
    rw [List.length_map]; exact hl
  have hlk : ((A ++ B).map Prod.fst).length ≤ face.num_glyphs.toNat := by
    rw [List.length_map]
    simp only [List.length_append, List.length_cons] at hl ⊢
    omega
  refine ⟨?_, ?_, ?_⟩
  · rw [hk2, h02, Nat.min_eq_right hlk, Nat.min_eq_right hl0]
    simp only [List.length_map, List.length_append, List.length_cons]
    push_cast
    omega
  · rw [hk4, List.take_of_length_le hlk]
  · rw [h04, List.take_of_length_le hl0]

/-- Witness of C12 (amended), scenario D: the map (65, 7), (66, 2), (67, 6)
of a face with 8 glyphs and `first_index = 5`; the entry with glyph index 2
is left out and the size drops from 3 to 2. -/
theorem get_charset_filter_one_witness :
    ∃ rk r0 : bcharset_t,
      get_charset 4 face_scenario_d 5 true charset_blank = Except.ok rk ∧
      get_charset 4 face_scenario_d 0 true charset_blank = Except.ok r0 ∧
      rk.entries = [65, 67] ∧ r0.entries = [65, 66, 67] ∧ rk.size + 1 = r0.size := by
  obtain ⟨rk, r0, h1, h2, _, _, h5⟩ :=
    get_charset_filter_one 4 face_scenario_d 5 charset_blank 3 [(65, 7)] [(67, 6)] (66, 2)
      rfl (by decide) (by decide) rfl (by decide) rfl (by decide) (by decide) (by decide)
  obtain ⟨h6, h7, h8⟩ := h5 (by decide)
  exact ⟨rk, r0, h1, h2, h7, h8, h6⟩

/-! ## Lemmas on the cases -/

theorem to_uint_nat (j : Nat) (h : (j : Int) ≤ INT_MAX) : to_uint (j : Int) = j := by
  unfold to_uint
  unfold INT_MAX at h
  omega

theorem succeeded_append (a b : List (Nat × Int)) :
    succeeded (a ++ b) = succeeded a + succeeded b := by
  unfold succeeded
  rw [List.filter_append, List.length_append]

theorem succeeded_le (a : List (Nat × Int)) : succeeded a ≤ a.length := by
  unfold succeeded
  exact List.length_filter_le _ _

/-- The loop of `test_load` entered at glyph index `j` with `d` indices left
below `num_glyphs`: it returns, having attempted `j, ..., j + d - 1` once
each in this order and counted the successful loads. -/
theorem load_loop_spec (ops : FT_Ops) (face : FT_Face) (load_flags : Int)
    (hmax : face.num_glyphs ≤ INT_MAX) :
    ∀ (d fuel j : Nat) (done : Int) (w : World) (tried : List (Nat × Int)),
      (j : Int) + (d : Int) = face.num_glyphs ∨ (d = 0 ∧ face.num_glyphs ≤ (j : Int)) →
      d < fuel → 0 ≤ done → done + (d : Int) ≤ INT_MAX →
      ∃ new : List (Nat × Int),
        load_loop ops face load_flags fuel (j : Int) done w tried
          = some (done + (succeeded new : Int), load_world ops face load_flags d j w,
              tried ++ new) ∧
        new.map Prod.fst = List.range' j d := by
  intro d
  induction d with
  | zero =>
    intro fuel j done w tried hj hf _ _
    obtain ⟨f, rfl⟩ : ∃ f, fuel = f + 1 := ⟨fuel - 1, by omega⟩
    refine ⟨[], ?_, rfl⟩
    have hge : ¬ (j : Int) < face.num_glyphs := by
      rcases hj with h | h
      · omega
      · omega
    rw [load_loop, if_neg hge]
    simp [succeeded, load_world]
  | succ d ih =>
    intro fuel j done w tried hj hf hd0 hdmax
    obtain ⟨f, rfl⟩ : ∃ f, fuel = f + 1 := ⟨fuel - 1, by omega⟩
    have hjn : (j : Int) + ((d + 1 : Nat) : Int) = face.num_glyphs := by
      rcases hj with h | h
      · exact h
      · omega
    have hlt : (j : Int) < face.num_glyphs := by omega
    have hjmax : (j : Int) ≤ INT_MAX := by
      unfold INT_MAX at hmax ⊢; omega
    have hj1 : (j : Int) + 1 ≤ INT_MAX := by
      unfold INT_MAX at hmax ⊢; omega
    have hdone1 : in_int_range (done + 1) := by
      unfold in_int_range INT_MIN
      unfold INT_MAX at hdmax ⊢
      omega
    rw [load_loop, if_pos hlt, to_uint_nat j hjmax, wrap_int_nat_succ j hj1,
      wrap_int_of_range hdone1]
    by_cases herr : (ops.FT_Load_Glyph face j load_flags w).1 = 0
    · obtain ⟨new, h1, h2⟩ := ih f (j + 1) (done + 1)
        (ops.FT_Load_Glyph face j load_flags w).2
        (tried ++ [(j, (ops.FT_Load_Glyph face j load_flags w).1)])
        (Or.inl (by push_cast; omega)) (by omega) (by omega) (by push_cast at hdmax ⊢; omega)
      refine ⟨(j, (ops.FT_Load_Glyph face j load_flags w).1) :: new, ?_, ?_⟩
      · rw [if_pos herr, h1]
        have hs : succeeded ((j, (ops.FT_Load_Glyph face j load_flags w).1) :: new)
            = succeeded new + 1 := by
          unfold succeeded
          rw [List.filter_cons, if_pos (by simpa using herr)]
          rfl
        rw [hs]
        simp only [load_world, List.append_assoc, List.singleton_append]
        congr 2
        push_cast
        omega
      · rw [List.map_cons, h2, List.range'_succ]
    · obtain ⟨new, h1, h2⟩ := ih f (j + 1) done
        (ops.FT_Load_Glyph face j load_flags w).2
        (tried ++ [(j, (ops.FT_Load_Glyph face j load_flags w).1)])
        (Or.inl (by push_cast; omega)) (by omega) hd0 (by push_cast at hdmax ⊢; omega)
      refine ⟨(j, (ops.FT_Load_Glyph face j load_flags w).1) :: new, ?_, ?_⟩
      · rw [if_neg herr, h1]
        have hs : succeeded ((j, (ops.FT_Load_Glyph face j load_flags w).1) :: new)
            = succeeded new := by
          unfold succeeded
          rw [List.filter_cons, if_neg (by simpa using herr)]
        rw [hs]
        simp only [load_world, List.append_assoc, List.singleton_append]
      · rw [List.map_cons, h2, List.range'_succ]

/-- The function `test_load` for `first_index ≤ INT_MAX` and
`num_glyphs ≤ INT_MAX`: it returns, with the loads attempted, the count and
the single timed interval around the loop. -/
theorem test_load_spec (ops : FT_Ops) (first_index : Nat) (load_flags : Int) (fuel : Nat)
    (timer : btimer_t) (face : FT_Face) (w : World)
    (hk : (first_index : Int) ≤ INT_MAX) (hmax : face.num_glyphs ≤ INT_MAX)
    (hf : (face.num_glyphs - (first_index : Int)).toNat < fuel) :
    ∃ r : case_run,
      test_load ops first_index load_flags fuel timer face w = some r ∧
      r.tried.map Prod.fst
        = List.range' first_index (face.num_glyphs - (first_index : Int)).toNat ∧
      r.ret = (succeeded r.tried : Int) ∧
      r.timer.total = timer.total +
        (now (load_world ops face load_flags (face.num_glyphs - (first_index : Int)).toNat
            first_index (get_time w).2) - now w) := by
  have hwk : wrap_int (first_index : Int) = (first_index : Int) := by
    apply wrap_int_of_range
    unfold in_int_range INT_MIN
    unfold INT_MAX at hk ⊢
    omega
  obtain ⟨new, h1, h2⟩ := load_loop_spec ops face load_flags hmax
    (face.num_glyphs - (first_index : Int)).toNat fuel first_index 0 (TIMER_START timer w).2 []
    (by
      by_cases h : (first_index : Int) ≤ face.num_glyphs
      · left; omega
      · right; constructor <;> omega)
    hf (le_refl 0)
    (by unfold INT_MAX at hmax ⊢; omega)
  refine ⟨{ ret := 0 + (succeeded new : Int)
            timer := (TIMER_STOP (TIMER_START timer w).1
              (load_world ops face load_flags (face.num_glyphs - (first_index : Int)).toNat
                first_index (TIMER_START timer w).2)).1
            world := (TIMER_STOP (TIMER_START timer w).1
              (load_world ops face load_flags (face.num_glyphs - (first_index : Int)).toNat
                first_index (TIMER_START timer w).2)).2
            tried := [] ++ new }, ?_, ?_, ?_, ?_⟩
  · unfold test_load
    rw [hwk, h1]
  · simpa using h2
  · simp
  · rfl

/-! ### Operations of fixed duration -/

theorem summed_zero (dur : Nat → ℚ) (keep : Nat → Bool) (k : Nat) :
    summed dur keep k 0 = 0 := by
  simp [summed]

theorem summed_succ (dur : Nat → ℚ) (keep : Nat → Bool) (k len : Nat) :
    summed dur keep k (len + 1)
      = (if keep k = true then dur k else 0) + summed dur keep (k + 1) len := by
  unfold summed
  rw [List.range'_succ, List.filter_cons]
  by_cases h : keep k = true
  · simp [h]
  · simp [h]

theorem summed_all_succ (dur : Nat → ℚ) (k len : Nat) :
    summed dur (fun _ => true) k (len + 1) = dur k + summed dur (fun _ => true) (k + 1) len := by
  rw [summed_succ]
  simp

/-- With operations of fixed duration, the loads of `d` glyphs shift the
clock by the sum of their durations and do not read it. -/
theorem load_world_timed (lerr : Nat → Int) (ldur : Nat → ℚ) (rerr : Nat → Int)
    (rdur : Nat → ℚ) (aerr ferr : Int) (face : FT_Face) (load_flags : Int) :
    ∀ (d j : Nat) (w : World),
      (load_world (ops_timed lerr ldur rerr rdur aerr ferr) face load_flags d j w).ticks
        = w.ticks ∧
      ∀ t : Nat,
        (load_world (ops_timed lerr ldur rerr rdur aerr ferr) face load_flags d j w).clock t
          = w.clock t + summed ldur (fun _ => true) j d := by
  intro d
  induction d with
  | zero =>
    intro j w
    refine ⟨rfl, fun t => ?_⟩
    rw [summed_zero]
    simp [load_world]
  | succ d ih =>
    intro j w
    obtain ⟨h1, h2⟩ := ih (j + 1) (advance (ldur j) w)
    refine ⟨h1, fun t => ?_⟩
    have e : load_world (ops_timed lerr ldur rerr rdur aerr ferr) face load_flags (d + 1) j w
        = load_world (ops_timed lerr ldur rerr rdur aerr ferr) face load_flags d (j + 1)
            (advance (ldur j) w) := rfl
    rw [e, h2 t, summed_all_succ]
    simp only [advance]
    ring

/-- With operations of fixed duration and a clock that moves only through
them, one timed render adds the duration of the render to the timer. -/
theorem timed_render_total (ldur rdur : ℚ) (timer : btimer_t) (w : World)
    (hc : ∀ t t' : Nat, w.clock t = w.clock t') :
    (TIMER_STOP (TIMER_START timer (advance ldur w)).1
        (advance rdur (TIMER_START timer (advance ldur w)).2)).1.total
      = timer.total + rdur := by
  simp only [TIMER_START, TIMER_STOP, get_time, advance]
  rw [hc (w.ticks + 1) w.ticks]
  ring

theorem timed_render_clock (ldur rdur : ℚ) (timer : btimer_t) (w : World)
    (hc : ∀ t t' : Nat, w.clock t = w.clock t') :
    ∀ t t' : Nat,
      (TIMER_STOP (TIMER_START timer (advance ldur w)).1
          (advance rdur (TIMER_START timer (advance ldur w)).2)).2.clock t
        = (TIMER_STOP (TIMER_START timer (advance ldur w)).1
          (advance rdur (TIMER_START timer (advance ldur w)).2)).2.clock t' := by
  intro t t'
  simp only [TIMER_START, TIMER_STOP, get_time, advance]
  rw [hc t t']

/-- With operations of fixed duration and a clock that moves only through
them, the loop of `test_render` adds to the timer the duration of every
render it attempts: one for each glyph whose load succeeded. -/
theorem render_loop_timed (lerr : Nat → Int) (ldur : Nat → ℚ) (rerr : Nat → Int)
    (rdur : Nat → ℚ) (aerr ferr : Int) (face : FT_Face) (load_flags render_mode : Int)
    (hmax : face.num_glyphs ≤ INT_MAX) :
    ∀ (d fuel j : Nat) (done : Int) (timer : btimer_t) (w : World),
      (∀ t t' : Nat, w.clock t = w.clock t') →
      (j : Int) + (d : Int) = face.num_glyphs ∨ (d = 0 ∧ face.num_glyphs ≤ (j : Int)) →
      d < fuel →
      ∃ r : Int × btimer_t × World,
        render_loop (ops_timed lerr ldur rerr rdur aerr ferr) face load_flags render_mode
          fuel (j : Int) done timer w = some r ∧
        r.2.1.total = timer.total + summed rdur (fun i => decide (lerr i = 0)) j d := by
  intro d
  induction d with
  | zero =>
    intro fuel j done timer w _ hj hf
    obtain ⟨f, rfl⟩ : ∃ f, fuel = f + 1 := ⟨fuel - 1, by omega⟩
    have hge : ¬ (j : Int) < face.num_glyphs := by
      rcases hj with h | h
      · omega
      · omega
    refine ⟨(done, timer, w), ?_, ?_⟩
    · rw [render_loop, if_neg hge]
    · rw [summed_zero]; simp
  | succ d ih =>
    intro fuel j done timer w hc hj hf
    obtain ⟨f, rfl⟩ : ∃ f, fuel = f + 1 := ⟨fuel - 1, by omega⟩
    have hjn : (j : Int) + ((d + 1 : Nat) : Int) = face.num_glyphs := by
      rcases hj with h | h
      · exact h
      · omega
    have hlt : (j : Int) < face.num_glyphs := by omega
    have hjmax : (j : Int) ≤ INT_MAX := by
      unfold INT_MAX at hmax ⊢; omega
    have hj1 : (j : Int) + 1 ≤ INT_MAX := by
      unfold INT_MAX at hmax ⊢; omega
    have hnext : ((j + 1 : Nat) : Int) + (d : Int) = face.num_glyphs
        ∨ (d = 0 ∧ face.num_glyphs ≤ ((j + 1 : Nat) : Int)) :=
      Or.inl (by push_cast; omega)
    rw [render_loop, if_pos hlt, to_uint_nat j hjmax, wrap_int_nat_succ j hj1, summed_succ]
    have hl : ((ops_timed lerr ldur rerr rdur aerr ferr).FT_Load_Glyph face j load_flags w)
        = (lerr j, advance (ldur j) w) := rfl
    have hr : ∀ w' : World,
        ((ops_timed lerr ldur rerr rdur aerr ferr).FT_Render_Glyph face j render_mode w')
        = (rerr j, advance (rdur j) w') := fun _ => rfl
    simp only [hl, hr]
    by_cases herr : lerr j = 0
    · rw [if_neg (by simpa using herr)]
      obtain ⟨r, h1, h2⟩ := ih f (j + 1)
        (if rerr j = 0 then wrap_int (done + 1) else done)
        (TIMER_STOP (TIMER_START timer (advance (ldur j) w)).1
          (advance (rdur j) (TIMER_START timer (advance (ldur j) w)).2)).1
        (TIMER_STOP (TIMER_START timer (advance (ldur j) w)).1
          (advance (rdur j) (TIMER_START timer (advance (ldur j) w)).2)).2
        (timed_render_clock (ldur j) (rdur j) timer w hc) hnext (by omega)
      refine ⟨r, h1, ?_⟩
      rw [h2, timed_render_total (ldur j) (rdur j) timer w hc]
      simp [herr]
      ring
    · rw [if_pos (by simpa using herr)]
      obtain ⟨r, h1, h2⟩ := ih f (j + 1) done timer (advance (ldur j) w)
        (by intro t t'; simp only [advance]; rw [hc t t']) hnext (by omega)
      refine ⟨r, h1, ?_⟩
      rw [h2]
      simp [herr]

/-! ## The claims on the cases -/

/-- For `first_index ≤ INT_MAX` and `num_glyphs ≤ INT_MAX` (where the
conversion `int i = first_index` keeps the value), `test_load` returns,
having attempted `FT_Load_Glyph` on every glyph index of
`[first_index, num_glyphs)` exactly once in increasing order whatever the
outcome of each load; the count returned is the number of those loads that
returned no error, hence `0 ≤ result ≤ max(0, num_glyphs - first_index)`. -/
theorem test_load_attempts (ops : FT_Ops) (first_index : Nat) (load_flags : Int) (fuel : Nat)
    (timer : btimer_t) (face : FT_Face) (w : World)
    (hk : (first_index : Int) ≤ INT_MAX) (hmax : face.num_glyphs ≤ INT_MAX)
    (hf : (face.num_glyphs - (first_index : Int)).toNat < fuel) :
    ∃ r : case_run,
      test_load ops first_index load_flags fuel timer face w = some r ∧
      r.tried.map Prod.fst
        = List.range' first_index (face.num_glyphs - (first_index : Int)).toNat ∧
      r.ret = ((r.tried.filter (fun e => decide (e.2 = 0))).length : Int) ∧
      0 ≤ r.ret ∧ r.ret ≤ max 0 (face.num_glyphs - (first_index : Int)) := by
  obtain ⟨r, h1, h2, h3, _⟩ :=
    test_load_spec ops first_index load_flags fuel timer face w hk hmax hf
  have hlen : r.tried.length = (face.num_glyphs - (first_index : Int)).toNat := by
    have := congrArg List.length h2
    simpa using this
  have hle := succeeded_le r.tried
  refine ⟨r, h1, h2, h3, by rw [h3]; omega, ?_⟩
  rw [h3]
  omega

/-- An instance: 3 glyphs, the load of glyph 1 fails; all three are
attempted and 2 is returned. -/
theorem test_load_attempts_witness :
    ∃ r : case_run,
      test_load (ops_instant (fun i => if i = 1 then 1 else 0) 0 0) 0 0 4 timer_zero
        (face_plain 3) world_still = some r ∧
      r.tried.map Prod.fst = List.range' 0 3 ∧
      r.ret = ((r.tried.filter (fun e => decide (e.2 = 0))).length : Int) ∧
      0 ≤ r.ret ∧ r.ret ≤ max 0 ((3 : Int) - 0) :=
  test_load_attempts (ops_instant (fun i => if i = 1 then 1 else 0) 0 0) 0 0 4 timer_zero
    (face_plain 3) world_still (by decide) (by decide) (by decide)

/-- C13, the code at the failing input: `test_load` starts its counter at
`(int)first_index`.  With `first_index = 4294967295` (the option `-i -1`)
and a face of 2 glyphs the counter starts at -1, so `FT_Load_Glyph` is
called on the glyph indices 4294967295, 0 and 1, whatever the loads return,
although `[first_index, num_glyphs)` is empty; when the loads of 0 and 1
succeed the count returned is 2, and 3 when all three do, above
`max(0, num_glyphs - first_index) = 0`.  For `first_index ≤ INT_MAX` the
loop does attempt every index of `[first_index, num_glyphs)` once, in
increasing order, and returns the number of loads without error. -/
theorem test_load_first_index_as_int :
    (∀ (ops : FT_Ops) (load_flags : Int) (timer : btimer_t) (w : World),
      (test_load ops 4294967295 load_flags 4 timer (face_plain 2) w).map
          (fun r => r.tried.map Prod.fst)
        = some [4294967295, 0, 1]) ∧
    (test_load (ops_instant (fun i => if i < 2 then 0 else 1) 0 0) 4294967295 0 4 timer_zero
        (face_plain 2) world_still).map (fun r => (r.ret, r.tried))
      = some (2, [(4294967295, 1), (0, 0), (1, 0)]) ∧
    (test_load (ops_instant (fun _ => 0) 0 0) 4294967295 0 4 timer_zero
        (face_plain 2) world_still).map (fun r => (r.ret, r.tried))
      = some (3, [(4294967295, 0), (0, 0), (1, 0)]) ∧
    max 0 ((face_plain 2).num_glyphs - ((4294967295 : Nat) : Int)) = 0 ∧
    List.range' 4294967295 ((face_plain 2).num_glyphs - ((4294967295 : Nat) : Int)).toNat = [] ∧
    (∀ (ops : FT_Ops) (first_index : Nat) (load_flags : Int) (fuel : Nat) (timer : btimer_t)
        (face : FT_Face) (w : World),
      (first_index : Int) ≤ INT_MAX → face.num_glyphs ≤ INT_MAX →
      (face.num_glyphs - (first_index : Int)).toNat < fuel →
      ∃ r : case_run,
        test_load ops first_index load_flags fuel timer face w = some r ∧
        r.tried.map Prod.fst
          = List.range' first_index (face.num_glyphs - (first_index : Int)).toNat ∧
        r.ret = ((r.tried.filter (fun e => decide (e.2 = 0))).length : Int) ∧
        0 ≤ r.ret ∧ r.ret ≤ max 0 (face.num_glyphs - (first_index : Int))) := by
  refine ⟨?_, rfl, rfl, by decide, by decide, ?_⟩
  · intro ops load_flags timer w
    rfl
  · intro ops first_index load_flags fuel timer face w hk hmax hf
    exact test_load_attempts ops first_index load_flags fuel timer face w hk hmax hf

/-- C14, the code at the failing inputs: `test_load_advances` returns
`num_glyphs - first_index` (as an `int`) whatever `FT_Get_Advances` returns,
for instance 3 for a face with 3 glyphs whose advances query is rejected
with error 6; and `test_new_face` returns 1 whatever `get_face` returns, for
instance when it fails with error 1. -/
theorem cases_ignore_errors :
    (∀ (ops : FT_Ops) (first_index : Nat) (timer : btimer_t) (face : FT_Face) (flags : Nat)
        (w : World),
      (test_load_advances ops first_index timer face (user_data_t.flags flags) w).map
          case_run.ret
        = some (wrap_int (0 + (face.num_glyphs - (first_index : Int))))) ∧
    (test_load_advances (ops_instant (fun _ => 0) 6 0) 0 timer_zero (face_plain 3)
        (user_data_t.flags 0) world_still).map (fun r => (r.ret, r.tried))
      = some (3, [(0, 6)]) ∧
    (∀ (ops : FT_Ops) (timer : btimer_t) (w : World), (test_new_face ops timer w).1 = 1) ∧
    (test_new_face (ops_instant (fun _ => 0) 0 1) timer_zero world_still).1 = 1 ∧
    ((ops_instant (fun _ => 0) 0 1).get_face world_still).1 = 1 :=
  ⟨fun _ _ _ _ _ _ => rfl, rfl, fun _ _ _ => rfl, rfl, rfl⟩

/-- C15, the code at the failing input: for a face with 3 glyphs and
`first_index = 5`, `test_load_advances` returns `3 - 5 = -2`, a negative
count, after a single call of `FT_Get_Advances`. -/
theorem test_load_advances_negative :
    (test_load_advances (ops_instant (fun _ => 0) 0 0) 5 timer_zero (face_plain 3)
        (user_data_t.flags 0) world_still).map (fun r => (r.ret, r.tried.length))
      = some (-2, 1) :=
  rfl

/-- C16, as stated, fails: with a face of 1 glyph whose load fails after 3
seconds, `test_load` returns 0 and has added the 3 seconds to the timer;
with a load that succeeds and a render that fails after 3 seconds,
`test_render` returns 0 and has added the 3 seconds to the timer. -/
theorem case_timer_counterexample :
    (test_load (ops_timed (fun _ => 1) (fun _ => 3) (fun _ => 0) (fun _ => 0) 0 0) 0 0 2
        timer_zero (face_plain 1) world_still).map (fun r => (r.ret, r.timer.total))
      = some (0, 3) ∧
    (test_render (ops_timed (fun _ => 0) (fun _ => 0) (fun _ => 1) (fun _ => 3) 0 0) 0 0 0 2
        timer_zero (face_plain 1) world_still).map (fun r => (r.1, r.2.1.total))
      = some (0, 3) := by
  constructor
  · norm_num [test_load, load_loop, ops_timed, TIMER_START, TIMER_STOP, get_time, advance,
      timer_zero, face_plain, world_still, world_of, wrap_int, to_uint]
  · norm_num [test_render, render_loop, ops_timed, TIMER_START, TIMER_STOP, get_time,
      advance, timer_zero, face_plain, world_still, world_of, wrap_int, to_uint]

/-- C16, amended: the timer of a case covers every sub-operation inside its
start/stop pairs, failed or not.  With operations of fixed duration and a
clock that moves only through them (`first_index ≤ INT_MAX`,
`num_glyphs ≤ INT_MAX`): after `test_load` the timer's total has grown by the
summed duration of all loads attempted, those that failed included; after
`test_render` it has grown by the summed duration of all renders attempted,
one for each glyph whose load succeeded and whether the render succeeded or
not, while no load, failed or not, is timed.  For operations of any
behaviour, `test_load` adds the single interval from the clock value read
before the first load to the one read after the last. -/
theorem case_timer_covers_attempts (lerr : Nat → Int) (ldur : Nat → ℚ) (rerr : Nat → Int)
    (rdur : Nat → ℚ) (aerr ferr : Int) (first_index : Nat) (load_flags render_mode : Int)
    (fuel : Nat) (timer : btimer_t) (face : FT_Face) (w : World)
    (hc : ∀ t t' : Nat, w.clock t = w.clock t')
    (hk : (first_index : Int) ≤ INT_MAX) (hmax : face.num_glyphs ≤ INT_MAX)
    (hf : (face.num_glyphs - (first_index : Int)).toNat < fuel) :
    (∃ r : case_run,
      test_load (ops_timed lerr ldur rerr rdur aerr ferr) first_index load_flags fuel timer
        face w = some r ∧
      r.timer.total = timer.total +
        summed ldur (fun _ => true) first_index
          (face.num_glyphs - (first_index : Int)).toNat) ∧
    (∃ r : Int × btimer_t × World,
      test_render (ops_timed lerr ldur rerr rdur aerr ferr) first_index load_flags
        render_mode fuel timer face w = some r ∧
      r.2.1.total = timer.total +
        summed rdur (fun i => decide (lerr i = 0)) first_index
          (face.num_glyphs - (first_index : Int)).toNat) ∧
    (∀ ops : FT_Ops, ∃ r : case_run,
      test_load ops first_index load_flags fuel timer face w = some r ∧
      r.timer.total = timer.total +
        (now (load_world ops face load_flags (face.num_glyphs - (first_index : Int)).toNat
            first_index (get_time w).2) - now w)) := by
  have hwk : wrap_int (first_index : Int) = (first_index : Int) := by
    apply wrap_int_of_range
    unfold in_int_range INT_MIN
    unfold INT_MAX at hk ⊢
    omega
  have hj : (first_index : Int) + (((face.num_glyphs - (first_index : Int)).toNat : Nat) : Int)
        = face.num_glyphs
      ∨ ((face.num_glyphs - (first_index : Int)).toNat = 0
        ∧ face.num_glyphs ≤ (first_index : Int)) := by
    by_cases h : (first_index : Int) ≤ face.num_glyphs
    · left; omega
    · right; constructor <;> omega
  refine ⟨?_, ?_, ?_⟩
  · obtain ⟨r, h1, _, _, h4⟩ := test_load_spec (ops_timed lerr ldur rerr rdur aerr ferr)
      first_index load_flags fuel timer face w hk hmax hf
    refine ⟨r, h1, ?_⟩
    obtain ⟨e1, e2⟩ := load_world_timed lerr ldur rerr rdur aerr ferr face load_flags
      (face.num_glyphs - (first_index : Int)).toNat first_index (get_time w).2
    rw [h4]
    unfold now
    rw [e1, e2]
    simp only [get_time]
    rw [hc (w.ticks + 1) w.ticks]
    ring
  · unfold test_render
    rw [hwk]
    exact render_loop_timed lerr ldur rerr rdur aerr ferr face load_flags render_mode hmax
      (face.num_glyphs - (first_index : Int)).toNat fuel first_index 0 timer w hc hj hf
  · intro ops
    obtain ⟨r, h1, _, _, h4⟩ :=
      test_load_spec ops first_index load_flags fuel timer face w hk hmax hf
    exact ⟨r, h1, h4⟩

/-- Witness of C16 (amended): 2 glyphs, the load of glyph 0 fails after 3
seconds and that of glyph 1 succeeds after 4; renders last 5 seconds. -/
theorem case_timer_covers_attempts_witness :
    (∃ r : case_run,
      test_load (ops_timed (fun i => if i = 0 then 1 else 0) (fun i => if i = 0 then 3 else 4)
        (fun _ => 1) (fun _ => 5) 0 0) 0 0 3 timer_zero (face_plain 2) world_still = some r ∧
      r.timer.total = timer_zero.total +
        summed (fun i => if i = 0 then 3 else 4) (fun _ => true) 0 ((2 : Int) - 0).toNat) ∧
    (∃ r : Int × btimer_t × World,
      test_render (ops_timed (fun i => if i = 0 then 1 else 0)
        (fun i => if i = 0 then 3 else 4) (fun _ => 1) (fun _ => 5) 0 0) 0 0 0 3 timer_zero
        (face_plain 2) world_still = some r ∧
      r.2.1.total = timer_zero.total +
        summed (fun _ => 5) (fun i => decide ((if i = 0 then (1 : Int) else 0) = 0)) 0
          ((2 : Int) - 0).toNat) :=
  ⟨(case_timer_covers_attempts (fun i => if i = 0 then 1 else 0)
      (fun i => if i = 0 then 3 else 4) (fun _ => 1) (fun _ => 5) 0 0 0 0 0 3 timer_zero
      (face_plain 2) world_still (fun _ _ => rfl) (by decide) (by decide) (by decide)).1,
    (case_timer_covers_attempts (fun i => if i = 0 then 1 else 0)
      (fun i => if i = 0 then 3 else 4) (fun _ => 1) (fun _ => 5) 0 0 0 0 0 3 timer_zero
      (face_plain 2) world_still (fun _ _ => rfl) (by decide) (by decide) (by decide)).2.1⟩

/-! ## The claims on the timer -/

/-- A sequence of balanced pairs adds to the total the sum of
(value at stop - value at start) over the pairs. -/
theorem timer_cycles_total :
    ∀ (cs : List ((World → World) × (World → World))) (timer : btimer_t) (w : World),
      TIMER_GET (timer_cycles cs timer w).1
        = timer.total + ((timer_readings cs w).map (fun p => p.2 - p.1)).sum ∧
      (timer_cycles cs timer w).2
        = (cs.foldl (fun st c => (get_time (c.2 (get_time (c.1 st)).2)).2) w) := by
  intro cs
  induction cs with
  | nil =>
    intro timer w
    simp [timer_cycles, timer_readings, TIMER_GET]
  | cons c rest ih =>
    intro timer w
    obtain ⟨h1, h2⟩ := ih
      (TIMER_STOP (TIMER_START timer (c.1 w)).1 (c.2 (TIMER_START timer (c.1 w)).2)).1
      (TIMER_STOP (TIMER_START timer (c.1 w)).1 (c.2 (TIMER_START timer (c.1 w)).2)).2
    constructor
    · rw [timer_cycles, h1]
      simp only [timer_readings, List.map_cons, List.sum_cons, TIMER_START, TIMER_STOP]
      ring
    · rw [timer_cycles, h2]
      rfl

/-- With idle and work phases of fixed length on a clock that moves only
through them, the readings of each pair differ by the length of its work
phase. -/
theorem timer_readings_advance :
    ∀ (ds : List (ℚ × ℚ)) (w : World), (∀ t t' : Nat, w.clock t = w.clock t') →
      ((timer_readings (ds.map (fun d => (advance d.1, advance d.2))) w).map
          (fun p => p.2 - p.1)).sum
        = (ds.map Prod.snd).sum := by
  intro ds
  induction ds with
  | nil => intro w _; simp [timer_readings]
  | cons d rest ih =>
    intro w hc
    have hc' : ∀ t t' : Nat,
        (get_time (advance d.2 (get_time (advance d.1 w)).2)).2.clock t
          = (get_time (advance d.2 (get_time (advance d.1 w)).2)).2.clock t' := by
      intro t t'
      simp only [get_time, advance]
      rw [hc t t']
    have hstep : (get_time (advance d.2 (get_time (advance d.1 w)).2)).1
        - (get_time (advance d.1 w)).1 = d.2 := by
      simp only [get_time, advance]
      rw [hc (w.ticks + 1) w.ticks]
      ring
    simp only [List.map_cons, timer_readings, List.sum_cons]
    rw [ih _ hc', hstep]

/-- C17: after a reset followed by any number of balanced start/stop pairs
(the world changing in any way before each start and between start and
stop), the timer's reading is the sum over the pairs of (clock value at
stop - clock value at the matching start); whatever happens between a stop
and the next start enters only through those values: when idle and work
phases have fixed lengths and the clock moves only through them, the
reading is the sum of the work phases; and `TIMER_GET` returns the total
without producing a new timer. -/
theorem timer_reading_is_sum_of_intervals
    (cs : List ((World → World) × (World → World))) (timer : btimer_t) (w : World) :
    TIMER_GET (timer_cycles cs (TIMER_RESET timer) w).1
      = ((timer_readings cs w).map (fun p => p.2 - p.1)).sum ∧
    (timer_readings cs w).length = cs.length ∧
    (∀ ds : List (ℚ × ℚ), (∀ t t' : Nat, w.clock t = w.clock t') →
      TIMER_GET (timer_cycles (ds.map (fun d => (advance d.1, advance d.2)))
          (TIMER_RESET timer) w).1
        = (ds.map Prod.snd).sum) ∧
    (∀ t : btimer_t, TIMER_GET t = t.total) := by
  refine ⟨?_, ?_, ?_, fun _ => rfl⟩
  · rw [(timer_cycles_total cs (TIMER_RESET timer) w).1]
    simp [TIMER_RESET]
  · clear timer
    induction cs generalizing w with
    | nil => rfl
    | cons c rest ih => simp [timer_readings, ih]
  · intro ds hc
    rw [(timer_cycles_total _ (TIMER_RESET timer) w).1, timer_readings_advance ds w hc]
    simp [TIMER_RESET]

/-- C18, as stated, fails: on a clock reading 0, 1, 2, 3 a start, a second
start, a stop and a second stop all go through; the second start replaces
the start mark 0 by 1, the first stop gives the total 1, and the second stop
changes the total to 3. -/
theorem timer_unbalanced_counterexample :
    (TIMER_START (TIMER_START timer_zero world_counting).1
        (TIMER_START timer_zero world_counting).2).1.t0 = 1 ∧
    (TIMER_STOP (TIMER_START (TIMER_START timer_zero world_counting).1
        (TIMER_START timer_zero world_counting).2).1
      (TIMER_START (TIMER_START timer_zero world_counting).1
        (TIMER_START timer_zero world_counting).2).2).1.total = 1 ∧
    (TIMER_STOP
      (TIMER_STOP (TIMER_START (TIMER_START timer_zero world_counting).1
          (TIMER_START timer_zero world_counting).2).1
        (TIMER_START (TIMER_START timer_zero world_counting).1
          (TIMER_START timer_zero world_counting).2).2).1
      (TIMER_STOP (TIMER_START (TIMER_START timer_zero world_counting).1
          (TIMER_START timer_zero world_counting).2).1
        (TIMER_START (TIMER_START timer_zero world_counting).1
          (TIMER_START timer_zero world_counting).2).2).2).1.total = 3 := by
  norm_num [TIMER_START, TIMER_STOP, get_time, timer_zero, world_counting, world_of]

/-- C18, amended: the timer keeps no record of an open interval and rejects
nothing.  A start always goes through, leaves the total alone and
overwrites the start mark, so of two starts in a row only the second
counts; a stop always goes through and adds (clock value - start mark) to
the total, also when no start preceded it (the mark is then whatever the
timer held) and also a second time in a row. -/
theorem timer_has_no_interval_state (timer : btimer_t) (w w' : World) :
    (TIMER_START timer w).1.total = timer.total ∧
    (TIMER_START timer w).1.t0 = (get_time w).1 ∧
    (TIMER_START (TIMER_START timer w).1 w').1 = (TIMER_START timer w').1 ∧
    (TIMER_STOP timer w).1.total = timer.total + ((get_time w).1 - timer.t0) ∧
    (TIMER_STOP timer w).1.t0 = timer.t0 ∧
    (TIMER_STOP (TIMER_STOP timer w).1 w').1.total
      = timer.total + ((get_time w).1 - timer.t0) + ((get_time w').1 - timer.t0) :=
  ⟨rfl, rfl, rfl, rfl, rfl, rfl⟩

/-! ## The claims on the selection of catalog entries -/

theorem foldl_log_filter (p : Nat → Bool) :
    ∀ (l acc : List Nat),
      l.foldl (fun st i => if p i = true then st ++ [i] else st) acc = acc ++ l.filter p := by
  intro l
  induction l with
  | nil => intro acc; simp
  | cons a l ih =>
    intro acc
    rw [List.foldl_cons, ih, List.filter_cons]
    by_cases h : p a = true
    · simp [h]
    · simp [h]

theorem foldl_entry_filter {σ : Type} (p : Nat → Bool) (entry : Nat → σ → σ) :
    ∀ (l : List Nat) (s : σ),
      l.foldl (fun st i => if p i = true then entry i st else st) s
        = (l.filter p).foldl (fun st i => entry i st) s := by
  intro l
  induction l with
  | nil => intro s; rfl
  | cons a l ih =>
    intro s
    rw [List.foldl_cons, ih, List.filter_cons]
    by_cases h : p a = true
    · simp [h]
    · simp [h]

/-- The entries reached are the catalog indices that pass `TEST`, in
catalog order. -/
theorem dispatched_eq_filter (test_string : Option (List Nat)) :
    dispatched test_string
      = (List.range N_FT_BENCH).filter (fun i => TEST test_string (97 + i)) := by
  unfold dispatched dispatch_loop
  rw [foldl_log_filter (fun i => TEST test_string (97 + i))]
  rfl

theorem TEST_some_iff (f : List Nat) (i : Nat) (hi : i < N_FT_BENCH) :
    TEST (some f) (97 + i) = true ↔ 97 + i ∈ f := by
  unfold N_FT_BENCH at hi
  have hmod : (97 + i) % 256 = 97 + i := by omega
  simp only [TEST, strchr, hmod, Bool.or_eq_true, decide_eq_true_eq]
  constructor
  · rintro (h | h)
    · exact h
    · omega
  · intro h; exact Or.inl h

/-- C19: for a filter string given with `-b` (empty or not), catalog entry
`i` is reached if and only if `i < N_FT_BENCH` and the character `'a' + i`
occurs in the filter; the entries reached are reached in increasing catalog
order, each once; two filters with the same characters, in any order and
with any repetition, reach the same entries; a character that is not a
selector changes nothing; and the loop runs the body of exactly the
entries reached, in that order. -/
theorem dispatch_filter (f : List Nat) :
    (∀ i : Nat, i ∈ dispatched (some f) ↔ i < N_FT_BENCH ∧ 97 + i ∈ f) ∧
    (dispatched (some f)).Pairwise (fun a b => a < b) ∧
    (∀ g : List Nat, (∀ c : Nat, c ∈ f ↔ c ∈ g) →
      dispatched (some g) = dispatched (some f)) ∧
    (∀ c : Nat, (c < 97 ∨ 97 + N_FT_BENCH ≤ c) →
      dispatched (some (c :: f)) = dispatched (some f)) ∧
    (∀ (σ : Type) (entry : Nat → σ → σ) (s : σ),
      dispatch_loop (some f) entry s
        = (dispatched (some f)).foldl (fun st i => entry i st) s) := by
  have hmem : ∀ (h : List Nat) (i : Nat),
      i ∈ dispatched (some h) ↔ i < N_FT_BENCH ∧ 97 + i ∈ h := by
    intro h i
    rw [dispatched_eq_filter, List.mem_filter, List.mem_range]
    constructor
    · rintro ⟨h1, h2⟩
      exact ⟨h1, (TEST_some_iff h i h1).1 h2⟩
    · rintro ⟨h1, h2⟩
      exact ⟨h1, (TEST_some_iff h i h1).2 h2⟩
  have hcongr : ∀ g h : List Nat,
      (∀ i : Nat, i < N_FT_BENCH → (97 + i ∈ g ↔ 97 + i ∈ h)) →
      dispatched (some g) = dispatched (some h) := by
    intro g h hgh
    rw [dispatched_eq_filter, dispatched_eq_filter]
    apply List.filter_congr
    intro i hi
    rw [List.mem_range] at hi
    rw [Bool.eq_iff_iff, TEST_some_iff g i hi, TEST_some_iff h i hi]
    exact hgh i hi
  refine ⟨hmem f, ?_, ?_, ?_, ?_⟩
  · rw [dispatched_eq_filter]
    exact List.Pairwise.filter _ (List.pairwise_lt_range N_FT_BENCH)
  · intro g hfg
    exact hcongr g f (fun i _ => (hfg (97 + i)).symm)
  · intro c hc
    apply hcongr
    intro i hi
    rw [List.mem_cons]
    constructor
    · rintro (h | h)
      · omega
      · exact h
    · intro h; exact Or.inr h
  · intro σ entry s
    rw [dispatched_eq_filter]
    unfold dispatch_loop
    exact foldl_entry_filter (fun i => TEST (some f) (97 + i)) entry _ s

/-- C20, as stated, fails: with the empty string as filter (`-b ""`) no
catalog entry is reached. -/
theorem dispatch_empty_string_counterexample : dispatched (some []) = [] := by
  decide

/-- C20, amended: when no filter is given (`test_string` is NULL) every one
of the `N_FT_BENCH` catalog entries is reached, in catalog order; when the
filter given with `-b` is the empty string, none is. -/
theorem dispatch_absent_or_empty :
    dispatched none = List.range N_FT_BENCH ∧
    (∀ i : Nat, i < N_FT_BENCH → i ∈ dispatched none) ∧
    (∀ i : Nat, i ∉ dispatched (some [])) := by
  have h1 : dispatched none = List.range N_FT_BENCH := by decide
  have h2 : dispatched (some []) = [] := by decide
  refine ⟨h1, ?_, ?_⟩
  · intro i hi
    rw [h1]
    exact List.mem_range.2 hi
  · intro i
    rw [h2]
    exact List.not_mem_nil i

/-! ## ftview and ftgrid: claims on the event handlers -/

/-- C29: for `num_indices ≥ 1`, a current index in `[0, num_indices)` and a
`delta` whose sum with the index is an `int`, `event_index_change` of
ftview.c and of ftgrid.c set the index to
`clamp(index + delta, 0, num_indices - 1)`, which lies in
`[0, num_indices)`; the version of ftview.c returns 1 if the index changed
and 0 if it did not. -/
theorem event_index_change_clamps (index num_indices delta : Int)
    (hn : 1 ≤ num_indices) (hmax : num_indices ≤ INT_MAX)
    (h0 : 0 ≤ index) (h1 : index < num_indices) (hd : in_int_range (index + delta)) :
    (event_index_change index num_indices delta).2
        = max 0 (min (index + delta) (num_indices - 1)) ∧
      ftgrid_event_index_change index num_indices delta
        = max 0 (min (index + delta) (num_indices - 1)) ∧
      0 ≤ (event_index_change index num_indices delta).2 ∧
      (event_index_change index num_indices delta).2 < num_indices ∧
      ((event_index_change index num_indices delta).1 = 1 ↔
        (event_index_change index num_indices delta).2 ≠ index) ∧
      ((event_index_change index num_indices delta).1 = 0 ↔
        (event_index_change index num_indices delta).2 = index) := by
  have hw : wrap_int (index + delta) = index + delta := wrap_int_of_range hd
  have hw1 : wrap_int (num_indices - 1) = num_indices - 1 := by
    apply wrap_int_of_range
    unfold in_int_range INT_MIN
    unfold INT_MAX at hmax ⊢
    omega
  unfold event_index_change ftgrid_event_index_change
  simp only [hw, hw1]
  clear hw hw1 hd
  unfold INT_MAX at hmax
  by_cases ha : index + delta < 0
  · simp only [if_pos ha]
    refine ⟨?_, ?_, ?_, ?_, ?_, ?_⟩
    · omega
    · omega
    · omega
    · omega
    · by_cases hi : index = 0
      · simp [hi]
      · simp only [if_neg hi]
        constructor
        · intro _ h
          exact hi h.symm
        · intro _
          trivial
    · by_cases hi : index = 0
      · simp [hi]
      · simp only [if_neg hi]
        constructor
        · intro h
          exact absurd h (by decide)
        · intro h
          exact absurd h.symm hi
  · simp only [if_neg ha]
    by_cases hb : index + delta ≥ num_indices
    · simp only [if_pos hb]
      refine ⟨?_, ?_, ?_, ?_, ?_, ?_⟩
      · omega
      · omega
      · omega
      · omega
      · by_cases hi : index = num_indices - 1
        · simp [hi]
        · simp only [if_neg hi]
          constructor
          · intro _ h
            exact hi h.symm
          · intro _
            trivial
      · by_cases hi : index = num_indices - 1
        · simp [hi]
        · simp only [if_neg hi]
          constructor
          · intro h
            exact absurd h (by decide)
          · intro h
            exact absurd h.symm hi
    · simp only [if_neg hb]
      refine ⟨?_, ?_, ?_, ?_, ?_, ?_⟩
      · omega
      · omega
      · omega
      · omega
      · by_cases hi : index = index + delta
        · simp only [if_pos hi]
          constructor
          · intro h
            exact absurd h (by decide)
          · intro h
            exact absurd hi.symm h
        · simp only [if_neg hi]
          constructor
          · intro _ h
            exact hi h.symm
          · intro _
            trivial
      · by_cases hi : index = index + delta
        · simp only [if_pos hi]
          constructor
          · intro _
            exact hi.symm
          · intro _
            trivial
        · simp only [if_neg hi]
          constructor
          · intro h
            exact absurd h (by decide)
          · intro h
            exact absurd h.symm hi

/-- Witness for C29: 10 indices, index 3, `delta = -5`: the index becomes 0
and ftview reports a change. -/
theorem event_index_change_clamps_witness :
    (event_index_change 3 10 (-5)).2 = max 0 (min (3 + (-5)) (10 - 1)) ∧
      ftgrid_event_index_change 3 10 (-5) = max 0 (min (3 + (-5)) (10 - 1)) ∧
      0 ≤ (event_index_change 3 10 (-5)).2 ∧
      (event_index_change 3 10 (-5)).2 < 10 ∧
      ((event_index_change 3 10 (-5)).1 = 1 ↔ (event_index_change 3 10 (-5)).2 ≠ 3) ∧
      ((event_index_change 3 10 (-5)).1 = 0 ↔ (event_index_change 3 10 (-5)).2 = 3) :=
  event_index_change_clamps 3 10 (-5) (by decide) (by decide) (by decide) (by decide)
    (by decide)

/-- C30: for every `render_mode` in `[0, N_RENDER_MODES)`,
`event_render_mode_change` with `delta` in `{-1, +1}` leaves
`(render_mode + delta) mod N_RENDER_MODES`, a value in
`[0, N_RENDER_MODES)`; a `+1` step followed by a `-1` step (and the other
way round) restores the mode, `N_RENDER_MODES` successive `+1` steps
restore it, and `delta = 0` leaves it unchanged. -/
theorem event_render_mode_change_cyclic (render_mode : Int)
    (h0 : 0 ≤ render_mode) (h1 : render_mode < N_RENDER_MODES) :
    (∀ delta : Int, delta = -1 ∨ delta = 1 →
        event_render_mode_change render_mode delta = (render_mode + delta) % N_RENDER_MODES ∧
        0 ≤ event_render_mode_change render_mode delta ∧
        event_render_mode_change render_mode delta < N_RENDER_MODES) ∧
      event_render_mode_change (event_render_mode_change render_mode 1) (-1) = render_mode ∧
      event_render_mode_change (event_render_mode_change render_mode (-1)) 1 = render_mode ∧
      Nat.iterate (fun r => event_render_mode_change r 1) N_RENDER_MODES.toNat render_mode
        = render_mode ∧
      event_render_mode_change render_mode 0 = render_mode := by
  have h6 : render_mode < 6 := h1
  refine ⟨?_, ?_, ?_, ?_, ?_⟩
  · intro delta hd
    rcases hd with rfl | rfl <;> interval_cases render_mode <;> decide
  · interval_cases render_mode <;> decide
  · interval_cases render_mode <;> decide
  · interval_cases render_mode <;> decide
  · rfl

/-- Witness for C30: the last mode, 5. -/
theorem event_render_mode_change_cyclic_witness :
    (∀ delta : Int, delta = -1 ∨ delta = 1 →
        event_render_mode_change 5 delta = (5 + delta) % N_RENDER_MODES ∧
        0 ≤ event_render_mode_change 5 delta ∧
        event_render_mode_change 5 delta < N_RENDER_MODES) ∧
      event_render_mode_change (event_render_mode_change 5 1) (-1) = 5 ∧
      event_render_mode_change (event_render_mode_change 5 (-1)) 1 = 5 ∧
      Nat.iterate (fun r => event_render_mode_change r 1) N_RENDER_MODES.toNat 5 = 5 ∧
      event_render_mode_change 5 0 = 5 :=
  event_render_mode_change_cyclic 5 (by decide) (by decide)

theorem lcd_key_cycle_range (N_LCD_MODES : Nat) (antialias next : Bool) (lcd_mode : Int)
    (hN : (N_LCD_MODES : Int) ≤ 2147483582) (h0 : 0 ≤ lcd_mode)
    (h1 : lcd_mode < N_LCD_MODES) :
    0 ≤ lcd_key_cycle N_LCD_MODES antialias next lcd_mode ∧
      lcd_key_cycle N_LCD_MODES antialias next lcd_mode < N_LCD_MODES := by
  have hw1 : wrap_int ((N_LCD_MODES : Int) - 1) = (N_LCD_MODES : Int) - 1 := by
    apply wrap_int_of_range
    unfold in_int_range INT_MIN INT_MAX
    omega
  have hw2 : wrap_int (lcd_mode + 1) = lcd_mode + 1 := by
    apply wrap_int_of_range
    unfold in_int_range INT_MIN INT_MAX
    omega
  have hw3 : wrap_int (lcd_mode - 1) = lcd_mode - 1 := by
    apply wrap_int_of_range
    unfold in_int_range INT_MIN INT_MAX
    omega
  unfold lcd_key_cycle
  rw [hw1, hw2, hw3]
  clear hw1 hw2 hw3
  cases antialias
  · simp only [Bool.false_eq_true, if_false]
    exact ⟨h0, h1⟩
  · simp only [if_true]
    cases next
    · simp only [Bool.false_eq_true, if_false]
      by_cases hz : lcd_mode = 0
      · rw [if_pos hz]
        omega
      · rw [if_neg hz]
        omega
    · simp only [if_true]
      by_cases hz : lcd_mode = (N_LCD_MODES : Int) - 1
      · rw [if_pos hz]
        omega
      · rw [if_neg hz]
        omega

theorem lcd_select_range (N_LCD_MODES : Nat) (key : Int)
    (hN : (N_LCD_MODES : Int) ≤ 2147483582)
    (hk : key ≥ 65 ∧ key < wrap_int (65 + (N_LCD_MODES : Int))) :
    0 ≤ wrap_int (key - 65) ∧ wrap_int (key - 65) < N_LCD_MODES := by
  have hw4 : wrap_int (65 + (N_LCD_MODES : Int)) = 65 + (N_LCD_MODES : Int) := by
    apply wrap_int_of_range
    unfold in_int_range INT_MIN INT_MAX
    omega
  rw [hw4] at hk
  clear hw4
  have hw5 : wrap_int (key - 65) = key - 65 := by
    apply wrap_int_of_range
    unfold in_int_range INT_MIN INT_MAX
    omega
  rw [hw5]
  clear hw5
  omega

theorem lcd_key_select_range (N_LCD_MODES : Nat) (antialias : Bool) (key lcd_mode : Int)
    (hN : (N_LCD_MODES : Int) ≤ 2147483582) (h0 : 0 ≤ lcd_mode)
    (h1 : lcd_mode < N_LCD_MODES) :
    0 ≤ lcd_key_select N_LCD_MODES antialias key lcd_mode ∧
      lcd_key_select N_LCD_MODES antialias key lcd_mode < N_LCD_MODES := by
  unfold lcd_key_select
  cases antialias
  · simp only [Bool.false_eq_true, if_false]
    exact ⟨h0, h1⟩
  · simp only [if_true]
    by_cases he : lcd_mode = wrap_int (key - 65)
    · rw [if_pos he]
      exact ⟨h0, h1⟩
    · rw [if_neg he]
      by_cases hk : key ≥ 65 ∧ key < wrap_int (65 + (N_LCD_MODES : Int))
      · rw [if_pos hk]
        exact lcd_select_range N_LCD_MODES key hN hk
      · rw [if_neg hk]
        exact ⟨h0, h1⟩

theorem Process_Event_lcd_mode_range (N_LCD_MODES : Nat) (key_l key_k : Int)
    (antialias : Bool) (render_mode key lcd_mode : Int)
    (hN : (N_LCD_MODES : Int) ≤ 2147483582) (h0 : 0 ≤ lcd_mode)
    (h1 : lcd_mode < N_LCD_MODES) :
    0 ≤ Process_Event_lcd_mode N_LCD_MODES key_l key_k antialias render_mode key lcd_mode ∧
      Process_Event_lcd_mode N_LCD_MODES key_l key_k antialias render_mode key lcd_mode
        < N_LCD_MODES := by
  unfold Process_Event_lcd_mode
  split_ifs with c1 c2 c3 c4 c5
  · exact ⟨h0, h1⟩
  · exact ⟨h0, h1⟩
  · exact ⟨h0, h1⟩
  · exact lcd_select_range N_LCD_MODES key hN c4.2
  · exact lcd_key_cycle_range N_LCD_MODES antialias _ lcd_mode hN h0 h1
  · exact ⟨h0, h1⟩

/-- C27: the check of the option `-l` lets the value `N_LCD_MODES`
through, and `main` copies it into `handle->lcd_mode`, so the LCD mode is
not always in `[0, N_LCD_MODES)`; the option lets through exactly the
values from 0 to `N_LCD_MODES`, both included.  The keys do keep the range:
from a mode in `[0, N_LCD_MODES)` the keys `l` and `k` and the direct
selection keys give a mode in `[0, N_LCD_MODES)`, and so does
`Process_Event` as a whole for every key, whatever the render mode and the
codes of the keys `l` and `k`. -/
theorem lcd_option_accepts_n_lcd_modes (N_LCD_MODES : Nat) (handle_lcd_mode : Int) :
    option_l N_LCD_MODES N_LCD_MODES = some (N_LCD_MODES : Int) ∧
      lcd_startup N_LCD_MODES handle_lcd_mode = N_LCD_MODES ∧
      ¬ lcd_startup N_LCD_MODES handle_lcd_mode < N_LCD_MODES ∧
      (∀ v r : Int, option_l N_LCD_MODES v = some r ↔ (r = v ∧ 0 ≤ v ∧ v ≤ N_LCD_MODES)) ∧
      (∀ (antialias next : Bool) (key lcd_mode : Int),
        (N_LCD_MODES : Int) ≤ 2147483582 → 0 ≤ lcd_mode → lcd_mode < N_LCD_MODES →
        (0 ≤ lcd_key_cycle N_LCD_MODES antialias next lcd_mode ∧
          lcd_key_cycle N_LCD_MODES antialias next lcd_mode < N_LCD_MODES) ∧
        (0 ≤ lcd_key_select N_LCD_MODES antialias key lcd_mode ∧
          lcd_key_select N_LCD_MODES antialias key lcd_mode < N_LCD_MODES)) ∧
      (∀ (key_l key_k : Int) (antialias : Bool) (render_mode key lcd_mode : Int),
        (N_LCD_MODES : Int) ≤ 2147483582 → 0 ≤ lcd_mode → lcd_mode < N_LCD_MODES →
        0 ≤ Process_Event_lcd_mode N_LCD_MODES key_l key_k antialias render_mode key
            lcd_mode ∧
          Process_Event_lcd_mode N_LCD_MODES key_l key_k antialias render_mode key lcd_mode
            < N_LCD_MODES) ∧
      Process_Event_lcd_mode 6 108 107 true 0 108 5 = 0 ∧
      Process_Event_lcd_mode 6 108 107 true 0 107 0 = 5 ∧
      Process_Event_lcd_mode 6 108 107 true 0 67 5 = 2 ∧
      Process_Event_lcd_mode 6 108 107 true 0 108 43 = 43 := by
  refine ⟨?_, ?_, ?_, ?_, ?_, ?_, by decide, by decide, by decide, by decide⟩
  · unfold option_l
    rw [if_neg]
    omega
  · unfold lcd_startup
    rw [if_pos]
    omega
  · unfold lcd_startup
    rw [if_pos]
    · omega
    · omega
  · intro v r
    unfold option_l
    by_cases h : v < 0 ∨ v > (N_LCD_MODES : Int)
    · rw [if_pos h]
      constructor
      · intro h1
        exact absurd h1 (by simp)
      · rintro ⟨_, h2, h3⟩
        omega
    · rw [if_neg h]
      constructor
      · intro h1
        have h2 : v = r := Option.some.inj h1
        refine ⟨h2.symm, ?_, ?_⟩
        · omega
        · omega
      · rintro ⟨h1, _, _⟩
        rw [h1]
  · intro antialias next key lcd_mode hN h0 h1
    exact ⟨lcd_key_cycle_range N_LCD_MODES antialias next lcd_mode hN h0 h1,
      lcd_key_select_range N_LCD_MODES antialias key lcd_mode hN h0 h1⟩
  · intro key_l key_k antialias render_mode key lcd_mode hN h0 h1
    exact Process_Event_lcd_mode_range N_LCD_MODES key_l key_k antialias render_mode key
      lcd_mode hN h0 h1

/-! ## The claim on the BGRA blit -/

/-- C28: in the blend branch of the BGRA blit (a pixel neither skipped nor
copied) `dst[0]` is computed from the previous `dst[0]`, but `dst[1]` is
computed from the previous `dst[2]` and `dst[2]` from the previous
`dst[1]`; a black source pixel of alpha 128 over the destination bytes
(10, 20, 200) leaves (4, 99, 9), where each channel computed from its own
previous value gives (4, 9, 99).  A skipped pixel leaves the three bytes
unchanged and an opaque one writes red, green, blue. -/
theorem blit_pixel_blend_swaps_channels :
    (∀ (a : Int) (src : bgra_t) (d0 d1 d2 : Nat), a ≠ 0 → a ≠ 255 →
      blit_pixel a src (d0, d1, d2)
        = (to_uchar (Int.tdiv ((d0 : Int) * (255 - (src.ra : Int))) 255 + (src.r : Int)),
           to_uchar (Int.tdiv ((d2 : Int) * (255 - (src.ra : Int))) 255 + (src.g : Int)),
           to_uchar (Int.tdiv ((d1 : Int) * (255 - (src.ra : Int))) 255 + (src.b : Int)))) ∧
      blit_pixel 8 { b := 0, g := 0, r := 0, ra := 128 } (10, 20, 200) = (4, 99, 9) ∧
      blit_pixel_spec 8 { b := 0, g := 0, r := 0, ra := 128 } (10, 20, 200) = (4, 9, 99) ∧
      (∀ (src : bgra_t) (dst : Nat × Nat × Nat), blit_pixel 0 src dst = dst) ∧
      (∀ (src : bgra_t) (dst : Nat × Nat × Nat),
        blit_pixel 255 src dst = (to_uchar src.r, to_uchar src.g, to_uchar src.b)) := by
  refine ⟨?_, by decide, by decide, ?_, ?_⟩
  · intro a src d0 d1 d2 h0 h255
    unfold blit_pixel
    rw [if_neg h0, if_neg h255]
  · intro src dst
    rfl
  · intro src dst
    rfl

/-! ## The claim on the options `-c` and `-t` -/

theorem bench_loop_negative (face : FT_Face) (test : btest_t) (max_iter : Int) (max_time : ℚ)
    (fuel : Nat) (s : bench_state) (hn : s.n = 0) (hm : max_iter < 0) :
    bench_loop face test max_iter max_time (fuel + 1) s = some s := by
  unfold bench_loop
  rw [if_neg]
  rw [hn]
  omega

theorem benchmark_measure_negative (fuel : Nat) (face : FT_Face) (test : btest_t)
    (max_iter : Int) (max_time : ℚ) (timer elapsed : btimer_t) (warmup : List Int) (w : World)
    (hm : max_iter < 0) :
    (benchmark_measure (fuel + 1) face test max_iter max_time timer elapsed warmup w).map
        bench_result.invocations = some 0 := by
  unfold benchmark_measure
  rw [bench_loop_negative face test max_iter max_time fuel _ rfl hm]
  rfl

/-- C26: the branch for `-c` leaves `INT_MIN` as it is (its negation modulo
2^32 is `INT_MIN` again), so `-c -2147483648` hands a negative `max_iter`
to `benchmark`, whose loop condition `!max_iter || n < max_iter` is then
false at `n = 0`: whatever the case, the measured loop makes no invocation.
For every other `int` the value handed over is the absolute value, and for
`-t` it is the absolute value for every number. -/
theorem option_c_int_min_stays_negative (fuel : Nat) (face : FT_Face) (test : btest_t)
    (max_time : ℚ) (timer elapsed : btimer_t) (w : World) :
    option_c INT_MIN = INT_MIN ∧
      option_c INT_MIN < 0 ∧
      ¬ (option_c INT_MIN = 0 ∨ (0 : Int) < option_c INT_MIN) ∧
      (benchmark (fuel + 1) face test (option_c INT_MIN) max_time timer elapsed w).map
          bench_result.invocations = some 0 ∧
      (∀ v : Int, in_int_range v → v ≠ INT_MIN → option_c v = |v| ∧ 0 ≤ option_c v) ∧
      (∀ t : ℚ, option_t t = |t| ∧ 0 ≤ option_t t) := by
  have h1 : option_c INT_MIN = INT_MIN := by decide
  have h2 : option_c INT_MIN < 0 := by decide
  refine ⟨h1, h2, by decide, ?_, ?_, ?_⟩
  · unfold benchmark
    by_cases hc : test.cache_first ≠ 0
    · rw [if_pos hc]
      by_cases hm : w.cache_man = false
      · rw [if_pos hm]
        rfl
      · rw [if_neg hm]
        exact benchmark_measure_negative fuel face test _ max_time _ elapsed _ _ h2
    · rw [if_neg hc]
      exact benchmark_measure_negative fuel face test _ max_time timer elapsed _ w h2
  · intro v hv hne
    unfold in_int_range INT_MIN INT_MAX at hv
    unfold INT_MIN at hne
    unfold option_c
    by_cases hneg : v < 0
    · rw [if_pos hneg]
      have hw : wrap_int (-v) = -v := by
        apply wrap_int_of_range
        unfold in_int_range INT_MIN INT_MAX
        omega
      rw [hw, abs_of_neg hneg]
      clear hw
      constructor
      · rfl
      · omega
    · rw [if_neg hneg]
      have hv0 : 0 ≤ v := by omega
      rw [abs_of_nonneg hv0]
      exact ⟨rfl, hv0⟩
  · intro t
    unfold option_t
    by_cases hneg : t < 0
    · rw [if_pos hneg, abs_of_neg hneg]
      exact ⟨rfl, by linarith⟩
    · rw [if_neg hneg]
      have ht0 : 0 ≤ t := not_lt.1 hneg
      rw [abs_of_nonneg ht0]
      exact ⟨rfl, ht0⟩

/-! ## The claim on the growth of the timer total -/

theorem timer_step_invariant (c : Nat × timer_call) (timer : btimer_t) (w : World)
    (hmono : Monotone w.clock) (h0 : timer.t0 ≤ w.clock w.ticks) :
    (timer_step c (timer, w)).2.clock = w.clock ∧
      (timer_step c (timer, w)).1.t0 ≤ w.clock (timer_step c (timer, w)).2.ticks ∧
      timer.total ≤ (timer_step c (timer, w)).1.total := by
  obtain ⟨k, call⟩ := c
  cases call
  · refine ⟨rfl, ?_, le_refl _⟩
    show w.clock (w.ticks + k) ≤ w.clock (w.ticks + k + 1)
    exact hmono (Nat.le_succ _)
  · refine ⟨rfl, ?_, ?_⟩
    · show timer.t0 ≤ w.clock (w.ticks + k + 1)
      exact le_trans h0 (hmono (by omega))
    · show timer.total ≤ timer.total + (w.clock (w.ticks + k) - timer.t0)
      have h1 : timer.t0 ≤ w.clock (w.ticks + k) := le_trans h0 (hmono (by omega))
      linarith
  · refine ⟨rfl, ?_, le_refl _⟩
    show timer.t0 ≤ w.clock (w.ticks + k)
    exact le_trans h0 (hmono (by omega))

theorem timer_calls_invariant (cs : List (Nat × timer_call)) :
    ∀ (timer : btimer_t) (w : World), Monotone w.clock → timer.t0 ≤ w.clock w.ticks →
      (timer_calls cs (timer, w)).2.clock = w.clock ∧
      (timer_calls cs (timer, w)).1.t0
        ≤ w.clock (timer_calls cs (timer, w)).2.ticks ∧
      timer.total ≤ (timer_calls cs (timer, w)).1.total := by
  induction cs with
  | nil =>
    intro timer w _ h0
    exact ⟨rfl, h0, le_refl _⟩
  | cons c rest ih =>
    intro timer w hmono h0
    have hs := timer_step_invariant c timer w hmono h0
    have hstep : timer_calls (c :: rest) (timer, w)
        = timer_calls rest ((timer_step c (timer, w)).1, (timer_step c (timer, w)).2) := rfl
    have hmono1 : Monotone (timer_step c (timer, w)).2.clock := by
      rw [hs.1]
      exact hmono
    have h01 : (timer_step c (timer, w)).1.t0
        ≤ (timer_step c (timer, w)).2.clock (timer_step c (timer, w)).2.ticks := by
      rw [hs.1]
      exact hs.2.1
    have hr := ih (timer_step c (timer, w)).1 (timer_step c (timer, w)).2 hmono1 h01
    rw [hstep]
    refine ⟨hr.1.trans hs.1, ?_, le_trans hs.2.2 hr.2.2⟩
    have h2 := hr.2.1
    rw [hs.1] at h2
    exact h2

/-- C24, as stated, fails: on a clock that reads 5 and then 3 (the time of
day set back between the two readings) a start followed by a stop takes the
total from 0 to -2. -/
theorem timer_total_decreases_counterexample :
    TIMER_GET (timer_calls [(0, timer_call.start)] (timer_zero, world_backwards)).1 = 0 ∧
      TIMER_GET (timer_calls [(0, timer_call.start), (0, timer_call.stop)]
        (timer_zero, world_backwards)).1 = -2 ∧
      ¬ (TIMER_GET (timer_calls [(0, timer_call.start)] (timer_zero, world_backwards)).1
        ≤ TIMER_GET (timer_calls [(0, timer_call.start), (0, timer_call.stop)]
          (timer_zero, world_backwards)).1) := by
  norm_num [timer_calls, timer_step, TIMER_GET, TIMER_START, TIMER_STOP, get_time, timer_zero,
    world_backwards, world_of]

/-- C24, amended: when the clock never runs backwards and the start mark the
timer holds at the beginning is not ahead of the clock, then in every
sequence of start, stop and read calls without a reset (the clock being read
any number of times by others in between) the total after each call is at
least the total before it, and so at least the total at the beginning; a
start and a read leave the total as it is. -/
theorem timer_total_only_grows (cs : List (Nat × timer_call)) (c : Nat × timer_call)
    (timer : btimer_t) (w : World)
    (hmono : Monotone w.clock) (h0 : timer.t0 ≤ w.clock w.ticks) :
    TIMER_GET (timer_calls cs (timer, w)).1
        ≤ TIMER_GET (timer_calls (cs ++ [c]) (timer, w)).1 ∧
      TIMER_GET timer ≤ TIMER_GET (timer_calls cs (timer, w)).1 ∧
      (c.2 ≠ timer_call.stop →
        TIMER_GET (timer_calls (cs ++ [c]) (timer, w)).1
          = TIMER_GET (timer_calls cs (timer, w)).1) := by
  have hinv := timer_calls_invariant cs timer w hmono h0
  have happ : timer_calls (cs ++ [c]) (timer, w)
      = timer_step c ((timer_calls cs (timer, w)).1, (timer_calls cs (timer, w)).2) := by
    unfold timer_calls
    rw [List.foldl_append]
    rfl
  have hmono1 : Monotone (timer_calls cs (timer, w)).2.clock := by
    rw [hinv.1]
    exact hmono
  have h01 : (timer_calls cs (timer, w)).1.t0
      ≤ (timer_calls cs (timer, w)).2.clock (timer_calls cs (timer, w)).2.ticks := by
    rw [hinv.1]
    exact hinv.2.1
  have hs := timer_step_invariant c (timer_calls cs (timer, w)).1 (timer_calls cs (timer, w)).2
    hmono1 h01
  refine ⟨?_, hinv.2.2, ?_⟩
  · rw [happ]
    exact hs.2.2
  · intro hc
    rw [happ]
    obtain ⟨k, call⟩ := c
    cases call
    · rfl
    · exact absurd rfl hc
    · rfl

/-- Witness for C24, amended: on the clock reading 0, 1, 2, ... a start, a
stop, a read and a second stop (which adds 3 - 0). -/
theorem timer_total_only_grows_witness :
    TIMER_GET (timer_calls [(0, timer_call.start), (0, timer_call.stop), (1, timer_call.read)]
          (timer_zero, world_counting)).1
        ≤ TIMER_GET (timer_calls ([(0, timer_call.start), (0, timer_call.stop),
          (1, timer_call.read)] ++ [(0, timer_call.stop)]) (timer_zero, world_counting)).1 ∧
      TIMER_GET timer_zero
        ≤ TIMER_GET (timer_calls [(0, timer_call.start), (0, timer_call.stop),
          (1, timer_call.read)] (timer_zero, world_counting)).1 ∧
      ((0, timer_call.stop).2 ≠ timer_call.stop →
        TIMER_GET (timer_calls ([(0, timer_call.start), (0, timer_call.stop),
          (1, timer_call.read)] ++ [(0, timer_call.stop)]) (timer_zero, world_counting)).1
          = TIMER_GET (timer_calls [(0, timer_call.start), (0, timer_call.stop),
            (1, timer_call.read)] (timer_zero, world_counting)).1) :=
  timer_total_only_grows [(0, timer_call.start), (0, timer_call.stop), (1, timer_call.read)]
    (0, timer_call.stop) timer_zero world_counting
    (by
      intro a b hab
      simp only [world_counting, world_of]
      exact_mod_cast hab)
    (by norm_num [timer_zero, world_counting, world_of])

/-! ## The claim on the exit status -/

/-- C23: when `get_face` returns an error (here: the font file cannot be
opened, with or without preloading), `main` jumps to `Exit` and returns 0,
not 1; so it does for every nonzero error of `get_face`.  The other early
ends do give 1: a failing `FT_Init_FreeType`, `usage()`, and a failing
`FT_Set_Pixel_Sizes`. -/
theorem main_exit_status_on_get_face_error (preload size : Int) (scalable : Bool) (sp : Int) :
    (get_face preload false file_env_missing).1 ≠ 0 ∧
      main_exit 0 cmdline_t.proceed (get_face preload false file_env_missing).1 size scalable sp = 0 ∧
      (∀ e : Int, e ≠ 0 → main_exit 0 cmdline_t.proceed e size scalable sp = 0) ∧
      (∀ (i : Int) (c : cmdline_t) (e : Int), i ≠ 0 → main_exit i c e size scalable sp = 1) ∧
      (∀ e : Int, main_exit 0 cmdline_t.usage e size scalable sp = 1) ∧
      (∀ s p : Int, s ≠ 0 → p ≠ 0 → main_exit 0 cmdline_t.proceed 0 s true p = 1) := by
  have hg : (get_face preload false file_env_missing).1 = 1 := by
    unfold get_face
    by_cases hp : preload ≠ 0
    · rw [if_pos hp]
      rfl
    · rw [if_neg hp]
      rfl
  refine ⟨?_, ?_, ?_, ?_, ?_, ?_⟩
  · rw [hg]
    decide
  · rw [hg]
    rfl
  · intro e he
    unfold main_exit
    simp [he]
  · intro i c e hi
    unfold main_exit
    simp [hi]
  · intro e
    rfl
  · intro s p hs hp
    unfold main_exit
    simp [hs, hp]

/-! ## Lemmas on the loop of `main` -/

theorem main_dispatch_eq_foldl (env : main_env) (test_string : Option (List Nat)) :
    main_dispatch env test_string
      = ((List.range N_FT_BENCH).filter (fun i => TEST test_string (97 + i))).foldl
          (fun st i => main_step env i st) (Except.ok []) := by
  unfold main_dispatch dispatch_loop
  exact foldl_entry_filter (fun i => TEST test_string (97 + i)) (main_step env) _ _

theorem main_entry_append (env : main_env) (i : Nat) (tr : List Action) :
    main_entry env i tr = (main_entry env i []).map (fun l => tr ++ l) := by
  unfold main_entry
  split
  case h_6 =>
    cases get_charset env.fuel env.face env.first_index env.alloc_ok env.charset with
    | error e => rfl
    | ok charset =>
      by_cases hc : charset.code.isSome = true
      · simp [Except.map, hc]
      · simp [Except.map, hc]
  all_goals first
    | rfl
    | simp [Except.map]

theorem main_step_ok (env : main_env) (i : Nat) (st : Except Fault (List Action))
    (tr : List Action) (h : main_step env i st = Except.ok tr) :
    ∃ tr0 l, st = Except.ok tr0 ∧ main_entry env i [] = Except.ok l ∧ tr = tr0 ++ l := by
  cases st with
  | error e => exact absurd h (by simp [main_step])
  | ok tr0 =>
    have h1 : main_entry env i tr0 = Except.ok tr := h
    rw [main_entry_append] at h1
    cases hl : main_entry env i [] with
    | error e =>
      rw [hl] at h1
      exact absurd h1 (by simp [Except.map])
    | ok l =>
      rw [hl] at h1
      refine ⟨tr0, l, rfl, rfl, ?_⟩
      have h2 : Except.ok (tr0 ++ l) = (Except.ok tr : Except Fault (List Action)) := h1
      exact (Except.ok.inj h2).symm

theorem main_fold_ok (env : main_env) :
    ∀ (l : List Nat) (st : Except Fault (List Action)) (tr : List Action),
      l.foldl (fun st i => main_step env i st) st = Except.ok tr →
      (∃ tr0, st = Except.ok tr0 ∧ ∀ a ∈ tr0, a ∈ tr) ∧
      (∀ i ∈ l, ∀ li, main_entry env i [] = Except.ok li → ∀ a ∈ li, a ∈ tr) ∧
      (∀ a ∈ tr, (∃ tr0, st = Except.ok tr0 ∧ a ∈ tr0) ∨
        ∃ i ∈ l, ∃ li, main_entry env i [] = Except.ok li ∧ a ∈ li) := by
  intro l
  induction l with
  | nil =>
    intro st tr h
    refine ⟨⟨tr, h, fun a ha => ha⟩, ?_, ?_⟩
    · intro i hi
      exact absurd hi (List.not_mem_nil i)
    · intro a ha
      exact Or.inl ⟨tr, h, ha⟩
  | cons j rest ih =>
    intro st tr h
    rw [List.foldl_cons] at h
    obtain ⟨⟨tr1, h1, h1sub⟩, hmem, hfrom⟩ := ih _ tr h
    obtain ⟨tr0, lj, hst, hlj, htr1⟩ := main_step_ok env j st tr1 h1
    refine ⟨⟨tr0, hst, ?_⟩, ?_, ?_⟩
    · intro a ha
      apply h1sub
      rw [htr1]
      exact List.mem_append_left _ ha
    · intro i hi li hli a ha
      rcases List.mem_cons.1 hi with rfl | hi
      · apply h1sub
        rw [htr1]
        rw [hlj] at hli
        have : lj = li := Except.ok.inj hli
        rw [this]
        exact List.mem_append_right _ ha
      · exact hmem i hi li hli a ha
    · intro a ha
      rcases hfrom a ha with ⟨tr1', h1', ha1⟩ | ⟨i, hi, li, hli, hai⟩
      · rw [h1] at h1'
        have e : tr1 = tr1' := Except.ok.inj h1'
        rw [← e, htr1] at ha1
        rcases List.mem_append.1 ha1 with h0 | hj
        · exact Or.inl ⟨tr0, hst, h0⟩
        · exact Or.inr ⟨j, List.mem_cons_self _ _, lj, hlj, hj⟩
      · exact Or.inr ⟨i, List.mem_cons_of_mem _ hi, li, hli, hai⟩

/-- An action is in the trace of a finished run exactly when it is one of
the actions of a selected catalog entry. -/
theorem main_dispatch_mem (env : main_env) (test_string : Option (List Nat))
    (tr : List Action) (h : main_dispatch env test_string = Except.ok tr) (a : Action) :
    a ∈ tr ↔ ∃ i, i < N_FT_BENCH ∧ TEST test_string (97 + i) = true ∧
      ∃ li, main_entry env i [] = Except.ok li ∧ a ∈ li := by
  rw [main_dispatch_eq_foldl] at h
  obtain ⟨_, hmem, hfrom⟩ := main_fold_ok env _ _ tr h
  constructor
  · intro ha
    rcases hfrom a ha with ⟨tr0, h0, ha0⟩ | ⟨i, hi, li, hli, hai⟩
    · have e : ([] : List Action) = tr0 := Except.ok.inj h0
      rw [← e] at ha0
      exact absurd ha0 (List.not_mem_nil a)
    · rw [List.mem_filter, List.mem_range] at hi
      exact ⟨i, hi.1, hi.2, li, hli, hai⟩
  · rintro ⟨i, hi, ht, li, hli, hai⟩
    apply hmem i _ li hli a hai
    rw [List.mem_filter, List.mem_range]
    exact ⟨hi, ht⟩

/-- The actions of one catalog entry, on their own. -/
theorem main_entry_actions (env : main_env) (i : Nat) (li : List Action)
    (h : main_entry env i [] = Except.ok li) (a : Action) (ha : a ∈ li) :
    (∃ t, a = Action.benchmark t ∧
      ((uses_cache t.bench = true ∧ t.cache_first = 1 ∧ env.compare_cached ≠ 0)
        ∨ (uses_cache t.bench = false ∧ t.cache_first = 0)) ∧
      ((t.bench = some case_id.test_render ∨ t.bench = some case_id.test_embolden ∨
        t.bench = some case_id.test_sbit_cache) → env.size ≠ 0) ∧
      ((t.bench = some case_id.test_get_char_index ∨ t.bench = some case_id.test_cmap_cache) →
        ∃ charset, get_charset env.fuel env.face env.first_index env.alloc_ok env.charset
            = Except.ok charset ∧ charset.code.isSome = true ∧
          t.user_data = user_data_t.charset charset))
    ∨ (∃ title, a = Action.disabled title ∧ env.size = 0) := by
  unfold main_entry at h
  split at h
  case h_6 =>
    cases hg : get_charset env.fuel env.face env.first_index env.alloc_ok env.charset with
    | error e =>
      rw [hg] at h
      exact absurd h (by simp)
    | ok charset =>
      rw [hg] at h
      dsimp only at h
      by_cases hcode : charset.code.isSome = true
      · rw [if_pos hcode] at h
        have e := Except.ok.inj h
        subst e
        clear h
        by_cases hc : env.compare_cached = 0
        · simp [test_cleared, hc] at ha
          subst ha
          simp [uses_cache, hcode]
        · simp [test_cleared, hc] at ha
          rcases ha with rfl | rfl
          · simp [uses_cache, hcode]
          · simp [uses_cache, hc, hcode]
      · rw [if_neg hcode] at h
        have e := Except.ok.inj h
        subst e
        exact absurd ha (List.not_mem_nil a)
  all_goals
    have e := Except.ok.inj h
    subst e
    clear h
    by_cases hs : env.size = 0 <;> by_cases hc : env.compare_cached = 0 <;>
      simp [bench_if_size, test_cleared, hs, hc] at ha <;>
      (rcases ha with rfl | rfl | rfl) <;>
      simp [uses_cache, hs, hc]

theorem benchmark_without_cache_manager (fuel : Nat) (face : FT_Face) (test : btest_t)
    (max_iter : Int) (max_time : ℚ) (timer elapsed : btimer_t) (w : World)
    (hc : test.cache_first ≠ 0) (hm : w.cache_man = false) :
    benchmark fuel face test max_iter max_time timer elapsed w
      = some { world := printf (Out.no_cache_manager test.title) w
               warmup := []
               final := none } := by
  unfold benchmark
  rw [if_pos hc, if_pos hm]

/-! ## The claims on the loop of `main` -/

/-- C22, as stated, fails: for a face of 3 glyphs without character map and
`first_index = 5`, `get_charset` yields a charset of size 0 (the array is
allocated, nothing is written), and the dispatcher, asked for entry `f`
only, calls `benchmark` for `Get_Char_Index` and for
`Get_Char_Index (cached)` with that charset. -/
theorem dispatch_zero_size_charset_counterexample :
    get_charset 10 (face_plain 3) 5 true charset_blank
        = Except.ok { size := 0, code := some [0, 0, 0] } ∧
      main_dispatch (env_sample (face_plain 3) 5 1) (some [102])
        = Except.ok
            [Action.benchmark
              { title := "Get_Char_Index", bench := some case_id.test_get_char_index,
                cache_first := 0,
                user_data := user_data_t.charset { size := 0, code := some [0, 0, 0] } },
             Action.benchmark
              { title := "Get_Char_Index (cached)", bench := some case_id.test_cmap_cache,
                cache_first := 1,
                user_data := user_data_t.charset { size := 0, code := some [0, 0, 0] } }] :=
  ⟨rfl, rfl⟩

/-- C22, amended: what the dispatcher looks at is the array of the charset,
not its size.  When `get_charset` leaves `code` NULL (the allocation
failed), entry `f` does nothing and the loop goes on: no call of
`benchmark` is made for `test_get_char_index` or `test_cmap_cache` in the
whole run.  When `code` is not NULL, whatever the size, a selected entry
`f` calls `benchmark` for `Get_Char_Index` with the charset, and for
`Get_Char_Index (cached)` as well when `compare_cached` is set. -/
theorem dispatch_charset_null_skips (env : main_env) (test_string : Option (List Nat))
    (charset : bcharset_t)
    (hg : get_charset env.fuel env.face env.first_index env.alloc_ok env.charset
      = Except.ok charset) :
    (charset.code = none →
      (∀ tr : List Action, main_entry env 5 tr = Except.ok tr) ∧
      (∀ tr : List Action, main_dispatch env test_string = Except.ok tr →
        ∀ t : dtest_t, Action.benchmark t ∈ tr →
          t.bench ≠ some case_id.test_get_char_index ∧
            t.bench ≠ some case_id.test_cmap_cache)) ∧
    (charset.code ≠ none → TEST test_string (97 + 5) = true →
      ∀ tr : List Action, main_dispatch env test_string = Except.ok tr →
        Action.benchmark
            { title := "Get_Char_Index", bench := some case_id.test_get_char_index,
              cache_first := 0, user_data := user_data_t.charset charset } ∈ tr ∧
          (env.compare_cached ≠ 0 →
            Action.benchmark
              { title := "Get_Char_Index (cached)", bench := some case_id.test_cmap_cache,
                cache_first := 1, user_data := user_data_t.charset charset } ∈ tr)) := by
  constructor
  · intro hnone
    have hsome : ¬ charset.code.isSome = true := by
      rw [hnone]
      simp
    constructor
    · intro tr
      show (match get_charset env.fuel env.face env.first_index env.alloc_ok env.charset with
        | Except.error e => Except.error e
        | Except.ok charset => _) = _
      rw [hg]
      dsimp only
      rw [if_neg hsome]
    · intro tr htr t ht
      obtain ⟨i, _, _, li, hli, hai⟩ := (main_dispatch_mem env test_string tr htr _).1 ht
      rcases main_entry_actions env i li hli _ hai with ⟨t1, h1, _, _, h4⟩ | ⟨title, h1, _⟩
      · have e : t = t1 := Action.benchmark.inj h1
        rw [← e] at h4
        have hno : ¬ (t.bench = some case_id.test_get_char_index ∨
            t.bench = some case_id.test_cmap_cache) := by
          intro hb
          obtain ⟨c, hc1, hc2, _⟩ := h4 hb
          rw [hg] at hc1
          have e2 : charset = c := Except.ok.inj hc1
          rw [← e2] at hc2
          exact hsome hc2
        exact ⟨fun hb => hno (Or.inl hb), fun hb => hno (Or.inr hb)⟩
      · exact absurd h1 (by simp)
  · intro hcode hsel tr htr
    have hsome : charset.code.isSome = true := by
      cases hc : charset.code with
      | none => exact absurd hc hcode
      | some c => rfl
    have h5 : main_entry env 5 []
        = Except.ok ([] ++
            [Action.benchmark
              { title := "Get_Char_Index", bench := some case_id.test_get_char_index,
                cache_first := 0, user_data := user_data_t.charset charset }] ++
            (if env.compare_cached ≠ 0 then
              [Action.benchmark
                { title := "Get_Char_Index (cached)", bench := some case_id.test_cmap_cache,
                  cache_first := 1, user_data := user_data_t.charset charset }]
             else [])) := by
      show (match get_charset env.fuel env.face env.first_index env.alloc_ok env.charset with
        | Except.error e => Except.error e
        | Except.ok charset => _) = _
      rw [hg]
      dsimp only
      rw [if_pos hsome]
      rfl
    constructor
    · apply (main_dispatch_mem env test_string tr htr _).2
      refine ⟨5, by decide, hsel, _, h5, ?_⟩
      simp
    · intro hc
      apply (main_dispatch_mem env test_string tr htr _).2
      refine ⟨5, by decide, hsel, _, h5, ?_⟩
      simp [hc]

/-- Witness for C22, amended: the allocator failing, `get_charset` leaves
`code` NULL. -/
theorem dispatch_charset_null_skips_witness :
    (charset_blank.code = none →
      (∀ tr : List Action,
        main_entry { env_sample (face_plain 3) 5 1 with alloc_ok := false } 5 tr
          = Except.ok tr) ∧
      (∀ tr : List Action,
        main_dispatch { env_sample (face_plain 3) 5 1 with alloc_ok := false } none
          = Except.ok tr →
        ∀ t : dtest_t, Action.benchmark t ∈ tr →
          t.bench ≠ some case_id.test_get_char_index ∧
            t.bench ≠ some case_id.test_cmap_cache)) ∧
    (charset_blank.code ≠ none → TEST none (97 + 5) = true →
      ∀ tr : List Action,
        main_dispatch { env_sample (face_plain 3) 5 1 with alloc_ok := false } none
          = Except.ok tr →
        Action.benchmark
            { title := "Get_Char_Index", bench := some case_id.test_get_char_index,
              cache_first := 0, user_data := user_data_t.charset charset_blank } ∈ tr ∧
          ((({ env_sample (face_plain 3) 5 1 with alloc_ok := false } : main_env)).compare_cached
              ≠ 0 →
            Action.benchmark
              { title := "Get_Char_Index (cached)", bench := some case_id.test_cmap_cache,
                cache_first := 1, user_data := user_data_t.charset charset_blank } ∈ tr)) :=
  dispatch_charset_null_skips { env_sample (face_plain 3) 5 1 with alloc_ok := false } none
    charset_blank rfl

/-- C25: in every finished run of the dispatcher, each call of `benchmark`
for a case that uses the cache (`test_image_cache`, `test_sbit_cache`,
`test_cmap_cache`) is made with `cache_first = 1` and with `compare_cached`
set, and each call for any other case is made with `cache_first = 0`; and
`benchmark`, called with the `cache_first` of a cache case while the cache
manager is absent, returns after printing the `no cache manager` line,
without invoking the case. -/
theorem dispatch_cache_first (env : main_env) (test_string : Option (List Nat))
    (tr : List Action) (t : dtest_t)
    (htr : main_dispatch env test_string = Except.ok tr) (ht : Action.benchmark t ∈ tr) :
    (uses_cache t.bench = true → t.cache_first = 1 ∧ env.compare_cached ≠ 0) ∧
    (uses_cache t.bench = false → t.cache_first = 0) ∧
    (uses_cache t.bench = true →
      ∀ (fuel : Nat) (face : FT_Face) (test : btest_t) (max_iter : Int) (max_time : ℚ)
        (timer elapsed : btimer_t) (w : World),
        test.cache_first = t.cache_first → w.cache_man = false →
        benchmark fuel face test max_iter max_time timer elapsed w
          = some { world := printf (Out.no_cache_manager test.title) w
                   warmup := []
                   final := none }) := by
  obtain ⟨i, _, _, li, hli, hai⟩ := (main_dispatch_mem env test_string tr htr _).1 ht
  rcases main_entry_actions env i li hli _ hai with ⟨t1, h1, h2, _, _⟩ | ⟨title, h1, _⟩
  · have e : t = t1 := Action.benchmark.inj h1
    rw [← e] at h2
    have hc1 : uses_cache t.bench = true → t.cache_first = 1 ∧ env.compare_cached ≠ 0 := by
      intro hu
      rcases h2 with ⟨_, h3, h4⟩ | ⟨h3, _⟩
      · exact ⟨h3, h4⟩
      · rw [hu] at h3
        exact absurd h3 (by decide)
    refine ⟨hc1, ?_, ?_⟩
    · intro hu
      rcases h2 with ⟨h3, _, _⟩ | ⟨_, h3⟩
      · rw [hu] at h3
        exact absurd h3 (by decide)
      · exact h3
    · intro hu fuel face test max_iter max_time timer elapsed w hcf hm
      apply benchmark_without_cache_manager
      · rw [hcf, (hc1 hu).1]
        decide
      · exact hm
  · exact absurd h1 (by simp)

/-- Witness for C25: entry `a` alone with a nonzero size and
`compare_cached` set, at the call for `Load (sbit cached)`. -/
theorem dispatch_cache_first_witness :
    (uses_cache (some case_id.test_sbit_cache) = true →
      (1 : Int) = 1 ∧ (env_sample (face_plain 3) 0 1).compare_cached ≠ 0) ∧
    (uses_cache (some case_id.test_sbit_cache) = false → (1 : Int) = 0) ∧
    (uses_cache (some case_id.test_sbit_cache) = true →
      ∀ (fuel : Nat) (face : FT_Face) (test : btest_t) (max_iter : Int) (max_time : ℚ)
        (timer elapsed : btimer_t) (w : World),
        test.cache_first = 1 → w.cache_man = false →
        benchmark fuel face test max_iter max_time timer elapsed w
          = some { world := printf (Out.no_cache_manager test.title) w
                   warmup := []
                   final := none }) :=
  dispatch_cache_first (env_sample (face_plain 3) 0 1) (some [97])
    [Action.benchmark
      { title := "Load", bench := some case_id.test_load, cache_first := 0,
        user_data := user_data_t.null },
     Action.benchmark
      { title := "Load (image cached)", bench := some case_id.test_image_cache,
        cache_first := 1, user_data := user_data_t.null },
     Action.benchmark
      { title := "Load (sbit cached)", bench := some case_id.test_sbit_cache,
        cache_first := 1, user_data := user_data_t.null }]
    { title := "Load (sbit cached)", bench := some case_id.test_sbit_cache,
      cache_first := 1, user_data := user_data_t.null }
    rfl (by simp)

end FtBench
